import Mathlib

/-!
Anomaly monitoring controller: a shallow embedding of `anomaly_monitoring_controller.cpp` / `.h`.

Modelling conventions.

* A C++ `double` is a rational number; NaN and the infinities are not represented.  In the
  recovery ramp, where rounding decides how many commands are issued, every arithmetic result is
  rounded to the nearest binary64 value by `toDouble`.  The threshold products of the detector,
  the classifier and the resolution test (`1.1 * normal_voltage_` and the like) are taken
  exactly, where the compiled code rounds them: the two differ only for a reading within one
  unit in the last place of such a product.  Comparisons with the literals 49.0, 49.5, 50.5 and
  51.0 involve no rounding.
* A `system_clock::time_point` is an integer count of clock periods; `periodsPerMs` periods make
  one millisecond.  Every call of `system_clock::now()` is an input of the function that makes it.
* What a callback does is outside the controller.  A callback is modelled by a flag saying
  whether one is registered, and every invocation is appended to a trace of `Effect`s.
* `std::map<std::string, AnomalyInfo>` is a list of key/value pairs kept in increasing key order,
  which is the order in which a range-for visits it.
* `std::this_thread::sleep_for` only lets time pass and is not modelled.
* The mutexes are not modelled: every operation runs to completion before the next one starts.
* `confirmSafetyAnomalyRecovery` passes `handleAnomalyRecovery` a reference into a map node it
  has just erased.  What is read through that reference is an input of the operation.
-/

namespace AnomalyMonitoringController

/-! ## Data model (`anomaly_monitoring_controller.h`) -/

/-- Severity of an anomaly, `enum class AnomalyLevel`. -/
inductive AnomalyLevel
  | INFO
  | WARNING
  | CRITICAL
  deriving DecidableEq, Repr

/-- Kind of an anomaly, `enum class AnomalyType`. -/
inductive AnomalyType
  | DEVICE_FAULT
  | GRID_FAULT
  | SAFETY_FAULT
  deriving DecidableEq, Repr

/-- One anomaly record, `struct AnomalyInfo`. -/
structure AnomalyInfo where
  type : AnomalyType
  level : AnomalyLevel
  device_id : String
  description : String
  start_time : Int
  end_time : Int
  is_handled : Bool
  needs_manual_confirmation : Bool
  deriving DecidableEq, Repr

/-- One telemetry snapshot, `struct SystemStatus`. -/
structure SystemStatus where
  pv_power : ℚ
  wind_power : ℚ
  ess_power : ℚ
  hydrogen_power : ℚ
  grid_voltage : ℚ
  grid_frequency : ℚ
  hydrogen_concentration : ℚ
  hydrogen_tank_pressure : ℚ
  pv_inverter_fault : Bool
  wind_controller_fault : Bool
  ess_pcs_fault : Bool
  electrolyzer_fault : Bool
  is_island_mode : Bool
  deriving DecidableEq

/-- One callback invocation.  `mitigation d` is a ghost event, not a callback: it is logged when
`handleAnomaly` enters its `switch (anomaly.level)` for the candidate with description `d`. -/
inductive Effect
  | status (msg : String)
  | control (device : String) (power : ℚ)
  | safety (action : String)
  | mitigation (description : String)
  deriving DecidableEq

/-- The member variables of `class AnomalyMonitoringController`.  A callback member is the flag
saying whether a callable is stored in it. -/
structure State where
  enabled : Bool
  current_status : SystemStatus
  active_anomalies : List (String × AnomalyInfo)
  anomaly_history : List AnomalyInfo
  normal_voltage : ℚ
  normal_frequency : ℚ
  max_hydrogen_concentration : ℚ
  max_hydrogen_pressure : ℚ
  anomaly_duration_threshold_ms : Int
  status_callback : Bool
  control_callback : Bool
  safety_callback : Bool
  running : Bool
  deriving DecidableEq

/-- The state built by the constructor.  `current_status_` is not initialised by the constructor,
so its first value `status0` is a parameter. -/
def construct (status0 : SystemStatus) : State :=
  { enabled := false
    current_status := status0
    active_anomalies := []
    anomaly_history := []
    normal_voltage := 220.0
    normal_frequency := 50.0
    max_hydrogen_concentration := 1.0
    max_hydrogen_pressure := 1.5
    anomaly_duration_threshold_ms := 5000
    status_callback := false
    control_callback := false
    safety_callback := false
    running := false }

/-! ## Library functions used by the controller -/

/-- Number of clock periods of `system_clock` in one millisecond (a nanosecond clock). -/
def periodsPerMs : Int := 1000000

/-- The count of `duration_cast<milliseconds>(d)`: division truncating toward zero. -/
def duration_cast_ms (d : Int) : Int := Int.tdiv d periodsPerMs

/-- Rounding of a non-negative rational to the nearest natural number, ties to even. -/
def roundHalfEven (y : ℚ) : Nat :=
  let fl : Nat := ⌊y⌋₊
  let rem : ℚ := y - fl
  if rem < 1/2 then fl else if 1/2 < rem then fl + 1
    else if fl % 2 = 0 then fl else fl + 1

/-- The value of type `double` nearest to `x`: `x` rounded to 53 significant bits, ties to the
even significand, as every arithmetic operation on `double` rounds its exact result.  Overflow
and the subnormal range of binary64 are not modelled. -/
def toDouble (x : ℚ) : ℚ :=
  if x = 0 then 0
  else
    let ulp : ℚ := 2 ^ (Int.log 2 |x| - 52)
    (if x < 0 then -1 else 1) * (roundHalfEven (|x| / ulp) : ℚ) * ulp

/-- The six digits after the decimal point, for a value scaled by `10^6`. -/
def fractionDigits (n : Nat) : String :=
  String.mk ([100000, 10000, 1000, 100, 10, 1].map fun d => Nat.digitChar (n / d % 10))

/-- The text of `std::to_string(double)`, i.e. of `printf("%f")`: sign, integer part, a point and
six decimals, the value being rounded to the nearest millionth. -/
def to_string (x : ℚ) : String :=
  let n : Nat := roundHalfEven ((if x < 0 then -x else x) * 1000000)
  (if x < 0 then "-" else "") ++ Nat.repr (n / 1000000) ++ "." ++ fractionDigits n

/-- Whether `pat` occurs as a contiguous block of `text`. -/
def occursIn (pat : List Char) : List Char → Bool
  | [] => pat.isEmpty
  | c :: cs => pat.isPrefixOf (c :: cs) || occursIn pat cs

/-- The test `s.find(pat) != std::string::npos`. -/
def find_ne_npos (s pat : String) : Bool := occursIn pat.data s.data

/-- Insertion into a `std::map`, `m[k] = v`: the entry is placed in key order and an entry with
an equal key is overwritten. -/
def mapAssign (k : String) (v : AnomalyInfo) :
    List (String × AnomalyInfo) → List (String × AnomalyInfo)
  | [] => [(k, v)]
  | (k0, v0) :: rest =>
    if k < k0 then (k, v) :: (k0, v0) :: rest
    else if k = k0 then (k, v) :: rest
    else (k0, v0) :: mapAssign k v rest

/-- The call `m.erase(k)` of a `std::map`: every entry with key `k` is removed. -/
def mapErase (k : String) (m : List (String × AnomalyInfo)) : List (String × AnomalyInfo) :=
  m.filter fun p => p.1 != k

/-- The assignment `m[k].is_handled = true` for a key that is present. -/
def mapSetHandled (k : String) (m : List (String × AnomalyInfo)) : List (String × AnomalyInfo) :=
  m.map fun p => if p.1 = k then (p.1, { p.2 with is_handled := true }) else p

/-! ## Callback invocation -/

/-- The statement `if (status_callback_) status_callback_(msg);`. -/
def callStatus (s : State) (msg : String) : List Effect :=
  if s.status_callback then [Effect.status msg] else []

/-- The statement `if (control_callback_) control_callback_(device, power);`. -/
def callControl (s : State) (device : String) (power : ℚ) : List Effect :=
  if s.control_callback then [Effect.control device power] else []

/-- The statement `if (safety_callback_) safety_callback_(action);`. -/
def callSafety (s : State) (action : String) : List Effect :=
  if s.safety_callback then [Effect.safety action] else []

/-! ## The controller -/

/-- Severity classification, `determineAnomalyLevel` (lines 418-447). -/
def determineAnomalyLevel (s : State) (type : AnomalyType) (value : ℚ) : AnomalyLevel :=
  match type with
  | .DEVICE_FAULT => .CRITICAL
  | .GRID_FAULT =>
    if value ≥ 1.15 * s.normal_voltage ∨ value ≤ 0.85 * s.normal_voltage ∨
        value ≥ 51.0 ∨ value ≤ 49.0 then .CRITICAL
    else if value ≥ 1.1 * s.normal_voltage ∨ value ≤ 0.9 * s.normal_voltage ∨
        value ≥ 50.5 ∨ value ≤ 49.5 then .WARNING
    else .INFO
  | .SAFETY_FAULT =>
    if value ≥ 2.0 * s.max_hydrogen_concentration ∨ value ≥ 2.0 * s.max_hydrogen_pressure then
      .CRITICAL
    else if value ≥ 1.5 * s.max_hydrogen_concentration ∨
        value ≥ 1.5 * s.max_hydrogen_pressure then .WARNING
    else .INFO

/-- Resolution predicate, `isAnomalyResolved` (lines 450-490), on the current snapshot. -/
def isAnomalyResolved (s : State) (anomaly : AnomalyInfo) : Bool :=
  let status := s.current_status
  match anomaly.type with
  | .DEVICE_FAULT =>
    if anomaly.device_id = "PV_Inverter" then !status.pv_inverter_fault
    else if anomaly.device_id = "Wind_Controller" then !status.wind_controller_fault
    else if anomaly.device_id = "ESS_PCS" then !status.ess_pcs_fault
    else if anomaly.device_id = "Electrolyzer" then !status.electrolyzer_fault
    else false
  | .GRID_FAULT =>
    if find_ne_npos anomaly.description "电压异常" then
      decide (status.grid_voltage ≥ 0.9 * s.normal_voltage ∧
        status.grid_voltage ≤ 1.1 * s.normal_voltage)
    else if find_ne_npos anomaly.description "频率异常" then
      decide (status.grid_frequency ≥ 49.5 ∧ status.grid_frequency ≤ 50.5)
    else false
  | .SAFETY_FAULT =>
    if find_ne_npos anomaly.description "氢浓度异常" then
      decide (status.hydrogen_concentration < s.max_hydrogen_concentration)
    else if find_ne_npos anomaly.description "氢罐压力异常" then
      decide (status.hydrogen_tank_pressure < s.max_hydrogen_pressure)
    else false

/-- The body of `switch (anomaly.level)` in `handleAnomaly` (lines 207-291): the mitigation
effector calls for one record. -/
def mitigationActions (s : State) (anomaly : AnomalyInfo) : List Effect :=
  match anomaly.level with
  | .INFO => callStatus s ("提示级异常: " ++ anomaly.description)
  | .WARNING =>
    (if anomaly.device_id = "PV_Inverter" then
        callControl s "PV" (s.current_status.pv_power * 0.5)
      else if anomaly.device_id = "Wind_Controller" then
        callControl s "WIND" (s.current_status.wind_power * 0.5)
      else if anomaly.device_id = "ESS_PCS" then
        callControl s "ESS" (s.current_status.ess_power * 0.5)
      else []) ++
    callStatus s ("一般级异常: " ++ anomaly.description ++ ", 设备功率减半")
  | .CRITICAL =>
    (if anomaly.device_id = "PV_Inverter" then callControl s "PV" 0
      else if anomaly.device_id = "Wind_Controller" then callControl s "WIND" 0
      else if anomaly.device_id = "ESS_PCS" then callControl s "ESS" 0
      else if anomaly.device_id = "Electrolyzer" then callControl s "HYDROGEN" 0
      else if anomaly.device_id = "Grid" then
        callControl s "GRID" 0 ++
        (if s.current_status.is_island_mode then callStatus s "孤岛模式，保障重要负荷" else [])
      else if anomaly.device_id = "Hydrogen_System" then
        callControl s "HYDROGEN" 0 ++
        (if find_ne_npos anomaly.description "氢浓度异常" then callSafety s "启动通风系统"
          else if find_ne_npos anomaly.description "氢罐压力异常" then callSafety s "启动泄压系统"
          else []) ++
        callSafety s "转入保安全模式"
      else []) ++
    callStatus s ("事故级异常: " ++ anomaly.description ++ ", 设备已停机")

/-- Admission of a candidate, `handleAnomaly` (lines 194-295).  `now` is the clock reading of
line 203. -/
def handleAnomaly (s : State) (now : Int) (anomaly : AnomalyInfo) : State × List Effect :=
  if (s.active_anomalies.lookup anomaly.description).isSome then (s, [])
  else
    let s1 := { s with
      active_anomalies := mapAssign anomaly.description anomaly s.active_anomalies }
    let duration := duration_cast_ms (now - anomaly.start_time)
    if duration ≥ s.anomaly_duration_threshold_ms then
      ({ s1 with active_anomalies := mapSetHandled anomaly.description s1.active_anomalies },
        Effect.mitigation anomaly.description :: mitigationActions s1 anomaly)
    else (s1, [])

/-- The constant `recovery_rate_per_second` of `handleAnomalyRecovery` (line 313): the quotient
`5.0 / 60.0` as a `double`. -/
def recovery_rate_per_second : ℚ := toDouble (5.0 / 60.0)

/-- The constant `target_power` of every branch of `handleAnomalyRecovery`. -/
def target_power : ℚ := 100.0

/-- At most `fuel` iterations of the loop `while (current_power < target_power)` of
`handleAnomalyRecovery`, the same in every branch but for the channel name: the control calls
made from `current_power` on.  The quotient, the product and the sum are rounded to `double`;
the one-second pause after each call is not part of the trace. -/
def rampIterate : Nat → State → String → ℚ → List Effect
  | 0, _, _, _ => []
  | fuel + 1, s, device, current_power =>
    if current_power < target_power then
      let increment := toDouble (target_power * toDouble (recovery_rate_per_second / 100.0))
      let next_power := min (toDouble (current_power + increment)) target_power
      callControl s device next_power ++ rampIterate fuel s device next_power
    else []

/-- A bound on the number of iterations of the ramp loop.  From `current_power = 0.0`, the only
value the source starts it with, the loop exits after 1201 iterations, so the bound is not
reached (`rampIterate_of_le`). -/
def rampFuel : Nat := 65536

/-- The loop `while (current_power < target_power)` of `handleAnomalyRecovery`. -/
def rampLoop (s : State) (device : String) (current_power : ℚ) : List Effect :=
  rampIterate rampFuel s device current_power

/-- Recovery of a closed record, `handleAnomalyRecovery` (lines 298-415).  Every ramp starts from
`current_power = 0.0`. -/
def handleAnomalyRecovery (s : State) (anomaly : AnomalyInfo) : List Effect :=
  if anomaly.type = .SAFETY_FAULT ∧ anomaly.needs_manual_confirmation = true then
    callStatus s ("安全异常恢复需要人工确认: " ++ anomaly.description)
  else
    callStatus s ("开始恢复系统出力: " ++ anomaly.description) ++
    (if anomaly.device_id = "PV_Inverter" then rampLoop s "PV" 0.0
      else if anomaly.device_id = "Wind_Controller" then rampLoop s "WIND" 0.0
      else if anomaly.device_id = "ESS_PCS" then rampLoop s "ESS" 0.0
      else if anomaly.device_id = "Electrolyzer" then rampLoop s "HYDROGEN" 0.0
      else if anomaly.device_id = "Grid" then
        callSafety s "闭合并网开关" ++ rampLoop s "GRID" 0.0 ++
        callStatus s "电网恢复完成，已并网并恢复正常功率输出"
      else if anomaly.device_id = "Hydrogen_System" then rampLoop s "HYDROGEN" 0.0
      else []) ++
    callStatus s ("系统出力恢复完成: " ++ anomaly.description)

/-- The candidates that `checkAnomalies` (lines 75-191) builds from the current snapshot, in the
order of the source, each with the number (0 to 7) of the rule that produced it.  `now` is the
clock reading of line 82.  `end_time` is left default-constructed by the source.  The products
`1.1 * normal_voltage_` and `0.9 * normal_voltage_` of line 138 are taken exactly. -/
def detect (s : State) (now : Int) : List (Nat × AnomalyInfo) :=
  let status := s.current_status
  (if status.pv_inverter_fault then
    [(0, { type := .DEVICE_FAULT, level := .CRITICAL, device_id := "PV_Inverter",
           description := "光伏逆变器故障", start_time := now, end_time := 0,
           is_handled := false, needs_manual_confirmation := false })] else []) ++
  (if status.wind_controller_fault then
    [(1, { type := .DEVICE_FAULT, level := .CRITICAL, device_id := "Wind_Controller",
           description := "风机控制器故障", start_time := now, end_time := 0,
           is_handled := false, needs_manual_confirmation := false })] else []) ++
  (if status.ess_pcs_fault then
    [(2, { type := .DEVICE_FAULT, level := .CRITICAL, device_id := "ESS_PCS",
           description := "储能PCS故障", start_time := now, end_time := 0,
           is_handled := false, needs_manual_confirmation := false })] else []) ++
  (if status.electrolyzer_fault then
    [(3, { type := .DEVICE_FAULT, level := .CRITICAL, device_id := "Electrolyzer",
           description := "电解槽故障", start_time := now, end_time := 0,
           is_handled := false, needs_manual_confirmation := false })] else []) ++
  (if status.grid_voltage ≥ 1.1 * s.normal_voltage ∨
      status.grid_voltage ≤ 0.9 * s.normal_voltage then
    [(4, { type := .GRID_FAULT,
           level := determineAnomalyLevel s .GRID_FAULT status.grid_voltage,
           device_id := "Grid",
           description := "电网电压异常: " ++ to_string status.grid_voltage ++ "V",
           start_time := now, end_time := 0,
           is_handled := false, needs_manual_confirmation := false })] else []) ++
  (if status.grid_frequency ≥ 50.5 ∨ status.grid_frequency ≤ 49.5 then
    [(5, { type := .GRID_FAULT,
           level := determineAnomalyLevel s .GRID_FAULT status.grid_frequency,
           device_id := "Grid",
           description := "电网频率异常: " ++ to_string status.grid_frequency ++ "Hz",
           start_time := now, end_time := 0,
           is_handled := false, needs_manual_confirmation := false })] else []) ++
  (if status.hydrogen_concentration ≥ s.max_hydrogen_concentration then
    [(6, { type := .SAFETY_FAULT,
           level := determineAnomalyLevel s .SAFETY_FAULT status.hydrogen_concentration,
           device_id := "Hydrogen_System",
           description := "氢浓度异常: " ++ to_string status.hydrogen_concentration ++ "%",
           start_time := now, end_time := 0,
           is_handled := false, needs_manual_confirmation := true })] else []) ++
  (if status.hydrogen_tank_pressure ≥ s.max_hydrogen_pressure then
    [(7, { type := .SAFETY_FAULT,
           level := determineAnomalyLevel s .SAFETY_FAULT status.hydrogen_tank_pressure,
           device_id := "Hydrogen_System",
           description := "氢罐压力异常: " ++ to_string status.hydrogen_tank_pressure ++ "MPa",
           start_time := now, end_time := 0,
           is_handled := false, needs_manual_confirmation := true })] else [])

/-- Successive calls of `handleAnomaly`, each with its own clock reading. -/
def admitAll : State → List (Int × AnomalyInfo) → State × List Effect
  | s, [] => (s, [])
  | s, (now, anomaly) :: rest =>
    let r := handleAnomaly s now anomaly
    let r2 := admitAll r.1 rest
    (r2.1, r.2 ++ r2.2)

/-- Detection, `checkAnomalies` (lines 75-191): every candidate is passed to `handleAnomaly` as
soon as it is built.  `admitTime i` is the clock reading inside the call made by rule `i`. -/
def checkAnomalies (s : State) (now : Int) (admitTime : Nat → Int) : State × List Effect :=
  admitAll s ((detect s now).map fun p => (admitTime p.1, p.2))

/-- The resolution pass of `runMonitoringLoop` (lines 44-69).  `close id` is the clock reading of
line 50 when the record stored under `id` is found resolved. -/
def resolutionPass (s : State) (close : String → Int) : State × List Effect :=
  -- first loop (lines 47-57): set the end time, push to the history, notify
  let closed := (s.active_anomalies.filter fun p => isAnomalyResolved s p.2).map
    fun p => (p.1, { p.2 with end_time := close p.1 })
  let active1 := s.active_anomalies.map
    fun p => if isAnomalyResolved s p.2 then (p.1, { p.2 with end_time := close p.1 }) else p
  let history1 := s.anomaly_history ++ closed.map fun p => p.2
  let effects1 := (closed.map fun p => callStatus s ("异常已解除: " ++ p.2.description)).flatten
  let resolved_anomalies := closed.map fun p => p.1
  -- second loop (lines 59-68): erase, look the record up in the history, recover
  let active2 := resolved_anomalies.foldl (fun m id => mapErase id m) active1
  let effects2 := (resolved_anomalies.map fun id =>
    match history1.find? (fun a => a.description == id) with
    | some a => handleAnomalyRecovery s a
    | none => []).flatten
  ({ s with active_anomalies := active2, anomaly_history := history1 }, effects1 ++ effects2)

/-- The clock readings made during one iteration of the monitoring loop. -/
structure TickClock where
  now : Int
  admitTime : Nat → Int
  close : String → Int

/-- One iteration of the monitoring loop with monitoring enabled (lines 41-69). -/
def tick (s : State) (clock : TickClock) : State × List Effect :=
  let r := checkAnomalies s clock.now clock.admitTime
  let r2 := resolutionPass r.1 clock.close
  (r2.1, r.2 ++ r2.2)

/-- One iteration of `while (running_)` in `runMonitoringLoop` (lines 35-71). -/
def loopIteration (s : State) (clock : TickClock) : State × List Effect :=
  if s.running then
    if !s.enabled then (s, []) else tick s clock
  else (s, [])

/-- Manual confirmation, `confirmSafetyAnomalyRecovery` (lines 499-519).  `now` is the clock
reading of line 511.  Line 513 erases the map node of the record, and line 515 passes
`handleAnomalyRecovery` a reference into that erased node: what recovery reads there is not
determined by the program, and is the input `erased`. -/
def confirmSafetyAnomalyRecovery (s : State) (now : Int) (anomaly_id : String)
    (erased : AnomalyInfo) : State × List Effect :=
  match s.active_anomalies.find?
      (fun p => p.2.description == anomaly_id && p.2.type == AnomalyType.SAFETY_FAULT) with
  | none => (s, [])
  | some (id, anomaly) =>
    let confirmed := { anomaly with needs_manual_confirmation := false, end_time := now }
    ({ s with
        anomaly_history := s.anomaly_history ++ [confirmed]
        active_anomalies := mapErase id s.active_anomalies },
      callStatus s ("安全异常恢复已确认: " ++ anomaly.description) ++
        handleAnomalyRecovery s erased)

/-! ## Operations and runs -/

/-- The operations of the controller.  All but `handleAnomaly`, which is private and reached
through the monitoring loop only, are calls of the public interface; `loopIteration` is one
iteration of the loop that `runMonitoringLoop` executes.  The clock readings of an operation,
and for `confirmSafetyAnomalyRecovery` what line 515 reads through the erased map node, are
arguments of the operation. -/
inductive Op
  | initialise
  | updateSystemStatus (status : SystemStatus)
  | setControlParameters (normal_voltage normal_frequency max_hydrogen_concentration
      max_hydrogen_pressure : ℚ) (anomaly_duration_threshold_ms : Int)
  | enableMonitoring (enabled : Bool)
  | setStatusCallback (registered : Bool)
  | setControlCallback (registered : Bool)
  | setSafetyCallback (registered : Bool)
  | loopIteration (clock : TickClock)
  | confirmSafetyAnomalyRecovery (now : Int) (anomaly_id : String) (erased : AnomalyInfo)
  | handleAnomaly (now : Int) (anomaly : AnomalyInfo)

/-- Whether an operation belongs to the public interface. -/
def Op.isPublic : Op → Bool
  | .handleAnomaly _ _ => false
  | _ => true

/-- Execution of one operation. -/
def step (s : State) : Op → State × List Effect
  | .initialise => ({ s with running := true }, [])
  | .updateSystemStatus status => ({ s with current_status := status }, [])
  | .setControlParameters nv nf mc mp thr =>
    ({ s with
        normal_voltage := nv
        normal_frequency := nf
        max_hydrogen_concentration := mc
        max_hydrogen_pressure := mp
        anomaly_duration_threshold_ms := thr }, [])
  | .enableMonitoring enabled => ({ s with enabled := enabled }, [])
  | .setStatusCallback registered => ({ s with status_callback := registered }, [])
  | .setControlCallback registered => ({ s with control_callback := registered }, [])
  | .setSafetyCallback registered => ({ s with safety_callback := registered }, [])
  | .loopIteration clock => loopIteration s clock
  | .confirmSafetyAnomalyRecovery now anomaly_id erased =>
    confirmSafetyAnomalyRecovery s now anomaly_id erased
  | .handleAnomaly now anomaly => handleAnomaly s now anomaly

/-- Execution of a sequence of operations, with the trace of all their effects. -/
def run : State → List Op → State × List Effect
  | s, [] => (s, [])
  | s, op :: ops =>
    let r := step s op
    let r2 := run r.1 ops
    (r2.1, r.2 ++ r2.2)

/-- The states the controller can be in: those a sequence of public operations leads to from a
freshly constructed controller. -/
def Reachable (s : State) : Prop :=
  ∃ (status0 : SystemStatus) (ops : List Op),
    (∀ op ∈ ops, op.isPublic = true) ∧ (run (construct status0) ops).1 = s

/-! ## Predicates used in the statements -/

/-- The keys of a map are strictly increasing and every record sits under its description. -/
def WellKeyed (m : List (String × AnomalyInfo)) : Prop :=
  m.Pairwise (fun p q => p.1 < q.1) ∧ ∀ p ∈ m, p.1 = p.2.description

/-- Whether a record is stored under key `d`. -/
def isActive (d : String) (s : State) : Bool := (s.active_anomalies.lookup d).isSome

/-- Number of times the mitigation switch is entered for description `d` in a trace. -/
def dispatchCount (d : String) (t : List Effect) : Nat := t.count (Effect.mitigation d)

/-- Number of closed records with description `d` in the history. -/
def closedCount (d : String) (s : State) : Nat :=
  s.anomaly_history.countP fun a => a.description == d

/-- One when no record is stored under key `d`, zero when one is. -/
def notActive (d : String) (s : State) : Nat := if isActive d s then 0 else 1

/-- The accounting inequality of one transition from `s` to `t` with trace `effs`: each entry
into the mitigation switch for `d` is paid for by `d` becoming active, and `d` can only become
inactive again by a record with description `d` being appended to the history. -/
def StepBound (d : String) (s t : State) (effs : List Effect) : Prop :=
  dispatchCount d effs + notActive d t + closedCount d s ≤ closedCount d t + notActive d s

/-- Every safety record of a map is a record of the hydrogen system. -/
def SafetyOnHydrogen (m : List (String × AnomalyInfo)) : Prop :=
  ∀ p ∈ m, p.2.type = AnomalyType.SAFETY_FAULT → p.2.device_id = "Hydrogen_System"

/-! ## Concrete inputs -/

/-- The nominal snapshot of the simulation harness (`main.cpp`, lines 102-114). -/
def harnessStatus : SystemStatus :=
  { pv_power := 80.0
    wind_power := 60.0
    ess_power := 40.0
    hydrogen_power := 20.0
    grid_voltage := 220.0
    grid_frequency := 50.0
    hydrogen_concentration := 0.5
    hydrogen_tank_pressure := 1.0
    pv_inverter_fault := false
    wind_controller_fault := false
    ess_pcs_fault := false
    electrolyzer_fault := false
    is_island_mode := false }

/-- A loop iteration all of whose clock readings are `t`. -/
def clockAt (t : Int) : TickClock := { now := t, admitTime := fun _ => t, close := fun _ => t }

/-- A loop iteration whose candidates are stamped at time 0 and admitted 6000 ms later, as when
`handleAnomaly` has to wait for the lock on the active map. -/
def lateClock : TickClock :=
  { now := 0, admitTime := fun _ => 6000000000, close := fun _ => 6000000000 }

/-- A controller with the harness parameters whose snapshot reports a tank pressure of 2.0 MPa
(`main.cpp`, line 143). -/
def pressureState : State :=
  { construct harnessStatus with
    current_status := { harnessStatus with hydrogen_tank_pressure := 2.0 } }

/-- A controller with the harness parameters whose snapshot reports a frequency of exactly
50.5 Hz, the upper edge of the nominal band. -/
def edgeFrequencyState : State :=
  { construct harnessStatus with
    current_status := { harnessStatus with grid_frequency := 50.5 } }

/-- The record the detector builds for a photovoltaic inverter fault seen at time 0. -/
def pvRecord : AnomalyInfo :=
  { type := .DEVICE_FAULT
    level := .CRITICAL
    device_id := "PV_Inverter"
    description := "光伏逆变器故障"
    start_time := 0
    end_time := 0
    is_handled := false
    needs_manual_confirmation := false }

/-- A controller whose only active record is the inverter fault `pvRecord`. -/
def pvActiveState : State :=
  { construct { harnessStatus with pv_inverter_fault := true } with
    running := true
    enabled := true
    active_anomalies := [("光伏逆变器故障", pvRecord)] }

/-- The set-up calls of the harness (`main.cpp`, lines 62-85). -/
def harnessSetup : List Op :=
  [.initialise, .setStatusCallback true, .setControlCallback true, .setSafetyCallback true,
    .setControlParameters 220.0 50.0 1.0 1.5 5000, .enableMonitoring true]

/-- The controller after `harnessSetup`. -/
def harnessState : State :=
  { construct harnessStatus with
    running := true
    enabled := true
    status_callback := true
    control_callback := true
    safety_callback := true }

/-- The harness snapshot with the hydrogen concentration at 1.2 % (`main.cpp`, line 137). -/
def concStatus : SystemStatus := { harnessStatus with hydrogen_concentration := 1.2 }

/-- The record the detector builds at time `t` for a concentration of 1.2 %. -/
def concRecord (t : Int) : AnomalyInfo :=
  { type := .SAFETY_FAULT
    level := .INFO
    device_id := "Hydrogen_System"
    description := "氢浓度异常: 1.200000%"
    start_time := t
    end_time := 0
    is_handled := false
    needs_manual_confirmation := true }

/-- The controller of the harness with the concentration record of time `t` active, while the
snapshot is `status` and the history is `history`. -/
def concActiveState (status : SystemStatus) (t : Int) (history : List AnomalyInfo) : State :=
  { harnessState with
    current_status := status
    active_anomalies := [("氢浓度异常: 1.200000%", concRecord t)]
    anomaly_history := history }

/-- The concentration record of time 0 as `confirmSafetyAnomalyRecovery` closes it at time 500. -/
def confirmedRecord : AnomalyInfo :=
  { concRecord 0 with needs_manual_confirmation := false, end_time := 500 }

/-- The harness snapshot with the inverter fault flag set (`main.cpp`, line 119). -/
def pvStatus : SystemStatus := { harnessStatus with pv_inverter_fault := true }

/-- The controller of the harness with the inverter fault record of time 0 active and the fault
still reported. -/
def pvHarnessState : State :=
  { harnessState with
    current_status := pvStatus
    active_anomalies := [("光伏逆变器故障", pvRecord)] }

/-- The arguments of the power-control calls of a trace, in order. -/
def controlCalls (t : List Effect) : List (String × ℚ) :=
  t.filterMap fun e =>
    match e with
    | .control device power => some (device, power)
    | _ => none

/-- The setpoints passed to the power-control sink in a trace, in order. -/
def setpoints (t : List Effect) : List ℚ := (controlCalls t).map fun c => c.2

/-- The channel on which `handleAnomalyRecovery` ramps for a device identifier, if it ramps at
all (the chain of `if`s at lines 315-408). -/
def rampChannel (device_id : String) : Option String :=
  if device_id = "PV_Inverter" then some "PV"
  else if device_id = "Wind_Controller" then some "WIND"
  else if device_id = "ESS_PCS" then some "ESS"
  else if device_id = "Electrolyzer" then some "HYDROGEN"
  else if device_id = "Grid" then some "GRID"
  else if device_id = "Hydrogen_System" then some "HYDROGEN"
  else none

/-- The power-control channel of the critical branch of `handleAnomaly` for the four devices
and the grid (lines 241-260). -/
def criticalChannel (device_id : String) : Option String :=
  if device_id = "PV_Inverter" then some "PV"
  else if device_id = "Wind_Controller" then some "WIND"
  else if device_id = "ESS_PCS" then some "ESS"
  else if device_id = "Electrolyzer" then some "HYDROGEN"
  else if device_id = "Grid" then some "GRID"
  else none

/-- The safety actions of a trace, in order. -/
def safetyCalls (t : List Effect) : List String :=
  t.filterMap fun e =>
    match e with
    | .safety action => some action
    | _ => none

/-- A controller with the harness parameters and callbacks whose snapshot reports a hydrogen
concentration of 2.2 %. -/
def criticalConcState : State :=
  { harnessState with current_status := { harnessStatus with hydrogen_concentration := 2.2 } }

/-- A snapshot with the voltage at 50 V and the frequency at 50.75 Hz. -/
def warningStatus : SystemStatus :=
  { harnessStatus with grid_voltage := 50.0, grid_frequency := 50.75 }

/-- The harness controller after `setControlParameters(50.0, 50.0, 1.0, 1.5, 0)` and an update
with `warningStatus`: the nominal voltage is 50 V and the persistence threshold is zero. -/
def warningState : State :=
  { harnessState with
    normal_voltage := 50.0
    anomaly_duration_threshold_ms := 0
    current_status := warningStatus }

/-- The record the detector builds at time 0 in `warningState`. -/
def warningRecord : AnomalyInfo :=
  { type := .GRID_FAULT
    level := .WARNING
    device_id := "Grid"
    description := "电网频率异常: 50.750000Hz"
    start_time := 0
    end_time := 0
    is_handled := false
    needs_manual_confirmation := false }

/-- A controller with the harness parameters whose snapshot violates all eight rules. -/
def allRulesState : State :=
  { harnessState with
    current_status :=
      { harnessStatus with
        pv_inverter_fault := true
        wind_controller_fault := true
        ess_pcs_fault := true
        electrolyzer_fault := true
        grid_voltage := 250.0
        grid_frequency := 51.0
        hydrogen_concentration := 1.2
        hydrogen_tank_pressure := 2.0 } }

/-- The state after a status update that changes the hydrogen concentration to `r`. -/
def withConcentration (s : State) (r : ℚ) : State :=
  { s with current_status := { s.current_status with hydrogen_concentration := r } }

/-- The description, and key, that `checkAnomalies` gives to a concentration reading `r`
(line 171). -/
def concentrationKey (r : ℚ) : String := "氢浓度异常: " ++ to_string r ++ "%"

/-- Two different concentration readings, both exactly representable in binary, which agree in
their first six decimals: 1.25 and 1.25 + 2^-24. -/
def closeReadings : ℚ × ℚ := (5 / 4, 5 / 4 + 1 / 16777216)

/-- The state with the three callback members replaced. -/
def withSinks (s : State) (status control safety : Bool) : State :=
  { s with status_callback := status, control_callback := control, safety_callback := safety }

/-- The trace without the calls to the sinks that are not registered. -/
def filterSinks (status control safety : Bool) (t : List Effect) : List Effect :=
  t.filter fun e =>
    match e with
    | .status _ => status
    | .control _ _ => control
    | .safety _ => safety
    | .mitigation _ => true

/-- Whether an operation registers a callback. -/
def Op.setsCallback : Op → Bool
  | .setStatusCallback _ => true
  | .setControlCallback _ => true
  | .setSafetyCallback _ => true
  | _ => false

/-- All three sinks are registered. -/
def AllSinks (s : State) : Prop :=
  s.status_callback = true ∧ s.control_callback = true ∧ s.safety_callback = true

/-- A record the detector built: one of the candidates of `detect` for some snapshot and clock
reading, whose handled flag `handleAnomaly` may have set since. -/
def DetectorProduced (a : AnomalyInfo) : Prop :=
  ∃ (s0 : State) (now : Int) (i : Nat), (i, { a with is_handled := false }) ∈ detect s0 now

/-- The snapshot reports nothing: the four fault flags are false, voltage and frequency are
strictly inside their bands and both hydrogen readings are below their ceilings. -/
def NominalSnapshot (s : State) : Prop :=
  s.current_status.pv_inverter_fault = false ∧
  s.current_status.wind_controller_fault = false ∧
  s.current_status.ess_pcs_fault = false ∧
  s.current_status.electrolyzer_fault = false ∧
  (0.9 * s.normal_voltage < s.current_status.grid_voltage ∧
    s.current_status.grid_voltage < 1.1 * s.normal_voltage) ∧
  (49.5 < s.current_status.grid_frequency ∧ s.current_status.grid_frequency < 50.5) ∧
  s.current_status.hydrogen_concentration < s.max_hydrogen_concentration ∧
  s.current_status.hydrogen_tank_pressure < s.max_hydrogen_pressure

/-- The controller of the harness with the inverter fault record active after the snapshot has
returned to the nominal one (`main.cpp`, line 124). -/
def pvClearedState : State :=
  { harnessState with
    current_status := harnessStatus
    active_anomalies := [("光伏逆变器故障", pvRecord)] }

/-- The harness snapshot with the tank pressure at 2.0 MPa (`main.cpp`, line 143). -/
def pressureStatus : SystemStatus := { harnessStatus with hydrogen_tank_pressure := 2.0 }

/-- The record the detector builds at time 0 for a tank pressure of 2.0 MPa. -/
def pressureRecord : AnomalyInfo :=
  { type := .SAFETY_FAULT
    level := .CRITICAL
    device_id := "Hydrogen_System"
    description := "氢罐压力异常: 2.000000MPa"
    start_time := 0
    end_time := 0
    is_handled := false
    needs_manual_confirmation := true }

/-- The controller of the harness with the tank-pressure record of time 0 active. -/
def pressureActiveState : State :=
  { harnessState with
    current_status := pressureStatus
    active_anomalies := [("氢罐压力异常: 2.000000MPa", pressureRecord)] }

/-- Whether the persistence threshold an operation sets, if it sets one, is positive. -/
def Op.positiveThreshold : Op → Prop
  | .setControlParameters _ _ _ _ thr => 0 < thr
  | _ => True

/-- Whether the candidates of a loop iteration are admitted less than one millisecond after the
clock reading they are stamped with, as when they are stamped with the admission time. -/
def Op.stampsAdmission : Op → Prop
  | .loopIteration clock => ∀ i : Nat, clock.admitTime i - clock.now < periodsPerMs
  | _ => True

/-! ## The ramp in integer arithmetic

The setpoints of a ramp are multiples of `2^-56`.  The functions below compute with their
numerators; `rampIterate_eq_values` shows that this is the loop of `rampIterate`. -/

/-- Rounding of `m / 2 ^ sh` to the nearest natural number, ties to even. -/
def roundShift (m sh : Nat) : Nat :=
  let q := m / 2 ^ sh
  let r := m % 2 ^ sh
  if 2 * r < 2 ^ sh then q else if 2 ^ sh < 2 * r then q + 1
    else if q % 2 = 0 then q else q + 1

/-- The number of low bits a numerator loses when it is cut to 53 bits, searched up to `fuel`. -/
def ulpShiftAux : Nat → Nat → Nat
  | 0, _ => 0
  | fuel + 1, m => if m < 2 ^ 53 then 0 else ulpShiftAux fuel (m / 2) + 1

/-- The number of low bits a numerator below `2 ^ 117` loses when it is cut to 53 bits. -/
def ulpShift (m : Nat) : Nat := ulpShiftAux 64 m

/-- A numerator rounded to 53 significant bits, ties to even. -/
def roundBits (m : Nat) : Nat := roundShift m (ulpShift m) * 2 ^ ulpShift m

/-- The numerator of `increment` over `2 ^ 56`. -/
def rampIncrementN : Nat := 6004799503160661

/-- The numerator of `target_power` over `2 ^ 56`. -/
def rampTargetN : Nat := 7205759403792793600

/-- One iteration of the ramp loop on numerators. -/
def rampStepN (n : Nat) : Nat := min (roundBits (n + rampIncrementN)) rampTargetN

/-- The numerators of the setpoints that at most `fuel` iterations of the ramp loop issue from
the numerator `n` on. -/
def rampValuesN : Nat → Nat → List Nat
  | 0, _ => []
  | fuel + 1, n =>
    if n < rampTargetN then rampStepN n :: rampValuesN fuel (rampStepN n) else []

/-- Whether `m / 2 ^ 56` is within `2 / 10 ^ 12` of `min (k / 12) 100`. -/
def nearIdeal (k m : Nat) : Bool :=
  decide ((12 * m - min k 1200 * 2 ^ 56 + (min k 1200 * 2 ^ 56 - 12 * m)) * 10 ^ 12 <
    24 * 2 ^ 56)

/-- The numerator after `fuel` iterations from `n`, if each of them is entered, does not lower
the numerator, and issues as command `k + 1`, `k + 2`, ... a setpoint that is `nearIdeal`. -/
def rampScan : Nat → Nat → Nat → Option Nat
  | 0, _, n => some n
  | fuel + 1, k, n =>
    if n < rampTargetN ∧ n ≤ rampStepN n ∧ nearIdeal (k + 1) (rampStepN n) = true then
      rampScan fuel (k + 1) (rampStepN n)
    else none

/-- The setpoints of a ramp, in order. -/
def rampSetpoints : List ℚ := (rampValuesN rampFuel 0).map fun m : Nat => (m : ℚ) / 2 ^ 56

/-! ## Facts about the map operations -/

theorem lookup_mapAssign_self (k : String) (v : AnomalyInfo) (m : List (String × AnomalyInfo)) :
    (mapAssign k v m).lookup k = some v := by
  induction m with
  | nil => simp [mapAssign, List.lookup]
  | cons hd tl ih =>
    obtain ⟨k0, v0⟩ := hd
    simp only [mapAssign]
    split_ifs with h1 h2
    · simp [List.lookup]
    · simp [List.lookup]
    · have : (k == k0) = false := by simpa using h2
      simp [List.lookup, this, ih]

theorem lookup_mapAssign_ne (k k1 : String) (v : AnomalyInfo) (m : List (String × AnomalyInfo))
    (h : k1 ≠ k) : (mapAssign k v m).lookup k1 = m.lookup k1 := by
  induction m with
  | nil =>
    have : (k1 == k) = false := by simpa using h
    simp [mapAssign, List.lookup, this]
  | cons hd tl ih =>
    obtain ⟨k0, v0⟩ := hd
    have hk : (k1 == k) = false := by simpa using h
    simp only [mapAssign]
    split_ifs with h1 h2
    · simp [List.lookup, hk]
    · subst h2
      simp [List.lookup, hk]
    · simp only [List.lookup, ih]

theorem mem_mapAssign {k : String} {v : AnomalyInfo} {m : List (String × AnomalyInfo)}
    {p : String × AnomalyInfo} (h : p ∈ mapAssign k v m) : p = (k, v) ∨ p ∈ m := by
  induction m with
  | nil => simpa [mapAssign] using h
  | cons hd tl ih =>
    obtain ⟨k0, v0⟩ := hd
    simp only [mapAssign] at h
    split_ifs at h with h1 h2
    · simpa using h
    · rcases List.mem_cons.mp h with h | h
      · exact Or.inl h
      · exact Or.inr (List.mem_cons_of_mem _ h)
    · rcases List.mem_cons.mp h with h | h
      · exact Or.inr (h ▸ List.mem_cons_self _ _)
      · rcases ih h with h | h
        · exact Or.inl h
        · exact Or.inr (List.mem_cons_of_mem _ h)

theorem mem_mapAssign_self (k : String) (v : AnomalyInfo) (m : List (String × AnomalyInfo)) :
    (k, v) ∈ mapAssign k v m := by
  induction m with
  | nil => simp [mapAssign]
  | cons hd tl ih =>
    obtain ⟨k0, v0⟩ := hd
    simp only [mapAssign]
    split_ifs <;> simp [ih]

theorem pairwise_mapAssign (k : String) (v : AnomalyInfo) (m : List (String × AnomalyInfo))
    (h : m.Pairwise (fun p q => p.1 < q.1)) :
    (mapAssign k v m).Pairwise (fun p q => p.1 < q.1) := by
  induction m with
  | nil => simp [mapAssign]
  | cons hd tl ih =>
    obtain ⟨k0, v0⟩ := hd
    rw [List.pairwise_cons] at h
    simp only [mapAssign]
    split_ifs with h1 h2
    · refine List.pairwise_cons.mpr ⟨?_, List.pairwise_cons.mpr h⟩
      intro q hq
      rcases List.mem_cons.mp hq with hq | hq
      · simpa [hq] using h1
      · exact lt_trans h1 (h.1 q hq)
    · subst h2
      exact List.pairwise_cons.mpr ⟨h.1, h.2⟩
    · refine List.pairwise_cons.mpr ⟨?_, ih h.2⟩
      intro q hq
      rcases mem_mapAssign hq with hq | hq
      · subst hq
        exact lt_of_le_of_ne (not_lt.mp h1) (Ne.symm h2)
      · exact h.1 q hq

theorem wellKeyed_mapAssign (a : AnomalyInfo) (m : List (String × AnomalyInfo))
    (h : WellKeyed m) : WellKeyed (mapAssign a.description a m) := by
  refine ⟨pairwise_mapAssign _ _ _ h.1, ?_⟩
  intro p hp
  rcases mem_mapAssign hp with hp | hp
  · subst hp
    rfl
  · exact h.2 p hp

theorem wellKeyed_mapErase (k : String) (m : List (String × AnomalyInfo)) (h : WellKeyed m) :
    WellKeyed (mapErase k m) :=
  ⟨h.1.sublist (List.filter_sublist _), fun p hp => h.2 p (List.mem_of_mem_filter hp)⟩

theorem wellKeyed_mapSetHandled (k : String) (m : List (String × AnomalyInfo))
    (h : WellKeyed m) : WellKeyed (mapSetHandled k m) := by
  constructor
  · unfold mapSetHandled
    rw [List.pairwise_map]
    refine h.1.imp ?_
    intro p q hpq
    by_cases h1 : p.1 = k <;> by_cases h2 : q.1 = k <;> simp [h1, h2] <;> simp_all
  · intro p hp
    unfold mapSetHandled at hp
    obtain ⟨q, hq, rfl⟩ := List.mem_map.mp hp
    have := h.2 q hq
    by_cases h1 : q.1 = k <;> simp [h1] <;> simp_all

theorem lookup_isSome_iff (k : String) (m : List (String × AnomalyInfo)) :
    (m.lookup k).isSome = true ↔ ∃ p ∈ m, p.1 = k := by
  induction m with
  | nil => simp [List.lookup]
  | cons hd tl ih =>
    obtain ⟨k0, v0⟩ := hd
    by_cases h1 : k = k0
    · subst h1
      simp [List.lookup_cons]
    · have hb : (k == k0) = false := by simpa using h1
      have h2 : ¬ k0 = k := fun h => h1 h.symm
      simp [List.lookup_cons, hb, ih, h2]

theorem lookup_mapSetHandled_isSome (k k1 : String) (m : List (String × AnomalyInfo)) :
    ((mapSetHandled k m).lookup k1).isSome = (m.lookup k1).isSome := by
  rw [Bool.eq_iff_iff, lookup_isSome_iff, lookup_isSome_iff]
  unfold mapSetHandled
  constructor
  · rintro ⟨p, hp, rfl⟩
    obtain ⟨q, hq, rfl⟩ := List.mem_map.mp hp
    refine ⟨q, hq, ?_⟩
    by_cases h1 : q.1 = k <;> simp [h1]
  · rintro ⟨q, hq, rfl⟩
    refine ⟨_, List.mem_map.mpr ⟨q, hq, rfl⟩, ?_⟩
    by_cases h1 : q.1 = k <;> simp [h1]

theorem lookup_mapErase_self (k : String) (m : List (String × AnomalyInfo)) :
    (mapErase k m).lookup k = none := by
  cases h : (mapErase k m).lookup k with
  | none => rfl
  | some a =>
    have h1 : ((mapErase k m).lookup k).isSome = true := by simp [h]
    obtain ⟨p, hp, hk⟩ := (lookup_isSome_iff _ _).mp h1
    have := (List.mem_filter.mp hp).2
    simp [hk] at this

theorem lookup_mapErase_ne (k k1 : String) (m : List (String × AnomalyInfo)) (h : k1 ≠ k) :
    (mapErase k m).lookup k1 = m.lookup k1 := by
  induction m with
  | nil => rfl
  | cons hd tl ih =>
    obtain ⟨k0, v0⟩ := hd
    unfold mapErase at ih ⊢
    by_cases h0 : k0 = k
    · subst h0
      have hb : (k1 == k0) = false := by simpa using h
      simp [List.filter_cons, List.lookup_cons, hb, ih]
    · by_cases h1 : k1 = k0
      · subst h1
        simp [List.filter_cons, h0, List.lookup_cons]
      · have hb : (k1 == k0) = false := by simpa using h1
        simp [List.filter_cons, h0, List.lookup_cons, hb, ih]

/-- In a map with increasing keys the entry with a given key is the one `lookup` returns. -/
theorem lookup_eq_of_mem {m : List (String × AnomalyInfo)} (h : m.Pairwise (fun p q => p.1 < q.1))
    {k : String} {a : AnomalyInfo} (hm : (k, a) ∈ m) : m.lookup k = some a := by
  induction m with
  | nil => simp at hm
  | cons hd tl ih =>
    obtain ⟨k0, v0⟩ := hd
    rw [List.pairwise_cons] at h
    rcases List.mem_cons.mp hm with hm | hm
    · injection hm with h1 h2
      subst h1 h2
      simp [List.lookup_cons]
    · have hlt : k0 < k := h.1 (k, a) hm
      have hb : (k == k0) = false := by simpa using (ne_of_gt hlt)
      simp [List.lookup_cons, hb, ih h.2 hm]

theorem mem_of_lookup_eq {m : List (String × AnomalyInfo)} {k : String} {a : AnomalyInfo}
    (h : m.lookup k = some a) : (k, a) ∈ m := by
  induction m with
  | nil => simp [List.lookup] at h
  | cons hd tl ih =>
    obtain ⟨k0, v0⟩ := hd
    by_cases h1 : k = k0
    · subst h1
      simp [List.lookup_cons] at h
      simp [h]
    · have hb : (k == k0) = false := by simpa using h1
      simp [List.lookup_cons, hb] at h
      exact List.mem_cons_of_mem _ (ih h)

theorem foldl_mapErase (ids : List String) (m : List (String × AnomalyInfo)) :
    ids.foldl (fun m id => mapErase id m) m = m.filter (fun p => !ids.contains p.1) := by
  induction ids generalizing m with
  | nil => simp
  | cons id rest ih =>
    rw [List.foldl_cons, ih]
    unfold mapErase
    rw [List.filter_filter]
    apply List.filter_congr
    intro p _
    by_cases h : p.1 = id <;> simp [h, List.contains_cons]

/-! ## Rounding to `double` -/

theorem roundHalfEven_of_lt (y : ℚ) (n : Nat) (h1 : (n : ℚ) ≤ y) (h2 : y < n + 1 / 2) :
    roundHalfEven y = n := by
  have hfl : ⌊y⌋₊ = n := by
    rw [Nat.floor_eq_iff (le_trans (Nat.cast_nonneg n) h1)]
    exact ⟨h1, by linarith⟩
  unfold roundHalfEven
  simp only [hfl]
  rw [if_pos (by linarith)]

theorem log_eq_of_bounds (x : ℚ) (e : ℤ) (h1 : (2 : ℚ) ^ e ≤ x) (h2 : x < (2 : ℚ) ^ (e + 1)) :
    Int.log 2 x = e := by
  have hx : 0 < x := lt_of_lt_of_le (zpow_pos (by norm_num) e) h1
  apply le_antisymm
  · have := (Int.lt_zpow_iff_log_lt (b := 2) (by norm_num) hx).mp (by exact_mod_cast h2)
    omega
  · exact (Int.zpow_le_iff_le_log (b := 2) (by norm_num) hx).mp (by exact_mod_cast h1)

theorem toDouble_of_bounds (x : ℚ) (e : ℤ) (h1 : (2 : ℚ) ^ e ≤ x) (h2 : x < (2 : ℚ) ^ (e + 1)) :
    toDouble x = (roundHalfEven (x / 2 ^ (e - 52)) : ℚ) * 2 ^ (e - 52) := by
  have hx : 0 < x := lt_of_lt_of_le (zpow_pos (by norm_num) e) h1
  unfold toDouble
  rw [if_neg (ne_of_gt hx), if_neg (not_lt.mpr (le_of_lt hx)), abs_of_pos hx,
    log_eq_of_bounds x e h1 h2]
  simp

theorem roundHalfEven_div (m sh : Nat) :
    roundHalfEven ((m : ℚ) / 2 ^ sh) = roundShift m sh := by
  have hp : (0 : ℚ) < 2 ^ sh := by positivity
  have hfl : ⌊(m : ℚ) / 2 ^ sh⌋₊ = m / 2 ^ sh := by
    have := Nat.floor_div_eq_div (α := ℚ) m (2 ^ sh)
    push_cast at this
    exact this
  have hdm := Nat.div_add_mod m (2 ^ sh)
  have hrem : (m : ℚ) / 2 ^ sh - ((m / 2 ^ sh : Nat) : ℚ) = ((m % 2 ^ sh : Nat) : ℚ) / 2 ^ sh := by
    have h : (m : ℚ) = 2 ^ sh * ((m / 2 ^ sh : Nat) : ℚ) + ((m % 2 ^ sh : Nat) : ℚ) := by
      exact_mod_cast hdm.symm
    rw [eq_div_iff (ne_of_gt hp)]
    nth_rewrite 1 [h]
    field_simp
  have hlt : ((m % 2 ^ sh : Nat) : ℚ) / 2 ^ sh < 1 / 2 ↔ 2 * (m % 2 ^ sh) < 2 ^ sh := by
    rw [div_lt_div_iff₀ hp (by norm_num)]
    constructor
    · intro h
      have : ((2 * (m % 2 ^ sh) : Nat) : ℚ) < ((2 ^ sh : Nat) : ℚ) := by
        push_cast
        linarith
      exact_mod_cast this
    · intro h
      have : ((2 * (m % 2 ^ sh) : Nat) : ℚ) < ((2 ^ sh : Nat) : ℚ) := by exact_mod_cast h
      push_cast at this
      linarith
  have hgt : 1 / 2 < ((m % 2 ^ sh : Nat) : ℚ) / 2 ^ sh ↔ 2 ^ sh < 2 * (m % 2 ^ sh) := by
    rw [div_lt_div_iff₀ (by norm_num) hp]
    constructor
    · intro h
      have : ((2 ^ sh : Nat) : ℚ) < ((2 * (m % 2 ^ sh) : Nat) : ℚ) := by
        push_cast
        linarith
      exact_mod_cast this
    · intro h
      have : ((2 ^ sh : Nat) : ℚ) < ((2 * (m % 2 ^ sh) : Nat) : ℚ) := by exact_mod_cast h
      push_cast at this
      linarith
  unfold roundHalfEven roundShift
  simp only [hfl, hrem, hlt, hgt]

theorem toDouble_dyadic (m sh : Nat) (h1 : 2 ^ (52 + sh) ≤ m) (h2 : m < 2 ^ (53 + sh)) :
    toDouble ((m : ℚ) / 2 ^ 56) = ((roundShift m sh * 2 ^ sh : Nat) : ℚ) / 2 ^ 56 := by
  have e1 : (2 : ℚ) ^ ((sh : ℤ) - 4) = 2 ^ (52 + sh) / 2 ^ 56 := by
    rw [zpow_sub₀ (by norm_num), zpow_natCast, pow_add]
    norm_num
    ring
  have e2 : (2 : ℚ) ^ ((sh : ℤ) - 4 + 1) = 2 ^ (53 + sh) / 2 ^ 56 := by
    rw [show (sh : ℤ) - 4 + 1 = (sh : ℤ) - 3 by ring, zpow_sub₀ (by norm_num), zpow_natCast,
      pow_add]
    norm_num
    ring
  have e3 : (2 : ℚ) ^ ((sh : ℤ) - 4 - 52) = 2 ^ sh / 2 ^ 56 := by
    rw [show (sh : ℤ) - 4 - 52 = (sh : ℤ) - 56 by ring, zpow_sub₀ (by norm_num), zpow_natCast]
    norm_num
  have b1 : (2 : ℚ) ^ ((sh : ℤ) - 4) ≤ (m : ℚ) / 2 ^ 56 := by
    rw [e1]
    apply div_le_div_of_nonneg_right _ (by positivity)
    exact_mod_cast h1
  have b2 : (m : ℚ) / 2 ^ 56 < (2 : ℚ) ^ ((sh : ℤ) - 4 + 1) := by
    rw [e2]
    apply div_lt_div_of_pos_right _ (by positivity)
    exact_mod_cast h2
  rw [toDouble_of_bounds _ _ b1 b2, e3]
  have e4 : (m : ℚ) / 2 ^ 56 / (2 ^ sh / 2 ^ 56) = (m : ℚ) / 2 ^ sh := by
    field_simp
  rw [e4, roundHalfEven_div]
  push_cast
  ring

theorem ulpShiftAux_spec (fuel m : Nat) (h1 : 2 ^ 52 ≤ m) (h2 : m < 2 ^ (53 + fuel)) :
    2 ^ (52 + ulpShiftAux fuel m) ≤ m ∧ m < 2 ^ (53 + ulpShiftAux fuel m) := by
  induction fuel generalizing m with
  | zero => exact ⟨h1, h2⟩
  | succ f ih =>
    unfold ulpShiftAux
    split_ifs with h
    · exact ⟨h1, h⟩
    · have h3 : 2 ^ 52 ≤ m / 2 := by omega
      have h4 : m / 2 < 2 ^ (53 + f) := by
        have : 2 ^ (53 + (f + 1)) = 2 * 2 ^ (53 + f) := by ring
        omega
      obtain ⟨i1, i2⟩ := ih (m / 2) h3 h4
      have p1 : 2 ^ (52 + (ulpShiftAux f (m / 2) + 1)) = 2 * 2 ^ (52 + ulpShiftAux f (m / 2)) := by
        ring
      have p2 : 2 ^ (53 + (ulpShiftAux f (m / 2) + 1)) = 2 * 2 ^ (53 + ulpShiftAux f (m / 2)) := by
        ring
      constructor <;> omega

theorem toDouble_roundBits (m : Nat) (h1 : 2 ^ 52 ≤ m) (h2 : m < 2 ^ 117) :
    toDouble ((m : ℚ) / 2 ^ 56) = (roundBits m : ℚ) / 2 ^ 56 := by
  obtain ⟨i1, i2⟩ := ulpShiftAux_spec 64 m h1 h2
  exact toDouble_dyadic m (ulpShift m) i1 i2

theorem recovery_rate_eq : recovery_rate_per_second = 6004799503160661 / 2 ^ 56 := by
  unfold recovery_rate_per_second
  rw [toDouble_of_bounds _ (-4) (by norm_num) (by norm_num),
    roundHalfEven_of_lt _ 6004799503160661 (by norm_num) (by norm_num)]
  norm_num

theorem rampIncrement_eq :
    toDouble (target_power * toDouble (recovery_rate_per_second / 100.0)) =
      (rampIncrementN : ℚ) / 2 ^ 56 := by
  rw [recovery_rate_eq, toDouble_of_bounds (6004799503160661 / 2 ^ 56 / 100.0) (-11)
      (by norm_num) (by norm_num),
    roundHalfEven_of_lt _ 7686143364045646 (by norm_num) (by norm_num)]
  have h : target_power * (((7686143364045646 : Nat) : ℚ) * 2 ^ ((-11 : ℤ) - 52)) =
      ((768614336404564600 : Nat) : ℚ) / 2 ^ 63 := by
    norm_num [target_power]
  rw [h]
  rw [toDouble_of_bounds _ (-4) (by norm_num) (by norm_num)]
  have h3 : ((768614336404564600 : Nat) : ℚ) / 2 ^ 63 / 2 ^ ((-4 : ℤ) - 52) =
      ((768614336404564600 : Nat) : ℚ) / 2 ^ 7 := by norm_num
  rw [h3, roundHalfEven_div]
  have h4 : roundShift 768614336404564600 7 = rampIncrementN := by decide
  rw [h4]
  norm_num
  ring

theorem target_power_eq : target_power = (rampTargetN : ℚ) / 2 ^ 56 := by
  norm_num [target_power, rampTargetN]

theorem lt_target_iff (n : Nat) : (n : ℚ) / 2 ^ 56 < target_power ↔ n < rampTargetN := by
  rw [target_power_eq, div_lt_div_iff_of_pos_right (by positivity)]
  exact Nat.cast_lt

theorem rampStep_eq (n : Nat) (hn : n ≤ rampTargetN) :
    min (toDouble ((n : ℚ) / 2 ^ 56 +
        toDouble (target_power * toDouble (recovery_rate_per_second / 100.0))))
      target_power = (rampStepN n : ℚ) / 2 ^ 56 := by
  have e : (n : ℚ) / 2 ^ 56 + (rampIncrementN : ℚ) / 2 ^ 56 =
      ((n + rampIncrementN : Nat) : ℚ) / 2 ^ 56 := by
    push_cast
    ring
  have h1 : 2 ^ 52 ≤ n + rampIncrementN := by
    unfold rampIncrementN
    omega
  have h2 : n + rampIncrementN < 2 ^ 117 := by
    unfold rampIncrementN rampTargetN at *
    omega
  rw [rampIncrement_eq, e, toDouble_roundBits _ h1 h2, target_power_eq,
    min_div_div_right (by positivity)]
  unfold rampStepN
  push_cast
  rfl

/-! ## The ramp loop on numerators -/

theorem rampStepN_le (n : Nat) : rampStepN n ≤ rampTargetN := min_le_right _ _

theorem rampValuesN_target (fuel : Nat) : rampValuesN fuel rampTargetN = [] := by
  cases fuel with
  | zero => rfl
  | succ f => simp [rampValuesN]

theorem rampScan_succ (f k n r : Nat) (h : rampScan (f + 1) k n = some r) :
    n < rampTargetN ∧ n ≤ rampStepN n ∧ nearIdeal (k + 1) (rampStepN n) = true ∧
      rampScan f (k + 1) (rampStepN n) = some r := by
  simp only [rampScan] at h
  split_ifs at h with hc
  exact ⟨hc.1, hc.2.1, hc.2.2, h⟩

theorem rampScan_add (a b k n : Nat) :
    rampScan (a + b) k n = (rampScan a k n).bind fun r => rampScan b (k + a) r := by
  induction a generalizing k n with
  | zero => simp [rampScan]
  | succ a ih =>
    rw [Nat.succ_add]
    simp only [rampScan]
    split_ifs with h
    · rw [ih]
      have e : k + 1 + a = k + (a + 1) := by omega
      rw [e]
    · rfl

theorem rampValuesN_add (a b k n r : Nat) (h : rampScan a k n = some r) :
    rampValuesN (a + b) n = rampValuesN a n ++ rampValuesN b r := by
  induction a generalizing k n with
  | zero =>
    simp only [rampScan, Option.some.injEq] at h
    subst h
    simp [rampValuesN]
  | succ a ih =>
    obtain ⟨h1, -, -, h4⟩ := rampScan_succ a k n r h
    rw [Nat.succ_add]
    simp only [rampValuesN, if_pos h1, List.cons_append]
    rw [ih (k + 1) (rampStepN n) h4]

theorem rampValuesN_length (f k n r : Nat) (h : rampScan f k n = some r) :
    (rampValuesN f n).length = f := by
  induction f generalizing k n with
  | zero => rfl
  | succ f ih =>
    obtain ⟨h1, -, -, h4⟩ := rampScan_succ f k n r h
    simp only [rampValuesN, if_pos h1, List.length_cons]
    rw [ih (k + 1) (rampStepN n) h4]

theorem rampValuesN_chain (f k n r : Nat) (h : rampScan f k n = some r) :
    List.Chain (fun a b => a ≤ b) n (rampValuesN f n) := by
  induction f generalizing k n with
  | zero => exact List.Chain.nil
  | succ f ih =>
    obtain ⟨h1, h2, -, h4⟩ := rampScan_succ f k n r h
    simp only [rampValuesN, if_pos h1]
    exact List.Chain.cons h2 (ih (k + 1) (rampStepN n) h4)

theorem rampValuesN_le (f n : Nat) : ∀ m ∈ rampValuesN f n, m ≤ rampTargetN := by
  induction f generalizing n with
  | zero => intro m hm; simp [rampValuesN] at hm
  | succ f ih =>
    intro m hm
    simp only [rampValuesN] at hm
    split_ifs at hm with h1
    · rcases List.mem_cons.mp hm with e | e
      · rw [e]
        exact rampStepN_le n
      · exact ih _ m e
    · simp at hm

theorem rampValuesN_getLast (f k n r : Nat) (h : rampScan (f + 1) k n = some r) :
    (rampValuesN (f + 1) n).getLast? = some r := by
  induction f generalizing k n with
  | zero =>
    obtain ⟨h1, -, -, h4⟩ := rampScan_succ 0 k n r h
    simp only [rampScan, Option.some.injEq] at h4
    simp [rampValuesN, if_pos h1, h4]
  | succ f ih =>
    obtain ⟨h1, -, -, h4⟩ := rampScan_succ (f + 1) k n r h
    have h5 := ih (k + 1) (rampStepN n) h4
    obtain ⟨g1, -, -, -⟩ := rampScan_succ f (k + 1) (rampStepN n) r h4
    rw [rampValuesN, if_pos h1]
    rw [rampValuesN, if_pos g1] at h5 ⊢
    rw [List.getLast?_cons_cons]
    exact h5

theorem rampValuesN_near (f k n r : Nat) (h : rampScan f k n = some r) :
    ∀ j m : Nat, (rampValuesN f n)[j]? = some m → nearIdeal (k + j + 1) m = true := by
  induction f generalizing k n with
  | zero => intro j m hm; simp [rampValuesN] at hm
  | succ f ih =>
    obtain ⟨h1, -, h3, h4⟩ := rampScan_succ f k n r h
    intro j m hm
    simp only [rampValuesN, if_pos h1] at hm
    cases j with
    | zero =>
      simp only [List.getElem?_cons_zero, Option.some.injEq] at hm
      subst hm
      exact h3
    | succ j =>
      simp only [List.getElem?_cons_succ] at hm
      have := ih (k + 1) (rampStepN n) h4 j m hm
      have e : k + (j + 1) + 1 = k + 1 + j + 1 := by omega
      rw [e]
      exact this

theorem rampValuesN_getElem (j k n r f : Nat) (h : rampScan (j + 1) k n = some r)
    (hf : j < f) : (rampValuesN f n)[j]? = some r := by
  induction j generalizing k n f with
  | zero =>
    obtain ⟨h1, -, -, h4⟩ := rampScan_succ 0 k n r h
    simp only [rampScan, Option.some.injEq] at h4
    obtain ⟨f1, rfl⟩ : ∃ f1, f = f1 + 1 := ⟨f - 1, by omega⟩
    simp [rampValuesN, if_pos h1, h4]
  | succ j ih =>
    obtain ⟨h1, -, -, h4⟩ := rampScan_succ (j + 1) k n r h
    obtain ⟨f1, rfl⟩ : ∃ f1, f = f1 + 1 := ⟨f - 1, by omega⟩
    simp only [rampValuesN, if_pos h1, List.getElem?_cons_succ]
    exact ih (k + 1) (rampStepN n) f1 h4 (by omega)

theorem rampScan_300 : rampScan 300 0 0 = some 1801439850948192256 := by decide!

theorem rampScan_600 :
    rampScan 300 300 1801439850948192256 = some 3602879701896420352 := by decide!

theorem rampScan_900 :
    rampScan 300 600 3602879701896420352 = some 5404319552844602368 := by decide!

theorem rampScan_1200 :
    rampScan 300 900 5404319552844602368 = some 7205759403792698368 := by decide!

theorem rampScan_last : rampScan 1 1200 7205759403792698368 = some rampTargetN := by decide!

theorem rampScan_upto_1200 : rampScan 1200 0 0 = some 7205759403792698368 := by
  have e : (1200 : Nat) = 300 + (300 + (300 + 300)) := rfl
  rw [e, rampScan_add, rampScan_300, Option.some_bind, rampScan_add, rampScan_600,
    Option.some_bind, rampScan_add, rampScan_900, Option.some_bind]
  exact rampScan_1200

theorem rampScan_upto_1201 : rampScan 1201 0 0 = some rampTargetN := by
  have e : (1201 : Nat) = 1200 + 1 := rfl
  rw [e, rampScan_add, rampScan_upto_1200, Option.some_bind]
  exact rampScan_last

theorem rampValuesN_of_le (fuel : Nat) (h : 1201 ≤ fuel) :
    rampValuesN fuel 0 = rampValuesN 1201 0 := by
  obtain ⟨b, rfl⟩ : ∃ b, fuel = 1201 + b := ⟨fuel - 1201, by omega⟩
  rw [rampValuesN_add 1201 b 0 0 rampTargetN rampScan_upto_1201, rampValuesN_target,
    List.append_nil]

/-! ## The ramp loop -/

theorem rampIterate_eq_values (fuel : Nat) (s : State) (device : String) (n : Nat)
    (hn : n ≤ rampTargetN) :
    rampIterate fuel s device ((n : ℚ) / 2 ^ 56) =
      ((rampValuesN fuel n).map fun m : Nat => callControl s device ((m : ℚ) / 2 ^ 56)).flatten := by
  induction fuel generalizing n with
  | zero => rfl
  | succ f ih =>
    by_cases h : n < rampTargetN
    · have hq : (n : ℚ) / 2 ^ 56 < target_power := (lt_target_iff n).mpr h
      simp only [rampIterate, if_pos hq, rampValuesN, if_pos h, List.map_cons,
        List.flatten_cons, rampStep_eq n hn]
      rw [ih (rampStepN n) (rampStepN_le n)]
    · have hq : ¬ (n : ℚ) / 2 ^ 56 < target_power := fun hq => h ((lt_target_iff n).mp hq)
      simp only [rampIterate, if_neg hq, rampValuesN, if_neg h, List.map_nil, List.flatten_nil]

theorem rampIterate_of_le (fuel : Nat) (h : 1201 ≤ fuel) (s : State) (device : String) :
    rampIterate fuel s device 0.0 = rampLoop s device 0.0 := by
  have e : (0.0 : ℚ) = ((0 : Nat) : ℚ) / 2 ^ 56 := by norm_num
  unfold rampLoop
  rw [e, rampIterate_eq_values fuel s device 0 (Nat.zero_le _),
    rampIterate_eq_values rampFuel s device 0 (Nat.zero_le _), rampValuesN_of_le fuel h,
    rampValuesN_of_le rampFuel (by decide)]

theorem rampLoop_closed (s : State) (device : String) (h : s.control_callback = true) :
    rampLoop s device 0.0 = rampSetpoints.map fun p => Effect.control device p := by
  have e : (0.0 : ℚ) = ((0 : Nat) : ℚ) / 2 ^ 56 := by norm_num
  unfold rampLoop rampSetpoints
  rw [e, rampIterate_eq_values rampFuel s device 0 (Nat.zero_le _), List.map_map]
  generalize rampValuesN rampFuel 0 = l
  induction l with
  | nil => rfl
  | cons a l ih =>
    have ih2 : (List.map (fun m : Nat => [Effect.control device ((m : ℚ) / 2 ^ 56)]) l).flatten =
        List.map ((fun p => Effect.control device p) ∘ fun m : Nat => (m : ℚ) / 2 ^ 56) l := by
      simpa only [callControl, h, if_true] using ih
    simp only [List.map_cons, List.flatten_cons, callControl, h, if_true,
      List.singleton_append, Function.comp]
    rw [ih2]

theorem rampLoop_unregistered (s : State) (device : String) (c : ℚ)
    (h : s.control_callback = false) : rampLoop s device c = [] := by
  unfold rampLoop
  generalize rampFuel = fuel
  induction fuel generalizing c with
  | zero => rfl
  | succ f ih =>
    simp only [rampIterate]
    split_ifs
    · rw [ih]
      simp [callControl, h]
    · rfl

theorem rampSetpoints_eq :
    rampSetpoints = (rampValuesN 1201 0).map fun m : Nat => (m : ℚ) / 2 ^ 56 := by
  unfold rampSetpoints
  rw [rampValuesN_of_le rampFuel (by decide)]

theorem rampSetpoints_length : rampSetpoints.length = 1201 := by
  rw [rampSetpoints_eq, List.length_map, rampValuesN_length 1201 0 0 _ rampScan_upto_1201]

theorem rampSetpoints_pairwise : rampSetpoints.Pairwise (fun p q => p ≤ q) := by
  rw [rampSetpoints_eq, List.pairwise_map]
  have hc := (rampValuesN_chain 1201 0 0 _ rampScan_upto_1201).pairwise
  have hp := (List.pairwise_cons.mp hc).2
  refine hp.imp ?_
  intro a b hab
  apply div_le_div_of_nonneg_right _ (by positivity)
  exact_mod_cast hab

theorem rampSetpoints_le : ∀ p ∈ rampSetpoints, p ≤ target_power := by
  intro p hp
  rw [rampSetpoints_eq] at hp
  obtain ⟨m, hm, rfl⟩ := List.mem_map.mp hp
  rw [target_power_eq]
  apply div_le_div_of_nonneg_right _ (by positivity)
  exact_mod_cast rampValuesN_le 1201 0 m hm

theorem rampSetpoints_getLast : rampSetpoints.getLast? = some target_power := by
  rw [rampSetpoints_eq, List.getLast?_map, rampValuesN_getLast 1200 0 0 _ rampScan_upto_1201,
    target_power_eq]
  rfl

theorem rampSetpoints_1200 :
    rampSetpoints[1199]? = some (7036874417766307 / 70368744177664) := by
  rw [rampSetpoints_eq, List.getElem?_map,
    rampValuesN_getElem 1199 0 0 _ 1201 rampScan_upto_1200 (by decide)]
  norm_num

theorem rampSetpoints_near (k : Nat) (p : ℚ) (h : rampSetpoints[k]? = some p) :
    |p - min (((k + 1 : Nat) : ℚ) / 12) target_power| < 2 / 10 ^ 12 := by
  rw [rampSetpoints_eq, List.getElem?_map] at h
  cases hm : (rampValuesN 1201 0)[k]? with
  | none => rw [hm] at h; simp at h
  | some m =>
    rw [hm] at h
    simp only [Option.map_some', Option.some.injEq] at h
    subst h
    have hn := rampValuesN_near 1201 0 0 _ rampScan_upto_1201 k m hm
    unfold nearIdeal at hn
    rw [decide_eq_true_eq, Nat.zero_add] at hn
    have e : min (((k + 1 : Nat) : ℚ) / 12) target_power =
        ((min (k + 1) 1200 * 2 ^ 56 : Nat) : ℚ) / (12 * 2 ^ 56) := by
      rw [show target_power = ((1200 : Nat) : ℚ) / 12 by norm_num [target_power],
        min_div_div_right (by norm_num), ← Nat.cast_min]
      push_cast
      field_simp
      ring
    rw [e]
    have e2 : (m : ℚ) / 2 ^ 56 = ((12 * m : Nat) : ℚ) / (12 * 2 ^ 56) := by
      push_cast
      field_simp
      ring
    rw [e2, ← sub_div, abs_div, abs_of_pos (by positivity : (0 : ℚ) < 12 * 2 ^ 56),
      div_lt_div_iff₀ (by positivity) (by positivity)]
    set a := 12 * m with ha
    set b := min (k + 1) 1200 * 2 ^ 56 with hb
    rcases le_total a b with hab | hab
    · have h1 : a - b = 0 := Nat.sub_eq_zero_of_le hab
      rw [h1, Nat.zero_add] at hn
      have h2 : |(a : ℚ) - (b : ℚ)| = ((b - a : Nat) : ℚ) := by
        rw [Nat.cast_sub hab, abs_sub_comm, abs_of_nonneg]
        exact sub_nonneg.mpr (by exact_mod_cast hab)
      rw [h2]
      have h3 : (((b - a) * 10 ^ 12 : Nat) : ℚ) < ((24 * 2 ^ 56 : Nat) : ℚ) := by
        exact_mod_cast hn
      push_cast at h3
      linarith
    · have h1 : b - a = 0 := Nat.sub_eq_zero_of_le hab
      rw [h1, Nat.add_zero] at hn
      have h2 : |(a : ℚ) - (b : ℚ)| = ((a - b : Nat) : ℚ) := by
        rw [Nat.cast_sub hab, abs_of_nonneg]
        exact sub_nonneg.mpr (by exact_mod_cast hab)
      rw [h2]
      have h3 : (((a - b) * 10 ^ 12 : Nat) : ℚ) < ((24 * 2 ^ 56 : Nat) : ℚ) := by
        exact_mod_cast hn
      push_cast at h3
      linarith

/-! ## Facts about the trace -/

theorem mem_rampIterate (fuel : Nat) (s : State) (device : String) (current_power : ℚ)
    (e : Effect) (h : e ∈ rampIterate fuel s device current_power) :
    ∃ p, e = Effect.control device p := by
  induction fuel generalizing current_power with
  | zero => simp [rampIterate] at h
  | succ f ih =>
    simp only [rampIterate] at h
    split_ifs at h with hc
    · rcases List.mem_append.mp h with h | h
      · unfold callControl at h
        split_ifs at h
        · exact ⟨_, by simpa using h⟩
        · simp at h
      · exact ih _ h
    · simp at h

theorem mem_rampLoop (s : State) (device : String) (current_power : ℚ) (e : Effect)
    (h : e ∈ rampLoop s device current_power) : ∃ p, e = Effect.control device p :=
  mem_rampIterate rampFuel s device current_power e h

theorem dispatchCount_append (d : String) (t u : List Effect) :
    dispatchCount d (t ++ u) = dispatchCount d t + dispatchCount d u := by
  simp [dispatchCount]

theorem dispatchCount_eq_zero (d : String) (t : List Effect)
    (h : ∀ e ∈ t, ∀ x, e ≠ Effect.mitigation x) : dispatchCount d t = 0 := by
  unfold dispatchCount
  rw [List.count_eq_zero]
  intro hm
  exact h _ hm d rfl

theorem callStatus_ne (s : State) (msg : String) :
    ∀ e ∈ callStatus s msg, ∀ x, e ≠ Effect.mitigation x := by
  intro e he x
  unfold callStatus at he
  split_ifs at he <;> simp at he
  simp [he]

theorem callControl_ne (s : State) (device : String) (p : ℚ) :
    ∀ e ∈ callControl s device p, ∀ x, e ≠ Effect.mitigation x := by
  intro e he x
  unfold callControl at he
  split_ifs at he <;> simp at he
  simp [he]

theorem callSafety_ne (s : State) (action : String) :
    ∀ e ∈ callSafety s action, ∀ x, e ≠ Effect.mitigation x := by
  intro e he x
  unfold callSafety at he
  split_ifs at he <;> simp at he
  simp [he]

theorem rampLoop_ne (s : State) (device : String) (c : ℚ) :
    ∀ e ∈ rampLoop s device c, ∀ x, e ≠ Effect.mitigation x := by
  intro e he x
  obtain ⟨p, rfl⟩ := mem_rampLoop s device c e he
  simp

theorem append_ne {t u : List Effect} (ht : ∀ e ∈ t, ∀ x, e ≠ Effect.mitigation x)
    (hu : ∀ e ∈ u, ∀ x, e ≠ Effect.mitigation x) :
    ∀ e ∈ t ++ u, ∀ x, e ≠ Effect.mitigation x := by
  intro e he
  rcases List.mem_append.mp he with he | he
  · exact ht e he
  · exact hu e he

theorem nil_ne : ∀ e ∈ ([] : List Effect), ∀ x, e ≠ Effect.mitigation x := by
  intro e he
  simp at he

theorem mitigationActions_ne (s : State) (a : AnomalyInfo) :
    ∀ e ∈ mitigationActions s a, ∀ x, e ≠ Effect.mitigation x := by
  unfold mitigationActions
  split
  · exact callStatus_ne _ _
  · refine append_ne ?_ (callStatus_ne _ _)
    split_ifs <;> first | exact callControl_ne _ _ _ | exact nil_ne
  · refine append_ne ?_ (callStatus_ne _ _)
    split_ifs <;>
      first
      | exact callControl_ne _ _ _
      | exact nil_ne
      | exact append_ne (callControl_ne _ _ _) (callStatus_ne _ _)
      | exact append_ne (callControl_ne _ _ _) nil_ne
      | exact append_ne (append_ne (callControl_ne _ _ _) (callSafety_ne _ _)) (callSafety_ne _ _)
      | exact append_ne (append_ne (callControl_ne _ _ _) nil_ne) (callSafety_ne _ _)

theorem handleAnomalyRecovery_ne (s : State) (a : AnomalyInfo) :
    ∀ e ∈ handleAnomalyRecovery s a, ∀ x, e ≠ Effect.mitigation x := by
  unfold handleAnomalyRecovery
  split_ifs <;>
    first
    | exact callStatus_ne _ _
    | exact append_ne (append_ne (callStatus_ne _ _) (rampLoop_ne _ _ _)) (callStatus_ne _ _)
    | exact append_ne (append_ne (callStatus_ne _ _) nil_ne) (callStatus_ne _ _)
    | exact append_ne (append_ne (callStatus_ne _ _)
        (append_ne (append_ne (callSafety_ne _ _) (rampLoop_ne _ _ _)) (callStatus_ne _ _)))
        (callStatus_ne _ _)

/-! ## Facts about the operations -/

theorem stepBound_refl (d : String) (s : State) : StepBound d s s [] := by
  simp [StepBound, dispatchCount, Nat.add_comm]

theorem stepBound_trans {d : String} {s t u : State} {e1 e2 : List Effect}
    (h1 : StepBound d s t e1) (h2 : StepBound d t u e2) : StepBound d s u (e1 ++ e2) := by
  unfold StepBound at *
  rw [dispatchCount_append]
  omega

theorem handleAnomaly_eq (s : State) (now : Int) (a : AnomalyInfo) :
    handleAnomaly s now a =
      if (s.active_anomalies.lookup a.description).isSome = true then (s, [])
      else if s.anomaly_duration_threshold_ms ≤ duration_cast_ms (now - a.start_time) then
        ({ s with active_anomalies :=
            mapSetHandled a.description (mapAssign a.description a s.active_anomalies) },
          Effect.mitigation a.description ::
            mitigationActions
              { s with active_anomalies := mapAssign a.description a s.active_anomalies } a)
      else ({ s with active_anomalies := mapAssign a.description a s.active_anomalies }, []) :=
  rfl

theorem handleAnomaly_of_active (s : State) (now : Int) (a : AnomalyInfo)
    (h : isActive a.description s = true) : handleAnomaly s now a = (s, []) := by
  unfold isActive at h
  rw [handleAnomaly_eq, if_pos h]

theorem handleAnomaly_history (s : State) (now : Int) (a : AnomalyInfo) :
    (handleAnomaly s now a).1.anomaly_history = s.anomaly_history := by
  rw [handleAnomaly_eq]
  split_ifs <;> rfl

theorem handleAnomaly_wellKeyed (s : State) (now : Int) (a : AnomalyInfo)
    (h : WellKeyed s.active_anomalies) : WellKeyed (handleAnomaly s now a).1.active_anomalies := by
  rw [handleAnomaly_eq]
  split_ifs
  · exact h
  · exact wellKeyed_mapSetHandled _ _ (wellKeyed_mapAssign _ _ h)
  · exact wellKeyed_mapAssign _ _ h

theorem handleAnomaly_isActive (d : String) (s : State) (now : Int) (a : AnomalyInfo) :
    isActive d (handleAnomaly s now a).1 = (isActive d s || decide (d = a.description)) := by
  rw [handleAnomaly_eq]
  unfold isActive
  by_cases hd : d = a.description
  · subst hd
    split_ifs with h1 h2
    · simp [h1]
    · simp [lookup_mapSetHandled_isSome, lookup_mapAssign_self]
    · simp [lookup_mapAssign_self]
  · split_ifs with h1 h2
    · simp [hd]
    · simp [lookup_mapSetHandled_isSome, lookup_mapAssign_ne _ _ _ _ hd, hd]
    · simp [lookup_mapAssign_ne _ _ _ _ hd, hd]

theorem dispatchCount_cons_mitigation (d x : String) (t : List Effect) :
    dispatchCount d (Effect.mitigation x :: t) =
      dispatchCount d t + if x = d then 1 else 0 := by
  unfold dispatchCount
  rw [List.count_cons]
  by_cases h : x = d <;> simp [h]

theorem handleAnomaly_dispatchCount (d : String) (s : State) (now : Int) (a : AnomalyInfo) :
    dispatchCount d (handleAnomaly s now a).2 ≤
      if isActive d s = true ∨ d ≠ a.description then 0 else 1 := by
  rw [handleAnomaly_eq]
  by_cases hd : d = a.description
  · subst hd
    unfold isActive
    by_cases hact : (s.active_anomalies.lookup a.description).isSome = true
    · simp [hact, dispatchCount]
    · rw [if_neg hact]
      split_ifs with h2 h3 h3
      · exact absurd h3 (by simp [hact])
      · rw [dispatchCount_cons_mitigation, dispatchCount_eq_zero _ _ (mitigationActions_ne _ _)]
        simp
      · simp [dispatchCount]
      · simp [dispatchCount]
  · have h0 : ¬ a.description = d := fun h => hd h.symm
    rw [if_pos (Or.inr hd)]
    split_ifs
    · simp [dispatchCount]
    · rw [dispatchCount_cons_mitigation, dispatchCount_eq_zero _ _ (mitigationActions_ne _ _)]
      simp [h0]
    · simp [dispatchCount]

theorem handleAnomaly_stepBound (d : String) (s : State) (now : Int) (a : AnomalyInfo) :
    StepBound d s (handleAnomaly s now a).1 (handleAnomaly s now a).2 := by
  have h1 := handleAnomaly_dispatchCount d s now a
  have h2 := handleAnomaly_isActive d s now a
  have h3 : closedCount d (handleAnomaly s now a).1 = closedCount d s := by
    unfold closedCount
    rw [handleAnomaly_history]
  unfold StepBound notActive
  rw [h2, h3]
  by_cases hd : d = a.description
  · subst hd
    cases hact : isActive a.description s <;> simp [hact] at h1 ⊢ <;> omega
  · cases hact : isActive d s <;> simp [hact, hd] at h1 ⊢ <;> omega

theorem admitAll_wellKeyed (s : State) (cs : List (Int × AnomalyInfo))
    (h : WellKeyed s.active_anomalies) : WellKeyed (admitAll s cs).1.active_anomalies := by
  induction cs generalizing s with
  | nil => exact h
  | cons c rest ih =>
    obtain ⟨now, a⟩ := c
    exact ih _ (handleAnomaly_wellKeyed s now a h)

theorem admitAll_stepBound (d : String) (s : State) (cs : List (Int × AnomalyInfo)) :
    StepBound d s (admitAll s cs).1 (admitAll s cs).2 := by
  induction cs generalizing s with
  | nil => exact stepBound_refl d s
  | cons c rest ih =>
    obtain ⟨now, a⟩ := c
    exact stepBound_trans (handleAnomaly_stepBound d s now a) (ih _)

theorem resolutionPass_active (s : State) (close : String → Int) :
    (resolutionPass s close).1.active_anomalies =
      (s.active_anomalies.map fun p =>
        if isAnomalyResolved s p.2 then (p.1, { p.2 with end_time := close p.1 }) else p).filter
        fun p => !(((s.active_anomalies.filter fun p => isAnomalyResolved s p.2).map
          fun p => p.1).contains p.1) := by
  simp only [resolutionPass, foldl_mapErase, List.map_map]
  rfl

theorem resolutionPass_history (s : State) (close : String → Int) :
    (resolutionPass s close).1.anomaly_history =
      s.anomaly_history ++ (s.active_anomalies.filter fun p => isAnomalyResolved s p.2).map
        fun p => { p.2 with end_time := close p.1 } := by
  simp only [resolutionPass, List.map_map]
  rfl

theorem resolutionPass_wellKeyed (s : State) (close : String → Int)
    (h : WellKeyed s.active_anomalies) :
    WellKeyed (resolutionPass s close).1.active_anomalies := by
  rw [resolutionPass_active]
  constructor
  · refine List.Pairwise.sublist (List.filter_sublist _) ?_
    rw [List.pairwise_map]
    refine h.1.imp ?_
    intro p q hpq
    by_cases h1 : isAnomalyResolved s p.2 = true <;>
      by_cases h2 : isAnomalyResolved s q.2 = true <;> simp [h1, h2] <;> simp_all
  · intro p hp
    obtain ⟨q, hq, rfl⟩ := List.mem_map.mp (List.mem_of_mem_filter hp)
    have := h.2 q hq
    by_cases h1 : isAnomalyResolved s q.2 = true <;> simp [h1] <;> exact this

theorem resolutionPass_dispatchCount (d : String) (s : State) (close : String → Int) :
    dispatchCount d (resolutionPass s close).2 = 0 := by
  apply dispatchCount_eq_zero
  unfold resolutionPass
  refine append_ne ?_ ?_
  · intro e he
    simp only [List.mem_flatten, List.mem_map] at he
    obtain ⟨l, ⟨p, _, rfl⟩, hl⟩ := he
    exact callStatus_ne _ _ e hl
  · intro e he
    simp only [List.mem_flatten, List.mem_map] at he
    obtain ⟨l, ⟨id, _, rfl⟩, hl⟩ := he
    split at hl
    · exact handleAnomalyRecovery_ne _ _ e hl
    · simp at hl

theorem resolutionPass_stepBound (d : String) (s : State) (close : String → Int)
    (h : WellKeyed s.active_anomalies) :
    StepBound d s (resolutionPass s close).1 (resolutionPass s close).2 := by
  unfold StepBound
  rw [resolutionPass_dispatchCount]
  have hc : closedCount d (resolutionPass s close).1 = closedCount d s +
      ((s.active_anomalies.filter fun p => isAnomalyResolved s p.2).map
        fun p => { p.2 with end_time := close p.1 }).countP (fun a => a.description == d) := by
    unfold closedCount
    rw [resolutionPass_history, List.countP_append]
  rw [hc]
  unfold notActive
  by_cases h1 : isActive d (resolutionPass s close).1 = true
  · rw [if_pos h1]
    omega
  · by_cases h0 : isActive d s = true
    · rw [if_neg h1, if_pos h0]
      -- the record under `d` was erased, so it was found resolved and pushed to the history
      obtain ⟨p, hp, hk⟩ := (lookup_isSome_iff _ _).mp h0
      have hres : ∃ q ∈ s.active_anomalies, isAnomalyResolved s q.2 = true ∧ q.1 = d := by
        by_contra hno
        push_neg at hno
        apply h1
        unfold isActive
        rw [lookup_isSome_iff, resolutionPass_active]
        refine ⟨_, List.mem_filter.mpr ⟨List.mem_map.mpr ⟨p, hp, rfl⟩, ?_⟩, ?_⟩
        · have hp1 : (if isAnomalyResolved s p.2 = true then
              (p.1, { p.2 with end_time := close p.1 }) else p).1 = d := by
            split_ifs <;> exact hk
          rw [hp1]
          simp only [Bool.not_eq_true', List.contains_eq_any_beq, List.any_eq_false,
            List.mem_map, List.mem_filter]
          rintro x ⟨q, ⟨hq, hr⟩, rfl⟩
          simpa using fun hqd : d = q.1 => hno q hq hr hqd.symm
        · split_ifs <;> exact hk
      obtain ⟨q, hq, hr, hqd⟩ := hres
      have hpos : 0 < ((s.active_anomalies.filter fun p => isAnomalyResolved s p.2).map
          fun p => { p.2 with end_time := close p.1 }).countP (fun a => a.description == d) := by
        rw [List.countP_pos_iff]
        refine ⟨_, List.mem_map.mpr ⟨q, List.mem_filter.mpr ⟨hq, hr⟩, rfl⟩, ?_⟩
        have := h.2 q hq
        simp [← this, hqd]
      omega
    · rw [if_neg h1, if_neg h0]
      omega

theorem confirm_of_none (s : State) (now : Int) (anomaly_id : String)
    (erased : AnomalyInfo)
    (h : s.active_anomalies.find?
      (fun p => p.2.description == anomaly_id && p.2.type == AnomalyType.SAFETY_FAULT) = none) :
    confirmSafetyAnomalyRecovery s now anomaly_id erased = (s, []) := by
  unfold confirmSafetyAnomalyRecovery
  rw [h]

theorem confirm_of_some (s : State) (now : Int) (anomaly_id id : String) (a : AnomalyInfo)
    (erased : AnomalyInfo)
    (h : s.active_anomalies.find?
      (fun p => p.2.description == anomaly_id && p.2.type == AnomalyType.SAFETY_FAULT) =
        some (id, a)) :
    confirmSafetyAnomalyRecovery s now anomaly_id erased =
      ({ s with
          anomaly_history := s.anomaly_history ++
            [{ a with needs_manual_confirmation := false, end_time := now }]
          active_anomalies := mapErase id s.active_anomalies },
        callStatus s ("安全异常恢复已确认: " ++ a.description) ++
          handleAnomalyRecovery s erased) := by
  unfold confirmSafetyAnomalyRecovery
  rw [h]

theorem confirm_wellKeyed (s : State) (now : Int) (anomaly_id : String)
    (erased : AnomalyInfo)
    (h : WellKeyed s.active_anomalies) :
    WellKeyed (confirmSafetyAnomalyRecovery s now anomaly_id erased).1.active_anomalies := by
  cases hf : s.active_anomalies.find?
      (fun p => p.2.description == anomaly_id && p.2.type == AnomalyType.SAFETY_FAULT) with
  | none => rw [confirm_of_none s now anomaly_id erased hf]; exact h
  | some p =>
    obtain ⟨id, a⟩ := p
    rw [confirm_of_some s now anomaly_id id a erased hf]
    exact wellKeyed_mapErase _ _ h

theorem isActive_mapErase (d id : String) (s t : State)
    (h : t.active_anomalies = mapErase id s.active_anomalies) :
    isActive d t = (isActive d s && !decide (d = id)) := by
  unfold isActive
  rw [h]
  by_cases hd : d = id
  · subst hd
    simp [lookup_mapErase_self]
  · simp [lookup_mapErase_ne _ _ _ hd, hd]

theorem confirm_stepBound (d : String) (s : State) (now : Int) (anomaly_id : String)
    (erased : AnomalyInfo)
    (h : WellKeyed s.active_anomalies) :
    StepBound d s (confirmSafetyAnomalyRecovery s now anomaly_id erased).1
      (confirmSafetyAnomalyRecovery s now anomaly_id erased).2 := by
  cases hf : s.active_anomalies.find?
      (fun p => p.2.description == anomaly_id && p.2.type == AnomalyType.SAFETY_FAULT) with
  | none => rw [confirm_of_none s now anomaly_id erased hf]; exact stepBound_refl d s
  | some p =>
    obtain ⟨id, a⟩ := p
    rw [confirm_of_some s now anomaly_id id a erased hf]
    have hmem : (id, a) ∈ s.active_anomalies := List.mem_of_find?_eq_some hf
    have hid : id = a.description := h.2 _ hmem
    unfold StepBound
    rw [dispatchCount_eq_zero _ _ (append_ne (callStatus_ne _ _) (handleAnomalyRecovery_ne _ _))]
    unfold notActive
    rw [isActive_mapErase d id s _ rfl]
    unfold closedCount
    simp only [List.countP_append, List.countP_cons, List.countP_nil]
    by_cases hd : d = id
    · subst hd
      have : (a.description == d) = true := by simp [← hid]
      simp only [decide_True, Bool.not_true, Bool.and_false, this, if_true]
      split_ifs <;> omega
    · simp only [hd, decide_False, Bool.not_false, Bool.and_true]
      split_ifs <;> omega

theorem stepBound_of_eq (d : String) (s t : State)
    (h1 : t.active_anomalies = s.active_anomalies) (h2 : t.anomaly_history = s.anomaly_history) :
    StepBound d s t [] := by
  unfold StepBound notActive isActive closedCount dispatchCount
  rw [h1, h2]
  simp [Nat.add_comm]

theorem tick_wellKeyed (s : State) (clock : TickClock) (h : WellKeyed s.active_anomalies) :
    WellKeyed (tick s clock).1.active_anomalies :=
  resolutionPass_wellKeyed _ _ (admitAll_wellKeyed _ _ h)

theorem tick_stepBound (d : String) (s : State) (clock : TickClock)
    (h : WellKeyed s.active_anomalies) : StepBound d s (tick s clock).1 (tick s clock).2 :=
  stepBound_trans (admitAll_stepBound d s _)
    (resolutionPass_stepBound d _ _ (admitAll_wellKeyed _ _ h))

theorem step_wellKeyed (s : State) (op : Op) (h : WellKeyed s.active_anomalies) :
    WellKeyed (step s op).1.active_anomalies := by
  cases op with
  | loopIteration clock =>
    show WellKeyed (loopIteration s clock).1.active_anomalies
    unfold loopIteration
    split_ifs
    · exact h
    · exact tick_wellKeyed s clock h
    · exact h
  | confirmSafetyAnomalyRecovery now id erased => exact confirm_wellKeyed s now id erased h
  | handleAnomaly now a => exact handleAnomaly_wellKeyed s now a h
  | _ => exact h

theorem step_stepBound (d : String) (s : State) (op : Op) (h : WellKeyed s.active_anomalies) :
    StepBound d s (step s op).1 (step s op).2 := by
  cases op with
  | loopIteration clock =>
    show StepBound d s (loopIteration s clock).1 (loopIteration s clock).2
    unfold loopIteration
    split_ifs
    · exact stepBound_refl d s
    · exact tick_stepBound d s clock h
    · exact stepBound_refl d s
  | confirmSafetyAnomalyRecovery now id erased => exact confirm_stepBound d s now id erased h
  | handleAnomaly now a => exact handleAnomaly_stepBound d s now a
  | _ => exact stepBound_of_eq d s _ rfl rfl

theorem run_wellKeyed (s : State) (ops : List Op) (h : WellKeyed s.active_anomalies) :
    WellKeyed (run s ops).1.active_anomalies := by
  induction ops generalizing s with
  | nil => exact h
  | cons op rest ih => exact ih _ (step_wellKeyed s op h)

theorem run_stepBound (d : String) (s : State) (ops : List Op)
    (h : WellKeyed s.active_anomalies) : StepBound d s (run s ops).1 (run s ops).2 := by
  induction ops generalizing s with
  | nil => exact stepBound_refl d s
  | cons op rest ih =>
    exact stepBound_trans (step_stepBound d s op h) (ih _ (step_wellKeyed s op h))

theorem wellKeyed_nil : WellKeyed [] := ⟨List.Pairwise.nil, fun _ hp => by simp at hp⟩

theorem reachable_wellKeyed (s : State) (h : Reachable s) : WellKeyed s.active_anomalies := by
  obtain ⟨status0, ops, _, rfl⟩ := h
  exact run_wellKeyed _ ops wellKeyed_nil

theorem safetyOnHydrogen_mapAssign (a : AnomalyInfo) (m : List (String × AnomalyInfo))
    (ha : a.type = AnomalyType.SAFETY_FAULT → a.device_id = "Hydrogen_System")
    (h : SafetyOnHydrogen m) : SafetyOnHydrogen (mapAssign a.description a m) := by
  intro p hp
  rcases mem_mapAssign hp with hp | hp
  · subst hp
    exact ha
  · exact h p hp

theorem safetyOnHydrogen_mapSetHandled (k : String) (m : List (String × AnomalyInfo))
    (h : SafetyOnHydrogen m) : SafetyOnHydrogen (mapSetHandled k m) := by
  intro p hp
  unfold mapSetHandled at hp
  obtain ⟨q, hq, rfl⟩ := List.mem_map.mp hp
  have := h q hq
  by_cases h1 : q.1 = k <;> simp [h1] <;> exact this

theorem safetyOnHydrogen_mapErase (k : String) (m : List (String × AnomalyInfo))
    (h : SafetyOnHydrogen m) : SafetyOnHydrogen (mapErase k m) :=
  fun p hp => h p (List.mem_of_mem_filter hp)

theorem handleAnomaly_safetyOnHydrogen (s : State) (now : Int) (a : AnomalyInfo)
    (ha : a.type = AnomalyType.SAFETY_FAULT → a.device_id = "Hydrogen_System")
    (h : SafetyOnHydrogen s.active_anomalies) :
    SafetyOnHydrogen (handleAnomaly s now a).1.active_anomalies := by
  rw [handleAnomaly_eq]
  split_ifs
  · exact h
  · exact safetyOnHydrogen_mapSetHandled _ _ (safetyOnHydrogen_mapAssign _ _ ha h)
  · exact safetyOnHydrogen_mapAssign _ _ ha h

theorem admitAll_safetyOnHydrogen (s : State) (cs : List (Int × AnomalyInfo))
    (hc : ∀ c ∈ cs, c.2.type = AnomalyType.SAFETY_FAULT → c.2.device_id = "Hydrogen_System")
    (h : SafetyOnHydrogen s.active_anomalies) :
    SafetyOnHydrogen (admitAll s cs).1.active_anomalies := by
  induction cs generalizing s with
  | nil => exact h
  | cons c rest ih =>
    obtain ⟨now, a⟩ := c
    exact ih _ (fun c hc1 => hc c (List.mem_cons_of_mem _ hc1))
      (handleAnomaly_safetyOnHydrogen s now a (hc (now, a) (List.mem_cons_self _ _)) h)

theorem detect_device (s : State) (now : Int) (p : Nat × AnomalyInfo) (hp : p ∈ detect s now) :
    p.2.type = AnomalyType.SAFETY_FAULT → p.2.device_id = "Hydrogen_System" := by
  unfold detect at hp
  simp only [List.mem_append] at hp
  rcases hp with ((((((hp | hp) | hp) | hp) | hp) | hp) | hp) | hp <;> split_ifs at hp
  all_goals first
    | (simp at hp; done)
    | (simp at hp; subst hp; simp)

theorem resolutionPass_safetyOnHydrogen (s : State) (close : String → Int)
    (h : SafetyOnHydrogen s.active_anomalies) :
    SafetyOnHydrogen (resolutionPass s close).1.active_anomalies := by
  rw [resolutionPass_active]
  intro p hp
  obtain ⟨q, hq, rfl⟩ := List.mem_map.mp (List.mem_of_mem_filter hp)
  have := h q hq
  by_cases h1 : isAnomalyResolved s q.2 = true <;> simp [h1] <;> exact this

theorem confirm_safetyOnHydrogen (s : State) (now : Int) (anomaly_id : String)
    (erased : AnomalyInfo)
    (h : SafetyOnHydrogen s.active_anomalies) :
    SafetyOnHydrogen (confirmSafetyAnomalyRecovery s now anomaly_id erased).1.active_anomalies := by
  cases hf : s.active_anomalies.find?
      (fun p => p.2.description == anomaly_id && p.2.type == AnomalyType.SAFETY_FAULT) with
  | none => rw [confirm_of_none s now anomaly_id erased hf]; exact h
  | some p =>
    obtain ⟨id, a⟩ := p
    rw [confirm_of_some s now anomaly_id id a erased hf]
    exact safetyOnHydrogen_mapErase _ _ h

theorem tick_safetyOnHydrogen (s : State) (clock : TickClock)
    (h : SafetyOnHydrogen s.active_anomalies) :
    SafetyOnHydrogen (tick s clock).1.active_anomalies := by
  refine resolutionPass_safetyOnHydrogen _ _ (admitAll_safetyOnHydrogen _ _ ?_ h)
  intro c hc
  obtain ⟨p, hp, rfl⟩ := List.mem_map.mp hc
  exact detect_device s clock.now p hp

theorem step_safetyOnHydrogen (s : State) (op : Op) (hop : op.isPublic = true)
    (h : SafetyOnHydrogen s.active_anomalies) :
    SafetyOnHydrogen (step s op).1.active_anomalies := by
  cases op with
  | loopIteration clock =>
    show SafetyOnHydrogen (loopIteration s clock).1.active_anomalies
    unfold loopIteration
    split_ifs
    · exact h
    · exact tick_safetyOnHydrogen s clock h
    · exact h
  | confirmSafetyAnomalyRecovery now id erased => exact confirm_safetyOnHydrogen s now id erased h
  | handleAnomaly now a => simp [Op.isPublic] at hop
  | _ => exact h

theorem run_safetyOnHydrogen (s : State) (ops : List Op) (hops : ∀ op ∈ ops, op.isPublic = true)
    (h : SafetyOnHydrogen s.active_anomalies) :
    SafetyOnHydrogen (run s ops).1.active_anomalies := by
  induction ops generalizing s with
  | nil => exact h
  | cons op rest ih =>
    exact ih _ (fun o ho => hops o (List.mem_cons_of_mem _ ho))
      (step_safetyOnHydrogen s op (hops op (List.mem_cons_self _ _)) h)

theorem reachable_safetyOnHydrogen (s : State) (h : Reachable s) :
    SafetyOnHydrogen s.active_anomalies := by
  obtain ⟨status0, ops, hops, rfl⟩ := h
  exact run_safetyOnHydrogen _ ops hops (fun p hp => by simp [construct] at hp)

/-! ## Values of `to_string` -/

theorem to_string_two : to_string 2 = "2.000000" := by
  norm_num [to_string, roundHalfEven, fractionDigits]
  decide

theorem to_string_edge : to_string (101 / 2) = "50.500000" := by
  norm_num [to_string, roundHalfEven, fractionDigits]
  decide

theorem to_string_six_fifths : to_string (6 / 5) = "1.200000" := by
  norm_num [to_string, roundHalfEven, fractionDigits]
  decide

theorem filter_description_length (m : List (String × AnomalyInfo)) (d : String)
    (h : WellKeyed m) :
    (m.filter fun p => p.2.description == d).length = if (m.lookup d).isSome then 1 else 0 := by
  induction m with
  | nil => simp
  | cons hd tl ih =>
    obtain ⟨k0, v0⟩ := hd
    have htl : WellKeyed tl :=
      ⟨(List.pairwise_cons.mp h.1).2, fun p hp => h.2 p (List.mem_cons_of_mem _ hp)⟩
    have hk : k0 = v0.description := h.2 (k0, v0) (List.mem_cons_self _ _)
    have hlt := (List.pairwise_cons.mp h.1).1
    by_cases hd : d = k0
    · subst hd
      have hnone : (tl.lookup d).isSome = false := by
        rw [Bool.eq_false_iff]
        intro hs
        obtain ⟨p, hp, hpk⟩ := (lookup_isSome_iff _ _).mp hs
        exact absurd (hlt p hp) (by simp [hpk])
      have := ih htl
      rw [hnone] at this
      simp [List.filter_cons, ← hk, List.lookup_cons, this]
    · have hb : (d == k0) = false := by simpa using hd
      have hb2 : (v0.description == d) = false := by
        rw [← hk]
        simpa using fun h : k0 = d => hd h.symm
      rw [List.filter_cons, List.lookup_cons, hb]
      simp only [hb2, Bool.false_eq_true, if_false]
      exact ih htl

/-! ## Runs of the harness -/

theorem run_append (s : State) (ops1 ops2 : List Op) :
    run s (ops1 ++ ops2) =
      ((run (run s ops1).1 ops2).1, (run s ops1).2 ++ (run (run s ops1).1 ops2).2) := by
  induction ops1 generalizing s with
  | nil => simp [run]
  | cons op rest ih => simp [run, ih, List.append_assoc]

theorem reachable_step (s : State) (h : Reachable s) (ops : List Op)
    (hops : ∀ op ∈ ops, op.isPublic = true) : Reachable (run s ops).1 := by
  obtain ⟨status0, ops0, h0, rfl⟩ := h
  refine ⟨status0, ops0 ++ ops, ?_, ?_⟩
  · intro op hop
    rcases List.mem_append.mp hop with hop | hop
    · exact h0 op hop
    · exact hops op hop
  · rw [run_append]

theorem run_harnessSetup : run (construct harnessStatus) harnessSetup = (harnessState, []) := by
  simp [run, step, harnessSetup, harnessState, construct]

theorem reachable_harnessState : Reachable harnessState :=
  ⟨harnessStatus, harnessSetup, by decide, by rw [run_harnessSetup]⟩

theorem conc_description :
    "氢浓度异常: " ++ to_string (6 / 5) ++ "%" = "氢浓度异常: 1.200000%" := by
  rw [to_string_six_fifths]
  rfl

theorem find_conc : find_ne_npos "氢浓度异常: 1.200000%" "氢浓度异常" = true := by decide


theorem callStatus_of_registered (s : State) (msg : String) (h : s.status_callback = true) :
    callStatus s msg = [Effect.status msg] := by
  simp [callStatus, h]

theorem handleAnomalyRecovery_hydrogen (s : State) (a : AnomalyInfo)
    (h1 : ¬(a.type = AnomalyType.SAFETY_FAULT ∧ a.needs_manual_confirmation = true))
    (h2 : a.device_id = "Hydrogen_System") :
    handleAnomalyRecovery s a =
      callStatus s ("开始恢复系统出力: " ++ a.description) ++ rampLoop s "HYDROGEN" 0.0 ++
        callStatus s ("系统出力恢复完成: " ++ a.description) := by
  unfold handleAnomalyRecovery
  rw [if_neg h1, h2]
  rw [if_neg (by decide), if_neg (by decide), if_neg (by decide), if_neg (by decide),
    if_neg (by decide), if_pos rfl]

theorem handleAnomalyRecovery_gated (s : State) (a : AnomalyInfo)
    (h1 : a.type = AnomalyType.SAFETY_FAULT) (h2 : a.needs_manual_confirmation = true) :
    handleAnomalyRecovery s a = callStatus s ("安全异常恢复需要人工确认: " ++ a.description) := by
  unfold handleAnomalyRecovery
  rw [if_pos ⟨h1, h2⟩]

theorem run_admits_conc (t : Int) :
    run harnessState [.updateSystemStatus concStatus, .loopIteration (clockAt t)] =
      (concActiveState concStatus t [], []) := by
  norm_num [run, step, loopIteration, tick, checkAnomalies, detect, admitAll, handleAnomaly,
    clockAt, duration_cast_ms, periodsPerMs, harnessState, construct, concRecord, mapAssign,
    resolutionPass, isAnomalyResolved, find_conc, harnessStatus, concStatus,
    determineAnomalyLevel, mapErase, callStatus, handleAnomalyRecovery, conc_description,
    concActiveState]

theorem run_closes_conc :
    run (concActiveState concStatus 0 [])
        [.updateSystemStatus harnessStatus, .loopIteration (clockAt 1000)] =
      ({ harnessState with anomaly_history := [{ concRecord 0 with end_time := 1000 }] },
        [Effect.status "异常已解除: 氢浓度异常: 1.200000%",
          Effect.status "安全异常恢复需要人工确认: 氢浓度异常: 1.200000%"]) := by
  norm_num [run, step, loopIteration, tick, checkAnomalies, detect, admitAll, handleAnomaly,
    clockAt, duration_cast_ms, periodsPerMs, harnessState, construct, concRecord, mapAssign,
    resolutionPass, isAnomalyResolved, find_conc, harnessStatus, concStatus,
    determineAnomalyLevel, mapErase, callStatus, handleAnomalyRecovery, concActiveState]
  decide

theorem confirm_conc :
    confirmSafetyAnomalyRecovery (concActiveState concStatus 0 []) 500 "氢浓度异常: 1.200000%"
        confirmedRecord =
      ({ harnessState with
          current_status := concStatus
          anomaly_history := [confirmedRecord] },
        [Effect.status "安全异常恢复已确认: 氢浓度异常: 1.200000%",
          Effect.status "开始恢复系统出力: 氢浓度异常: 1.200000%"] ++
        rampLoop (concActiveState concStatus 0 []) "HYDROGEN" 0.0 ++
        [Effect.status "系统出力恢复完成: 氢浓度异常: 1.200000%"]) := by
  rw [confirm_of_some _ _ _ "氢浓度异常: 1.200000%" (concRecord 0) confirmedRecord (by decide),
    handleAnomalyRecovery_hydrogen _ _ (by decide) rfl,
    callStatus_of_registered _ _ rfl, callStatus_of_registered _ _ rfl,
    callStatus_of_registered _ _ rfl]
  refine Prod.ext rfl ?_
  have hd : (concRecord 0).description = "氢浓度异常: 1.200000%" := rfl
  have hd2 : confirmedRecord.description = "氢浓度异常: 1.200000%" := rfl
  have e1 : "安全异常恢复已确认: " ++ "氢浓度异常: 1.200000%" =
      "安全异常恢复已确认: 氢浓度异常: 1.200000%" := by decide
  have e2 : "开始恢复系统出力: " ++ "氢浓度异常: 1.200000%" =
      "开始恢复系统出力: 氢浓度异常: 1.200000%" := by decide
  have e3 : "系统出力恢复完成: " ++ "氢浓度异常: 1.200000%" =
      "系统出力恢复完成: 氢浓度异常: 1.200000%" := by decide
  simp only [hd, hd2, e1, e2, e3, List.append_assoc, List.cons_append, List.nil_append]

theorem run_readmits_conc (t : Int) :
    run { harnessState with current_status := concStatus, anomaly_history := [confirmedRecord] }
        [.loopIteration (clockAt t)] =
      (concActiveState concStatus t [confirmedRecord], []) := by
  norm_num [run, step, loopIteration, tick, checkAnomalies, detect, admitAll, handleAnomaly,
    clockAt, duration_cast_ms, periodsPerMs, harnessState, construct, concRecord, mapAssign,
    resolutionPass, isAnomalyResolved, find_conc, harnessStatus, concStatus,
    determineAnomalyLevel, mapErase, callStatus, handleAnomalyRecovery, conc_description,
    concActiveState]

theorem run_closes_readmitted_conc :
    run (concActiveState concStatus 600 [confirmedRecord])
        [.updateSystemStatus harnessStatus, .loopIteration (clockAt 1000)] =
      ({ harnessState with
          anomaly_history := [confirmedRecord, { concRecord 600 with end_time := 1000 }] },
        [Effect.status "异常已解除: 氢浓度异常: 1.200000%",
          Effect.status "开始恢复系统出力: 氢浓度异常: 1.200000%"] ++
        rampLoop (concActiveState harnessStatus 600 [confirmedRecord]) "HYDROGEN" 0.0 ++
        [Effect.status "系统出力恢复完成: 氢浓度异常: 1.200000%"]) := by
  norm_num [run, step, loopIteration, tick, checkAnomalies, detect, admitAll, handleAnomaly,
    clockAt, duration_cast_ms, periodsPerMs, harnessState, construct, concRecord, mapAssign,
    resolutionPass, isAnomalyResolved, find_conc, harnessStatus, concStatus,
    determineAnomalyLevel, mapErase, callStatus, handleAnomalyRecovery, concActiveState,
    confirmedRecord]
  simp

theorem run_admits_pv :
    run harnessState [.updateSystemStatus pvStatus, .loopIteration (clockAt 0)] =
      (pvHarnessState, []) := by
  norm_num [run, step, loopIteration, tick, checkAnomalies, detect, admitAll, handleAnomaly,
    clockAt, duration_cast_ms, periodsPerMs, harnessState, construct, pvRecord, mapAssign,
    resolutionPass, isAnomalyResolved, harnessStatus, pvStatus,
    determineAnomalyLevel, mapErase, callStatus, handleAnomalyRecovery, pvHarnessState]

theorem loopIteration_pv (clock : TickClock) :
    loopIteration pvHarnessState clock = (pvHarnessState, []) := by
  norm_num [run, step, loopIteration, tick, checkAnomalies, detect, admitAll, handleAnomaly,
    clockAt, duration_cast_ms, periodsPerMs, harnessState, construct, pvRecord, mapAssign,
    resolutionPass, isAnomalyResolved, harnessStatus, pvStatus,
    determineAnomalyLevel, mapErase, callStatus, handleAnomalyRecovery, pvHarnessState]

theorem reachable_of_step (s : State) (h : Reachable s) (op : Op) (hop : op.isPublic = true) :
    Reachable (step s op).1 := by
  have := reachable_step s h [op] (by simpa using hop)
  simpa [run] using this

theorem find?_of_wellKeyed {m : List (String × AnomalyInfo)} (h : WellKeyed m) {k : String}
    {r : AnomalyInfo} (hm : (k, r) ∈ m) (anomaly_id : String) (hd : r.description = anomaly_id)
    (ht : r.type = AnomalyType.SAFETY_FAULT) :
    m.find? (fun p => p.2.description == anomaly_id && p.2.type == AnomalyType.SAFETY_FAULT) =
      some (k, r) := by
  induction m with
  | nil => simp at hm
  | cons hd0 tl ih =>
    obtain ⟨k0, v0⟩ := hd0
    have htl : WellKeyed tl :=
      ⟨(List.pairwise_cons.mp h.1).2, fun p hp => h.2 p (List.mem_cons_of_mem _ hp)⟩
    have hk0 : k0 = v0.description := h.2 (k0, v0) (List.mem_cons_self _ _)
    have hk : k = r.description := h.2 (k, r) hm
    have hlt := (List.pairwise_cons.mp h.1).1
    by_cases hp : (v0.description == anomaly_id && v0.type == AnomalyType.SAFETY_FAULT) = true
    · have h1 : v0.description = anomaly_id := by
        simp only [Bool.and_eq_true, beq_iff_eq] at hp
        exact hp.1
      have hkk : k0 = k := by rw [hk0, hk, h1, hd]
      rcases List.mem_cons.mp hm with hm | hm
      · rw [List.find?_cons]
        simp only [hp, hm]
      · exact absurd (hlt (k, r) hm) (by simp [hkk])
    · rcases List.mem_cons.mp hm with hm | hm
      · exfalso
        apply hp
        injection hm with e1 e2
        subst e2
        simp [hd, ht]
      · rw [List.find?_cons]
        simp only [hp]
        exact ih htl hm

theorem rampLoop_zero_mem (s : State) (device : String) (h : s.control_callback = true) :
    Effect.control device target_power ∈ rampLoop s device 0.0 := by
  rw [rampLoop_closed s device h]
  exact List.mem_map.mpr ⟨target_power,
    List.mem_of_mem_getLast? (by rw [rampSetpoints_getLast]; rfl), rfl⟩

theorem reachable_concActive : Reachable (concActiveState concStatus 0 []) := by
  have h := reachable_step harnessState reachable_harnessState
    [.updateSystemStatus concStatus, .loopIteration (clockAt 0)] (by decide)
  rw [run_admits_conc] at h
  exact h

theorem reachable_pvHarnessState : Reachable pvHarnessState := by
  have h := reachable_step harnessState reachable_harnessState
    [.updateSystemStatus pvStatus, .loopIteration (clockAt 0)] (by decide)
  rw [run_admits_pv] at h
  exact h

theorem reachable_readmitted : Reachable (concActiveState concStatus 600 [confirmedRecord]) := by
  have h1 := reachable_of_step _ reachable_concActive
    (.confirmSafetyAnomalyRecovery 500 "氢浓度异常: 1.200000%" confirmedRecord) rfl
  have h2 : (step (concActiveState concStatus 0 [])
      (.confirmSafetyAnomalyRecovery 500 "氢浓度异常: 1.200000%" confirmedRecord)).1 =
      { harnessState with current_status := concStatus, anomaly_history := [confirmedRecord] } := by
    show (confirmSafetyAnomalyRecovery _ _ _ _).1 = _
    rw [confirm_conc]
  rw [h2] at h1
  have h3 := reachable_step _ h1 [.loopIteration (clockAt 600)] (by decide)
  rw [run_readmits_conc] at h3
  exact h3

/-! ## The control calls of a recovery -/

theorem controlCalls_append (t u : List Effect) :
    controlCalls (t ++ u) = controlCalls t ++ controlCalls u := by
  simp [controlCalls, List.filterMap_append]

theorem controlCalls_callStatus (s : State) (msg : String) :
    controlCalls (callStatus s msg) = [] := by
  unfold callStatus controlCalls
  split_ifs <;> rfl

theorem controlCalls_callSafety (s : State) (action : String) :
    controlCalls (callSafety s action) = [] := by
  unfold callSafety controlCalls
  split_ifs <;> rfl

theorem controlCalls_map_control (device : String) (f : Nat → ℚ) (l : List Nat) :
    controlCalls (l.map fun k => Effect.control device (f k)) = l.map fun k => (device, f k) := by
  induction l with
  | nil => rfl
  | cons a l ih =>
    rw [List.map_cons, List.map_cons, ← ih]
    rfl

theorem controlCalls_map_setpoint (device : String) (l : List ℚ) :
    controlCalls (l.map fun p => Effect.control device p) = l.map fun p => (device, p) := by
  induction l with
  | nil => rfl
  | cons a l ih =>
    rw [List.map_cons, List.map_cons, ← ih]
    rfl

theorem controlCalls_rampLoop (s : State) (device : String) (h : s.control_callback = true) :
    controlCalls (rampLoop s device 0.0) = rampSetpoints.map fun p => (device, p) := by
  rw [rampLoop_closed s device h]
  exact controlCalls_map_setpoint device _

theorem controlCalls_recovery (s : State) (a : AnomalyInfo) (channel : String)
    (hg : ¬(a.type = AnomalyType.SAFETY_FAULT ∧ a.needs_manual_confirmation = true))
    (hch : rampChannel a.device_id = some channel) (h : s.control_callback = true) :
    controlCalls (handleAnomalyRecovery s a) = rampSetpoints.map fun p => (channel, p) := by
  unfold rampChannel at hch
  unfold handleAnomalyRecovery
  rw [if_neg hg]
  split_ifs at hch with h1 h2 h3 h4 h5 h6 <;> injection hch with hch <;> subst hch
  · rw [if_pos h1]
    simp only [controlCalls_append, controlCalls_callStatus, controlCalls_rampLoop s _ h,
      List.nil_append, List.append_nil]
  · rw [if_neg h1, if_pos h2]
    simp only [controlCalls_append, controlCalls_callStatus, controlCalls_rampLoop s _ h,
      List.nil_append, List.append_nil]
  · rw [if_neg h1, if_neg h2, if_pos h3]
    simp only [controlCalls_append, controlCalls_callStatus, controlCalls_rampLoop s _ h,
      List.nil_append, List.append_nil]
  · rw [if_neg h1, if_neg h2, if_neg h3, if_pos h4]
    simp only [controlCalls_append, controlCalls_callStatus, controlCalls_rampLoop s _ h,
      List.nil_append, List.append_nil]
  · rw [if_neg h1, if_neg h2, if_neg h3, if_neg h4, if_pos h5]
    simp only [controlCalls_append, controlCalls_callStatus, controlCalls_callSafety,
      controlCalls_rampLoop s _ h, List.nil_append, List.append_nil]
  · rw [if_neg h1, if_neg h2, if_neg h3, if_neg h4, if_neg h5, if_pos h6]
    simp only [controlCalls_append, controlCalls_callStatus, controlCalls_rampLoop s _ h,
      List.nil_append, List.append_nil]

theorem to_string_eleven_fifths : to_string (11 / 5) = "2.200000" := by
  norm_num [to_string, roundHalfEven, fractionDigits]
  decide

theorem detect_criticalConc :
    detect criticalConcState 0 =
      [(6, { type := .SAFETY_FAULT, level := .CRITICAL, device_id := "Hydrogen_System",
             description := "氢浓度异常: 2.200000%", start_time := 0, end_time := 0,
             is_handled := false, needs_manual_confirmation := true })] := by
  norm_num [detect, criticalConcState, harnessState, harnessStatus, construct,
    determineAnomalyLevel, to_string_eleven_fifths]
  rfl

theorem safetyCalls_append (t u : List Effect) :
    safetyCalls (t ++ u) = safetyCalls t ++ safetyCalls u := by
  simp [safetyCalls, List.filterMap_append]

theorem safetyCalls_callStatus (s : State) (msg : String) :
    safetyCalls (callStatus s msg) = [] := by
  unfold callStatus safetyCalls
  split_ifs <;> rfl

theorem safetyCalls_callControl (s : State) (device : String) (p : ℚ) :
    safetyCalls (callControl s device p) = [] := by
  unfold callControl safetyCalls
  split_ifs <;> rfl

theorem controlCalls_callControl (s : State) (device : String) (p : ℚ) :
    controlCalls (callControl s device p) = if s.control_callback then [(device, p)] else [] := by
  unfold callControl controlCalls
  split_ifs <;> rfl

theorem mitigationActions_critical (s : State) (a : AnomalyInfo) (channel : String)
    (hl : a.level = AnomalyLevel.CRITICAL) (hch : criticalChannel a.device_id = some channel) :
    mitigationActions s a =
      callControl s channel 0 ++
        (if a.device_id = "Grid" ∧ s.current_status.is_island_mode = true then
          callStatus s "孤岛模式，保障重要负荷" else []) ++
        callStatus s ("事故级异常: " ++ a.description ++ ", 设备已停机") := by
  unfold criticalChannel at hch
  unfold mitigationActions
  rw [hl]
  split_ifs at hch with h1 h2 h3 h4 h5 <;> injection hch with hch <;> subst hch
  · simp [h1]
  · simp [h2]
  · simp [h3]
  · simp [h4]
  · by_cases hi : s.current_status.is_island_mode = true <;> simp [h5, hi]

theorem to_string_warning : to_string (203 / 4) = "50.750000" := by
  norm_num [to_string, roundHalfEven, fractionDigits]
  decide

theorem warning_description :
    "电网频率异常: " ++ to_string (203 / 4) ++ "Hz" = "电网频率异常: 50.750000Hz" := by
  rw [to_string_warning]
  rfl

theorem find_warning_voltage :
    find_ne_npos "电网频率异常: 50.750000Hz" "电压异常" = false := by decide

theorem find_warning_frequency :
    find_ne_npos "电网频率异常: 50.750000Hz" "频率异常" = true := by decide

theorem run_warning_setup :
    run harnessState
        [.setControlParameters 50.0 50.0 1.0 1.5 0, .updateSystemStatus warningStatus] =
      (warningState, []) := by
  norm_num [run, step, harnessState, warningState, construct]

theorem reachable_warningState : Reachable warningState := by
  have h := reachable_step harnessState reachable_harnessState
    [.setControlParameters 50.0 50.0 1.0 1.5 0, .updateSystemStatus warningStatus] (by decide)
  rw [run_warning_setup] at h
  exact h

theorem loopIteration_warning :
    loopIteration warningState (clockAt 0) =
      ({ warningState with
          active_anomalies :=
            [("电网频率异常: 50.750000Hz", { warningRecord with is_handled := true })] },
        [Effect.mitigation "电网频率异常: 50.750000Hz",
          Effect.status "一般级异常: 电网频率异常: 50.750000Hz, 设备功率减半"]) := by
  norm_num [loopIteration, tick, checkAnomalies, detect, admitAll, handleAnomaly,
    clockAt, duration_cast_ms, periodsPerMs, harnessState, construct, warningRecord, mapAssign,
    mapSetHandled, resolutionPass, isAnomalyResolved, find_warning_voltage,
    find_warning_frequency, harnessStatus, warningStatus, warningState,
    determineAnomalyLevel, mapErase, callStatus, callControl, handleAnomalyRecovery,
    warning_description, mitigationActions]
  decide

theorem length_filter_rule (c : Prop) [Decidable c] (x : Nat × AnomalyInfo) (i : Nat) :
    ((if c then [x] else []).filter fun p => p.1 = i).length =
      if c ∧ x.1 = i then 1 else 0 := by
  by_cases hc : c <;> by_cases hx : x.1 = i <;> simp [hc, hx]

theorem length_rule (c : Prop) [Decidable c] (x : Nat × AnomalyInfo) :
    (if c then [x] else []).length = if c then 1 else 0 := by
  by_cases hc : c <;> simp [hc]

theorem detect_edgeFrequency :
    detect edgeFrequencyState 0 =
      [(5, { type := .GRID_FAULT, level := .CRITICAL, device_id := "Grid",
             description := "电网频率异常: 50.500000Hz", start_time := 0, end_time := 0,
             is_handled := false, needs_manual_confirmation := false })] := by
  norm_num [detect, edgeFrequencyState, harnessStatus, construct, determineAnomalyLevel,
    to_string_edge]
  rfl

theorem find_edge_voltage :
    find_ne_npos "电网频率异常: 50.500000Hz" "电压异常" = false := by decide

theorem find_edge_frequency :
    find_ne_npos "电网频率异常: 50.500000Hz" "频率异常" = true := by decide

theorem to_string_close_fst : to_string closeReadings.1 = "1.250000" := by
  have h : roundHalfEven ((5 / 4 : ℚ) * 1000000) = 1250000 :=
    roundHalfEven_of_lt _ 1250000 (by norm_num) (by norm_num)
  have hpos : ¬ ((5 / 4 : ℚ) < 0) := by norm_num
  simp only [to_string, closeReadings, hpos, if_false, h, fractionDigits]
  decide

theorem to_string_close_snd : to_string closeReadings.2 = "1.250000" := by
  have h : roundHalfEven ((5 / 4 + 1 / 16777216 : ℚ) * 1000000) = 1250000 :=
    roundHalfEven_of_lt _ 1250000 (by norm_num) (by norm_num)
  have hpos : ¬ ((5 / 4 + 1 / 16777216 : ℚ) < 0) := by norm_num
  simp only [to_string, closeReadings, hpos, if_false, h, fractionDigits]
  decide

theorem admitAll_isActive (d : String) (s : State) (cs : List (Int × AnomalyInfo)) :
    isActive d (admitAll s cs).1 = (isActive d s || cs.any fun c => d == c.2.description) := by
  induction cs generalizing s with
  | nil => simp [admitAll]
  | cons c rest ih =>
    obtain ⟨now, a⟩ := c
    show isActive d (admitAll (handleAnomaly s now a).1 rest).1 = _
    rw [ih, handleAnomaly_isActive]
    by_cases hd : d = a.description
    · simp [hd, Bool.or_assoc]
    · have hb : (d == a.description) = false := by simpa using hd
      simp [hd, hb, Bool.or_assoc]

theorem checkAnomalies_isActive_of_mem (s : State) (now : Int) (adm : Nat → Int)
    (p : Nat × AnomalyInfo) (hp : p ∈ detect s now) :
    isActive p.2.description (checkAnomalies s now adm).1 = true := by
  unfold checkAnomalies
  rw [admitAll_isActive]
  simp only [Bool.or_eq_true, List.any_eq_true, List.mem_map]
  exact Or.inr ⟨_, ⟨p, hp, rfl⟩, by simp⟩

theorem checkAnomalies_isActive_mono (d : String) (s : State) (now : Int) (adm : Nat → Int)
    (h : isActive d s = true) : isActive d (checkAnomalies s now adm).1 = true := by
  unfold checkAnomalies
  rw [admitAll_isActive, h]
  rfl

theorem concentration_mem_detect (s : State) (now : Int)
    (h : s.current_status.hydrogen_concentration ≥ s.max_hydrogen_concentration) :
    ∃ p ∈ detect s now,
      p.2.description = concentrationKey s.current_status.hydrogen_concentration := by
  refine ⟨?w, ?h1, ?h2⟩
  case h1 =>
    unfold detect
    simp only [List.mem_append]
    left; right
    rw [if_pos h]
    exact List.mem_singleton_self _
  case h2 => rfl

theorem concentrationKey_injective (r1 r2 : ℚ)
    (h : concentrationKey r1 = concentrationKey r2) : to_string r1 = to_string r2 := by
  unfold concentrationKey at h
  have := congrArg String.data h
  simp only [String.data_append, List.append_assoc] at this
  have h2 := List.append_cancel_left this
  have h3 := List.append_cancel_right h2
  exact String.ext h3

theorem run_close_readings :
    run harnessState
        [.updateSystemStatus { harnessStatus with hydrogen_concentration := closeReadings.1 },
          .loopIteration (clockAt 0),
          .updateSystemStatus { harnessStatus with hydrogen_concentration := closeReadings.2 },
          .loopIteration (clockAt 100)] =
      ({ harnessState with
          current_status := { harnessStatus with hydrogen_concentration := closeReadings.2 }
          active_anomalies :=
            [("氢浓度异常: 1.250000%",
              { type := .SAFETY_FAULT, level := .INFO, device_id := "Hydrogen_System",
                description := "氢浓度异常: 1.250000%", start_time := 0, end_time := 0,
                is_handled := false, needs_manual_confirmation := true })] }, []) := by
  have e1 : "氢浓度异常: " ++ to_string (5 / 4) ++ "%" = "氢浓度异常: 1.250000%" := by
    have := to_string_close_fst
    simp only [closeReadings] at this
    rw [this]
    rfl
  have e2 : "氢浓度异常: " ++ to_string (20971521 / 16777216) ++ "%" =
      "氢浓度异常: 1.250000%" := by
    have := to_string_close_snd
    have hq : closeReadings.2 = 20971521 / 16777216 := by norm_num [closeReadings]
    rw [hq] at this
    rw [this]
    rfl
  have f1 : find_ne_npos "氢浓度异常: 1.250000%" "氢浓度异常" = true := by decide
  norm_num [run, step, loopIteration, tick, checkAnomalies, detect, admitAll, handleAnomaly,
    clockAt, duration_cast_ms, periodsPerMs, harnessState, construct, mapAssign,
    resolutionPass, isAnomalyResolved, f1, harnessStatus, closeReadings,
    determineAnomalyLevel, mapErase, callStatus, handleAnomalyRecovery, e1, e2]

/-! ## Independence of the registered sinks -/

theorem filterSinks_append (st ct sf : Bool) (t u : List Effect) :
    filterSinks st ct sf (t ++ u) = filterSinks st ct sf t ++ filterSinks st ct sf u := by
  simp [filterSinks]

theorem filterSinks_nil (st ct sf : Bool) : filterSinks st ct sf [] = [] := rfl

theorem callStatus_withSinks (u : State) (hu : AllSinks u) (st ct sf : Bool) (msg : String) :
    callStatus (withSinks u st ct sf) msg = filterSinks st ct sf (callStatus u msg) := by
  unfold callStatus
  rw [hu.1]
  cases st <;> rfl

theorem callControl_withSinks (u : State) (hu : AllSinks u) (st ct sf : Bool) (device : String)
    (p : ℚ) :
    callControl (withSinks u st ct sf) device p = filterSinks st ct sf (callControl u device p) := by
  unfold callControl
  rw [hu.2.1]
  cases ct <;> rfl

theorem callSafety_withSinks (u : State) (hu : AllSinks u) (st ct sf : Bool) (action : String) :
    callSafety (withSinks u st ct sf) action = filterSinks st ct sf (callSafety u action) := by
  unfold callSafety
  rw [hu.2.2]
  cases sf <;> rfl

theorem rampLoop_withSinks (u : State) (hu : AllSinks u) (st ct sf : Bool) (device : String)
    (c : ℚ) :
    rampLoop (withSinks u st ct sf) device c = filterSinks st ct sf (rampLoop u device c) := by
  unfold rampLoop
  generalize rampFuel = fuel
  induction fuel generalizing c with
  | zero => rfl
  | succ f ih =>
    simp only [rampIterate]
    split_ifs with hc
    · rw [filterSinks_append, callControl_withSinks u hu, ih]
    · rfl

theorem handleAnomalyRecovery_withSinks (u : State) (hu : AllSinks u) (st ct sf : Bool)
    (a : AnomalyInfo) :
    handleAnomalyRecovery (withSinks u st ct sf) a =
      filterSinks st ct sf (handleAnomalyRecovery u a) := by
  unfold handleAnomalyRecovery
  split_ifs <;>
    simp only [filterSinks_append, filterSinks_nil, callStatus_withSinks u hu,
      callSafety_withSinks u hu, rampLoop_withSinks u hu]

theorem mitigationActions_withSinks (u : State) (hu : AllSinks u) (st ct sf : Bool)
    (a : AnomalyInfo) :
    mitigationActions (withSinks u st ct sf) a =
      filterSinks st ct sf (mitigationActions u a) := by
  have hcs : (withSinks u st ct sf).current_status = u.current_status := rfl
  unfold mitigationActions
  rw [hcs]
  split <;> (try split_ifs) <;>
    simp only [filterSinks_append, filterSinks_nil, callStatus_withSinks u hu,
      callSafety_withSinks u hu, callControl_withSinks u hu]

theorem filterSinks_flatten_map {α : Type} (st ct sf : Bool) (l : List α)
    (f : α → List Effect) :
    filterSinks st ct sf (l.map f).flatten =
      (l.map fun x => filterSinks st ct sf (f x)).flatten := by
  induction l with
  | nil => rfl
  | cons x l ih =>
    simp only [List.map_cons, List.flatten_cons, filterSinks_append, ih]

theorem handleAnomaly_withSinks (u : State) (hu : AllSinks u) (st ct sf : Bool) (now : Int)
    (a : AnomalyInfo) :
    handleAnomaly (withSinks u st ct sf) now a =
        (withSinks (handleAnomaly u now a).1 st ct sf,
          filterSinks st ct sf (handleAnomaly u now a).2) ∧
      AllSinks (handleAnomaly u now a).1 := by
  have hm := mitigationActions_withSinks
    { u with active_anomalies := mapAssign a.description a u.active_anomalies } hu st ct sf a
  rw [handleAnomaly_eq, handleAnomaly_eq]
  have h1 : (withSinks u st ct sf).active_anomalies = u.active_anomalies := rfl
  have h2 : (withSinks u st ct sf).anomaly_duration_threshold_ms =
      u.anomaly_duration_threshold_ms := rfl
  rw [h1, h2]
  split_ifs
  · exact ⟨rfl, hu⟩
  · refine ⟨Prod.ext rfl ?_, hu⟩
    show Effect.mitigation a.description :: mitigationActions (withSinks
      { u with active_anomalies := mapAssign a.description a u.active_anomalies } st ct sf) a = _
    rw [hm]
    rfl
  · exact ⟨rfl, hu⟩

theorem admitAll_withSinks (u : State) (hu : AllSinks u) (st ct sf : Bool)
    (cs : List (Int × AnomalyInfo)) :
    admitAll (withSinks u st ct sf) cs =
        (withSinks (admitAll u cs).1 st ct sf, filterSinks st ct sf (admitAll u cs).2) ∧
      AllSinks (admitAll u cs).1 := by
  induction cs generalizing u with
  | nil => exact ⟨rfl, hu⟩
  | cons c rest ih =>
    obtain ⟨now, a⟩ := c
    obtain ⟨h1, h2⟩ := handleAnomaly_withSinks u hu st ct sf now a
    obtain ⟨h3, h4⟩ := ih (handleAnomaly u now a).1 h2
    refine ⟨?_, h4⟩
    show ((admitAll (handleAnomaly (withSinks u st ct sf) now a).1 rest).1,
      (handleAnomaly (withSinks u st ct sf) now a).2 ++
        (admitAll (handleAnomaly (withSinks u st ct sf) now a).1 rest).2) = _
    rw [h1]
    show ((admitAll (withSinks (handleAnomaly u now a).1 st ct sf) rest).1,
      filterSinks st ct sf (handleAnomaly u now a).2 ++
        (admitAll (withSinks (handleAnomaly u now a).1 st ct sf) rest).2) = _
    rw [h3, ← filterSinks_append]
    rfl

theorem resolutionPass_withSinks (u : State) (hu : AllSinks u) (st ct sf : Bool)
    (close : String → Int) :
    resolutionPass (withSinks u st ct sf) close =
        (withSinks (resolutionPass u close).1 st ct sf,
          filterSinks st ct sf (resolutionPass u close).2) ∧
      AllSinks (resolutionPass u close).1 := by
  have hrec : ∀ (h : List AnomalyInfo) (id : String),
      (match h.find? (fun a => a.description == id) with
        | some a => handleAnomalyRecovery (withSinks u st ct sf) a
        | none => []) =
      filterSinks st ct sf
        (match h.find? (fun a => a.description == id) with
          | some a => handleAnomalyRecovery u a
          | none => []) := by
    intro h id
    split
    · exact handleAnomalyRecovery_withSinks u hu st ct sf _
    · rfl
  refine ⟨Prod.ext rfl ?_, hu⟩
  unfold resolutionPass
  simp only [filterSinks_append, filterSinks_flatten_map, callStatus_withSinks u hu]
  congr 1
  congr 1
  exact List.map_congr_left fun id _ => hrec _ id

theorem confirm_withSinks (u : State) (hu : AllSinks u) (st ct sf : Bool) (now : Int)
    (anomaly_id : String)
    (erased : AnomalyInfo) :
    confirmSafetyAnomalyRecovery (withSinks u st ct sf) now anomaly_id erased =
        (withSinks (confirmSafetyAnomalyRecovery u now anomaly_id erased).1 st ct sf,
          filterSinks st ct sf (confirmSafetyAnomalyRecovery u now anomaly_id erased).2) ∧
      AllSinks (confirmSafetyAnomalyRecovery u now anomaly_id erased).1 := by
  cases hf : u.active_anomalies.find?
      (fun p => p.2.description == anomaly_id && p.2.type == AnomalyType.SAFETY_FAULT) with
  | none =>
    rw [confirm_of_none u now anomaly_id erased hf, confirm_of_none (withSinks u st ct sf) now anomaly_id erased hf]
    exact ⟨rfl, hu⟩
  | some p =>
    obtain ⟨id, a⟩ := p
    rw [confirm_of_some u now anomaly_id id a erased hf,
      confirm_of_some (withSinks u st ct sf) now anomaly_id id a erased hf]
    refine ⟨Prod.ext rfl ?_, hu⟩
    simp only [filterSinks_append, callStatus_withSinks u hu,
      handleAnomalyRecovery_withSinks u hu]

theorem tick_withSinks (u : State) (hu : AllSinks u) (st ct sf : Bool) (clock : TickClock) :
    tick (withSinks u st ct sf) clock =
        (withSinks (tick u clock).1 st ct sf, filterSinks st ct sf (tick u clock).2) ∧
      AllSinks (tick u clock).1 := by
  obtain ⟨h1, h2⟩ := admitAll_withSinks u hu st ct sf
    ((detect u clock.now).map fun p => (clock.admitTime p.1, p.2))
  obtain ⟨h3, h4⟩ := resolutionPass_withSinks _ h2 st ct sf clock.close
  refine ⟨?_, h4⟩
  show ((resolutionPass (admitAll (withSinks u st ct sf)
      ((detect u clock.now).map fun p => (clock.admitTime p.1, p.2))).1 clock.close).1,
    (admitAll (withSinks u st ct sf)
      ((detect u clock.now).map fun p => (clock.admitTime p.1, p.2))).2 ++
    (resolutionPass (admitAll (withSinks u st ct sf)
      ((detect u clock.now).map fun p => (clock.admitTime p.1, p.2))).1 clock.close).2) = _
  rw [h1]
  show ((resolutionPass (withSinks (admitAll u
      ((detect u clock.now).map fun p => (clock.admitTime p.1, p.2))).1 st ct sf) clock.close).1,
    filterSinks st ct sf (admitAll u
      ((detect u clock.now).map fun p => (clock.admitTime p.1, p.2))).2 ++
    (resolutionPass (withSinks (admitAll u
      ((detect u clock.now).map fun p => (clock.admitTime p.1, p.2))).1 st ct sf)
      clock.close).2) = _
  rw [h3, ← filterSinks_append]
  rfl

theorem step_withSinks (u : State) (hu : AllSinks u) (st ct sf : Bool) (op : Op)
    (hop : op.setsCallback = false) :
    step (withSinks u st ct sf) op =
        (withSinks (step u op).1 st ct sf, filterSinks st ct sf (step u op).2) ∧
      AllSinks (step u op).1 := by
  cases op with
  | loopIteration clock =>
    show loopIteration (withSinks u st ct sf) clock =
        (withSinks (loopIteration u clock).1 st ct sf,
          filterSinks st ct sf (loopIteration u clock).2) ∧
      AllSinks (loopIteration u clock).1
    unfold loopIteration
    have h1 : (withSinks u st ct sf).running = u.running := rfl
    have h2 : (withSinks u st ct sf).enabled = u.enabled := rfl
    rw [h1, h2]
    split_ifs
    · exact ⟨rfl, hu⟩
    · exact tick_withSinks u hu st ct sf clock
    · exact ⟨rfl, hu⟩
  | confirmSafetyAnomalyRecovery now id erased => exact confirm_withSinks u hu st ct sf now id erased
  | handleAnomaly now a => exact handleAnomaly_withSinks u hu st ct sf now a
  | setStatusCallback b => simp [Op.setsCallback] at hop
  | setControlCallback b => simp [Op.setsCallback] at hop
  | setSafetyCallback b => simp [Op.setsCallback] at hop
  | _ => exact ⟨rfl, hu⟩

theorem run_withSinks (u : State) (hu : AllSinks u) (st ct sf : Bool) (ops : List Op)
    (hops : ∀ op ∈ ops, op.setsCallback = false) :
    run (withSinks u st ct sf) ops =
      (withSinks (run u ops).1 st ct sf, filterSinks st ct sf (run u ops).2) := by
  induction ops generalizing u with
  | nil => rfl
  | cons op rest ih =>
    obtain ⟨h1, h2⟩ := step_withSinks u hu st ct sf op (hops op (List.mem_cons_self _ _))
    have h3 := ih (step u op).1 h2 (fun o ho => hops o (List.mem_cons_of_mem _ ho))
    show ((run (step (withSinks u st ct sf) op).1 rest).1,
      (step (withSinks u st ct sf) op).2 ++ (run (step (withSinks u st ct sf) op).1 rest).2) = _
    rw [h1]
    show ((run (withSinks (step u op).1 st ct sf) rest).1,
      filterSinks st ct sf (step u op).2 ++ (run (withSinks (step u op).1 st ct sf) rest).2) = _
    rw [h3, ← filterSinks_append]
    rfl

/-! ## Resolution under a nominal snapshot -/

theorem occursIn_append (pat l r : List Char) (h : occursIn pat l = true) :
    occursIn pat (l ++ r) = true := by
  induction l with
  | nil =>
    have hp : pat = [] := by simpa [occursIn] using h
    subst hp
    cases r <;> simp [occursIn]
  | cons c cs ih =>
    simp only [occursIn, Bool.or_eq_true] at h
    show occursIn pat (c :: (cs ++ r)) = true
    simp only [occursIn, Bool.or_eq_true]
    rcases h with h | h
    · left
      rw [List.isPrefixOf_iff_prefix] at h ⊢
      exact h.trans (List.prefix_append (c :: cs) r)
    · right
      exact ih h

theorem find_append (p x pat : String) (h : find_ne_npos p pat = true) :
    find_ne_npos (p ++ x) pat = true := by
  unfold find_ne_npos at h ⊢
  rw [String.data_append]
  exact occursIn_append _ _ _ h

theorem detect_nominal (s : State) (now : Int) (h : NominalSnapshot s) : detect s now = [] := by
  obtain ⟨h1, h2, h3, h4, ⟨h5, h6⟩, ⟨h7, h8⟩, h9, h10⟩ := h
  have e1 : ¬ (s.current_status.grid_voltage ≥ 1.1 * s.normal_voltage ∨
      s.current_status.grid_voltage ≤ 0.9 * s.normal_voltage) := by
    rintro (h | h) <;> linarith
  have e2 : ¬ (s.current_status.grid_frequency ≥ 50.5 ∨
      s.current_status.grid_frequency ≤ 49.5) := by
    rintro (h | h) <;> linarith
  have e3 : ¬ s.current_status.hydrogen_concentration ≥ s.max_hydrogen_concentration :=
    not_le.mpr h9
  have e4 : ¬ s.current_status.hydrogen_tank_pressure ≥ s.max_hydrogen_pressure :=
    not_le.mpr h10
  unfold detect
  simp only [h1, h2, h3, h4, if_neg e1, if_neg e2, if_neg e3, if_neg e4]
  rfl

theorem tick_nominal (s : State) (clock : TickClock) (h : NominalSnapshot s) :
    tick s clock = resolutionPass s clock.close := by
  unfold tick checkAnomalies
  rw [detect_nominal s clock.now h]
  simp [admitAll]

theorem detectorProduced_shape (a : AnomalyInfo) (h : DetectorProduced a) :
    (a.type = AnomalyType.DEVICE_FAULT ∧
      (a.device_id = "PV_Inverter" ∨ a.device_id = "Wind_Controller" ∨ a.device_id = "ESS_PCS" ∨
        a.device_id = "Electrolyzer")) ∨
    (a.type = AnomalyType.GRID_FAULT ∧
      ((∃ x, a.description = "电网电压异常: " ++ x) ∨ ∃ x, a.description = "电网频率异常: " ++ x)) ∨
    (a.type = AnomalyType.SAFETY_FAULT ∧ a.needs_manual_confirmation = true) := by
  obtain ⟨s0, now, i, hm⟩ := h
  unfold detect at hm
  simp only [List.mem_append] at hm
  rcases hm with ((((((hm | hm) | hm) | hm) | hm) | hm) | hm) | hm <;> split_ifs at hm <;>
    simp only [List.mem_singleton, List.not_mem_nil, Prod.mk.injEq, AnomalyInfo.mk.injEq] at hm
  · exact Or.inl ⟨hm.2.1, Or.inl hm.2.2.2.1⟩
  · exact Or.inl ⟨hm.2.1, Or.inr (Or.inl hm.2.2.2.1)⟩
  · exact Or.inl ⟨hm.2.1, Or.inr (Or.inr (Or.inl hm.2.2.2.1))⟩
  · exact Or.inl ⟨hm.2.1, Or.inr (Or.inr (Or.inr hm.2.2.2.1))⟩
  · exact Or.inr (Or.inl ⟨hm.2.1, Or.inl ⟨_, by rw [hm.2.2.2.2.1, String.append_assoc]⟩⟩)
  · exact Or.inr (Or.inl ⟨hm.2.1, Or.inr ⟨_, by rw [hm.2.2.2.2.1, String.append_assoc]⟩⟩)
  · exact Or.inr (Or.inr ⟨hm.2.1, hm.2.2.2.2.2.2.2.2⟩)
  · exact Or.inr (Or.inr ⟨hm.2.1, hm.2.2.2.2.2.2.2.2⟩)

theorem isAnomalyResolved_of_nominal (s : State) (h : NominalSnapshot s) (a : AnomalyInfo)
    (hd : DetectorProduced a)
    (hn : ¬ (a.type = AnomalyType.SAFETY_FAULT ∧ a.needs_manual_confirmation = true)) :
    isAnomalyResolved s a = true := by
  obtain ⟨h1, h2, h3, h4, ⟨h5, h6⟩, ⟨h7, h8⟩, -, -⟩ := h
  have ev : decide (s.current_status.grid_voltage ≥ 0.9 * s.normal_voltage ∧
      s.current_status.grid_voltage ≤ 1.1 * s.normal_voltage) = true :=
    decide_eq_true ⟨le_of_lt h5, le_of_lt h6⟩
  have ef : decide (s.current_status.grid_frequency ≥ 49.5 ∧
      s.current_status.grid_frequency ≤ 50.5) = true :=
    decide_eq_true ⟨le_of_lt h7, le_of_lt h8⟩
  unfold isAnomalyResolved
  rcases detectorProduced_shape a hd with ⟨ht, hdev⟩ | ⟨ht, hdesc⟩ | hsafe
  · rw [ht]
    rcases hdev with e | e | e | e <;> rw [e] <;> simp [h1, h2, h3, h4]
  · rw [ht]
    rcases hdesc with ⟨x, e⟩ | ⟨x, e⟩
    · have hv : find_ne_npos a.description "电压异常" = true := by
        rw [e]
        exact find_append _ _ _ (by decide)
      simp only [hv, if_true, ev]
    · have hfq : find_ne_npos a.description "频率异常" = true := by
        rw [e]
        exact find_append _ _ _ (by decide)
      simp only [hfq, if_true, ev, ef]
      split_ifs <;> rfl
  · exact absurd hsafe hn

theorem resolutionPass_closes (s : State) (close : String → Int) (k : String) (a : AnomalyInfo)
    (ha : (k, a) ∈ s.active_anomalies) (hr : isAnomalyResolved s a = true) :
    isActive k (resolutionPass s close).1 = false ∧
      (resolutionPass s close).1.anomaly_history =
        s.anomaly_history ++ (s.active_anomalies.filter fun p => isAnomalyResolved s p.2).map
          (fun p => { p.2 with end_time := close p.1 }) ∧
      { a with end_time := close k } ∈
        (s.active_anomalies.filter fun p => isAnomalyResolved s p.2).map
          (fun p => { p.2 with end_time := close p.1 }) := by
  have hk : (k, a) ∈ s.active_anomalies.filter fun p => isAnomalyResolved s p.2 :=
    List.mem_filter.mpr ⟨ha, hr⟩
  refine ⟨?_, resolutionPass_history s close, List.mem_map.mpr ⟨(k, a), hk, rfl⟩⟩
  cases hact : isActive k (resolutionPass s close).1 with
  | false => rfl
  | true =>
    exfalso
    unfold isActive at hact
    rw [lookup_isSome_iff, resolutionPass_active] at hact
    obtain ⟨p, hp, hpk⟩ := hact
    have hp2 := (List.mem_filter.mp hp).2
    rw [hpk] at hp2
    have hc : ((s.active_anomalies.filter fun p => isAnomalyResolved s p.2).map
        fun p => p.1).contains k = true := by
      rw [List.contains_eq_any_beq, List.any_eq_true]
      exact ⟨k, List.mem_map.mpr ⟨(k, a), hk, rfl⟩, by simp⟩
    rw [hc] at hp2
    exact absurd hp2 (by decide)

theorem detect_is_handled (s : State) (now : Int) (p : Nat × AnomalyInfo)
    (hp : p ∈ detect s now) : p.2.is_handled = false := by
  unfold detect at hp
  simp only [List.mem_append] at hp
  rcases hp with ((((((hp | hp) | hp) | hp) | hp) | hp) | hp) | hp <;> split_ifs at hp
  all_goals first
    | (simp at hp; done)
    | (simp at hp; subst hp; rfl)

theorem detectorProduced_of_mem (s : State) (now : Int) (p : Nat × AnomalyInfo)
    (hp : p ∈ detect s now) : DetectorProduced p.2 := by
  refine ⟨s, now, p.1, ?_⟩
  have h := detect_is_handled s now p hp
  obtain ⟨i, a⟩ := p
  cases a
  simp only at h
  subst h
  exact hp

theorem handleAnomaly_detectorProduced (s : State) (now : Int) (a : AnomalyInfo)
    (ha : DetectorProduced a) (h : ∀ p ∈ s.active_anomalies, DetectorProduced p.2) :
    ∀ p ∈ (handleAnomaly s now a).1.active_anomalies, DetectorProduced p.2 := by
  have h1 : ∀ p ∈ mapAssign a.description a s.active_anomalies, DetectorProduced p.2 := by
    intro p hp
    rcases mem_mapAssign hp with hp | hp
    · subst hp
      exact ha
    · exact h p hp
  rw [handleAnomaly_eq]
  split_ifs
  · exact h
  · intro p hp
    unfold mapSetHandled at hp
    obtain ⟨q, hq, rfl⟩ := List.mem_map.mp hp
    have h2 := h1 q hq
    by_cases e : q.1 = a.description
    · rw [if_pos e]
      exact h2
    · rw [if_neg e]
      exact h2
  · exact h1

theorem admitAll_detectorProduced (s : State) (cs : List (Int × AnomalyInfo))
    (hc : ∀ c ∈ cs, DetectorProduced c.2)
    (h : ∀ p ∈ s.active_anomalies, DetectorProduced p.2) :
    ∀ p ∈ (admitAll s cs).1.active_anomalies, DetectorProduced p.2 := by
  induction cs generalizing s with
  | nil => exact h
  | cons c rest ih =>
    obtain ⟨now, a⟩ := c
    exact ih _ (fun c hc1 => hc c (List.mem_cons_of_mem _ hc1))
      (handleAnomaly_detectorProduced s now a (hc (now, a) (List.mem_cons_self _ _)) h)

theorem resolutionPass_detectorProduced (s : State) (close : String → Int)
    (h : ∀ p ∈ s.active_anomalies, DetectorProduced p.2) :
    ∀ p ∈ (resolutionPass s close).1.active_anomalies, DetectorProduced p.2 := by
  rw [resolutionPass_active]
  intro p hp
  obtain ⟨hp1, hp2⟩ := List.mem_filter.mp hp
  obtain ⟨q, hq, rfl⟩ := List.mem_map.mp hp1
  by_cases hr : isAnomalyResolved s q.2 = true
  · exfalso
    rw [if_pos hr] at hp2
    have hc : ((s.active_anomalies.filter fun p => isAnomalyResolved s p.2).map
        fun p => p.1).contains q.1 = true := by
      rw [List.contains_eq_any_beq, List.any_eq_true]
      exact ⟨q.1, List.mem_map.mpr ⟨q, List.mem_filter.mpr ⟨hq, hr⟩, rfl⟩, by simp⟩
    simp only at hp2
    rw [hc] at hp2
    exact absurd hp2 (by decide)
  · rw [if_neg hr]
    exact h q hq

theorem confirm_detectorProduced (s : State) (now : Int) (anomaly_id : String)
    (erased : AnomalyInfo)
    (h : ∀ p ∈ s.active_anomalies, DetectorProduced p.2) :
    ∀ p ∈ (confirmSafetyAnomalyRecovery s now anomaly_id erased).1.active_anomalies,
      DetectorProduced p.2 := by
  cases hf : s.active_anomalies.find?
      (fun p => p.2.description == anomaly_id && p.2.type == AnomalyType.SAFETY_FAULT) with
  | none => rw [confirm_of_none s now anomaly_id erased hf]; exact h
  | some p =>
    obtain ⟨id, a⟩ := p
    rw [confirm_of_some s now anomaly_id id a erased hf]
    exact fun p hp => h p (List.mem_of_mem_filter hp)

theorem step_detectorProduced (s : State) (op : Op) (hop : op.isPublic = true)
    (h : ∀ p ∈ s.active_anomalies, DetectorProduced p.2) :
    ∀ p ∈ (step s op).1.active_anomalies, DetectorProduced p.2 := by
  cases op with
  | loopIteration clock =>
    show ∀ p ∈ (loopIteration s clock).1.active_anomalies, DetectorProduced p.2
    unfold loopIteration
    split_ifs
    · exact h
    · refine resolutionPass_detectorProduced _ _ (admitAll_detectorProduced _ _ ?_ h)
      intro c hc
      obtain ⟨p, hp, rfl⟩ := List.mem_map.mp hc
      exact detectorProduced_of_mem s clock.now p hp
    · exact h
  | confirmSafetyAnomalyRecovery now id erased => exact confirm_detectorProduced s now id erased h
  | handleAnomaly now a => simp [Op.isPublic] at hop
  | _ => exact h

theorem run_detectorProduced (s : State) (ops : List Op)
    (hops : ∀ op ∈ ops, op.isPublic = true)
    (h : ∀ p ∈ s.active_anomalies, DetectorProduced p.2) :
    ∀ p ∈ (run s ops).1.active_anomalies, DetectorProduced p.2 := by
  induction ops generalizing s with
  | nil => exact h
  | cons op rest ih =>
    exact ih _ (fun o ho => hops o (List.mem_cons_of_mem _ ho))
      (step_detectorProduced s op (hops op (List.mem_cons_self _ _)) h)

theorem reachable_detectorProduced (s : State) (h : Reachable s) :
    ∀ p ∈ s.active_anomalies, DetectorProduced p.2 := by
  obtain ⟨status0, ops, hops, rfl⟩ := h
  exact run_detectorProduced _ ops hops (fun p hp => by simp [construct] at hp)

theorem nominal_pvCleared : NominalSnapshot pvClearedState := by
  norm_num [NominalSnapshot, pvClearedState, harnessState, harnessStatus, construct]

theorem reachable_pvCleared : Reachable pvClearedState :=
  reachable_of_step pvHarnessState reachable_pvHarnessState (.updateSystemStatus harnessStatus) rfl

/-! ## The harness: recovery inside the loop, and the confirmation keys -/

theorem tick_pvCleared :
    tick pvClearedState (clockAt 7) =
      ({ harnessState with anomaly_history := [{ pvRecord with end_time := 7 }] },
        [Effect.status "异常已解除: 光伏逆变器故障",
          Effect.status "开始恢复系统出力: 光伏逆变器故障"] ++
        rampLoop pvClearedState "PV" 0.0 ++
        [Effect.status "系统出力恢复完成: 光伏逆变器故障"]) := by
  rw [tick_nominal _ _ nominal_pvCleared]
  norm_num [resolutionPass, isAnomalyResolved, pvClearedState, pvRecord, harnessState, construct,
    harnessStatus, clockAt, mapErase, callStatus, handleAnomalyRecovery]
  decide

theorem controlCalls_cons_status (msg : String) (t : List Effect) :
    controlCalls (Effect.status msg :: t) = controlCalls t := rfl

theorem controlCalls_nil : controlCalls [] = [] := rfl

theorem run_admits_pressure :
    run harnessState [.updateSystemStatus pressureStatus, .loopIteration (clockAt 0)] =
      (pressureActiveState, []) := by
  norm_num [run, step, loopIteration, tick, checkAnomalies, detect, admitAll, handleAnomaly,
    clockAt, duration_cast_ms, periodsPerMs, harnessState, construct, pressureRecord, mapAssign,
    resolutionPass, isAnomalyResolved, harnessStatus, pressureStatus, to_string_two,
    determineAnomalyLevel, mapErase, callStatus, handleAnomalyRecovery, pressureActiveState]
  decide

theorem reachable_pressureActive : Reachable pressureActiveState := by
  have h := reachable_step harnessState reachable_harnessState
    [.updateSystemStatus pressureStatus, .loopIteration (clockAt 0)] (by decide)
  rw [run_admits_pressure] at h
  exact h

/-! ## The handled flag -/

theorem duration_cast_ms_nonpos (d : Int) (h : d < periodsPerMs) : duration_cast_ms d ≤ 0 := by
  unfold duration_cast_ms periodsPerMs at *
  rcases le_or_lt 0 d with h0 | h0
  · rw [Int.tdiv_eq_zero_of_lt h0 h]
  · have h1 : 0 ≤ (-d).tdiv 1000000 := Int.tdiv_nonneg (by omega) (by norm_num)
    rw [Int.neg_tdiv] at h1
    omega

theorem lookup_mapSetHandled (k k1 : String) (m : List (String × AnomalyInfo)) :
    (mapSetHandled k m).lookup k1 =
      (m.lookup k1).map fun a => if k1 = k then { a with is_handled := true } else a := by
  unfold mapSetHandled
  induction m with
  | nil => rfl
  | cons hd tl ih =>
    obtain ⟨k0, v0⟩ := hd
    by_cases h1 : k1 = k0
    · subst h1
      by_cases h2 : k1 = k
      · simp [List.lookup_cons, h2]
      · simp [List.lookup_cons, h2]
    · have hb : (k1 == k0) = false := by simpa using h1
      by_cases h2 : k0 = k
      · simp only [List.map_cons, if_pos h2, List.lookup_cons, hb]
        exact ih
      · simp only [List.map_cons, if_neg h2, List.lookup_cons, hb]
        exact ih

theorem handleAnomaly_lookup_self (s : State) (now : Int) (a : AnomalyInfo)
    (h : isActive a.description s = false) :
    (handleAnomaly s now a).1.active_anomalies.lookup a.description =
      some (if s.anomaly_duration_threshold_ms ≤ duration_cast_ms (now - a.start_time) then
        { a with is_handled := true } else a) := by
  have h0 : ¬ (s.active_anomalies.lookup a.description).isSome = true := by
    unfold isActive at h
    simp [h]
  rw [handleAnomaly_eq, if_neg h0]
  split_ifs
  · show (mapSetHandled a.description (mapAssign a.description a s.active_anomalies)).lookup
      a.description = _
    rw [lookup_mapSetHandled, lookup_mapAssign_self]
    simp
  · exact lookup_mapAssign_self _ _ _

theorem handleAnomaly_lookup_ne (s : State) (now : Int) (a : AnomalyInfo) (k : String)
    (hk : k ≠ a.description) :
    (handleAnomaly s now a).1.active_anomalies.lookup k = s.active_anomalies.lookup k := by
  rw [handleAnomaly_eq]
  split_ifs
  · rfl
  · show (mapSetHandled a.description (mapAssign a.description a s.active_anomalies)).lookup k = _
    rw [lookup_mapSetHandled, lookup_mapAssign_ne _ _ _ _ hk]
    cases s.active_anomalies.lookup k <;> simp [hk]
  · exact lookup_mapAssign_ne _ _ _ _ hk

theorem handleAnomaly_mitigation_iff (s : State) (now : Int) (a : AnomalyInfo)
    (h : isActive a.description s = false) :
    Effect.mitigation a.description ∈ (handleAnomaly s now a).2 ↔
      s.anomaly_duration_threshold_ms ≤ duration_cast_ms (now - a.start_time) := by
  have h0 : ¬ (s.active_anomalies.lookup a.description).isSome = true := by
    unfold isActive at h
    simp [h]
  rw [handleAnomaly_eq, if_neg h0]
  split_ifs with h1
  · simp [h1]
  · simp [h1]

theorem resolutionPass_mem (s : State) (close : String → Int) :
    ∀ p ∈ (resolutionPass s close).1.active_anomalies, p ∈ s.active_anomalies := by
  rw [resolutionPass_active]
  intro p hp
  obtain ⟨hp1, hp2⟩ := List.mem_filter.mp hp
  obtain ⟨q, hq, rfl⟩ := List.mem_map.mp hp1
  by_cases hr : isAnomalyResolved s q.2 = true
  · exfalso
    rw [if_pos hr] at hp2
    have hc : ((s.active_anomalies.filter fun p => isAnomalyResolved s p.2).map
        fun p => p.1).contains q.1 = true := by
      rw [List.contains_eq_any_beq, List.any_eq_true]
      exact ⟨q.1, List.mem_map.mpr ⟨q, List.mem_filter.mpr ⟨hq, hr⟩, rfl⟩, by simp⟩
    simp only at hp2
    rw [hc] at hp2
    exact absurd hp2 (by decide)
  · rw [if_neg hr]
    exact hq

theorem confirm_mem (s : State) (now : Int) (anomaly_id : String)
    (erased : AnomalyInfo) :
    ∀ p ∈ (confirmSafetyAnomalyRecovery s now anomaly_id erased).1.active_anomalies,
      p ∈ s.active_anomalies := by
  cases hf : s.active_anomalies.find?
      (fun p => p.2.description == anomaly_id && p.2.type == AnomalyType.SAFETY_FAULT) with
  | none => rw [confirm_of_none s now anomaly_id erased hf]; exact fun p hp => hp
  | some p =>
    obtain ⟨id, a⟩ := p
    rw [confirm_of_some s now anomaly_id id a erased hf]
    exact fun p hp => List.mem_of_mem_filter hp

theorem resolutionPass_ne (s : State) (close : String → Int) :
    ∀ e ∈ (resolutionPass s close).2, ∀ x, e ≠ Effect.mitigation x := by
  intro e he x hx
  subst hx
  have h := resolutionPass_dispatchCount x s close
  unfold dispatchCount at h
  exact (List.count_eq_zero.mp h) he

theorem confirm_ne (s : State) (now : Int) (anomaly_id : String)
    (erased : AnomalyInfo) :
    ∀ e ∈ (confirmSafetyAnomalyRecovery s now anomaly_id erased).2, ∀ x, e ≠ Effect.mitigation x := by
  cases hf : s.active_anomalies.find?
      (fun p => p.2.description == anomaly_id && p.2.type == AnomalyType.SAFETY_FAULT) with
  | none => rw [confirm_of_none s now anomaly_id erased hf]; exact nil_ne
  | some p =>
    obtain ⟨id, a⟩ := p
    rw [confirm_of_some s now anomaly_id id a erased hf]
    exact append_ne (callStatus_ne _ _) (handleAnomalyRecovery_ne _ _)

theorem handleAnomaly_unhandled (s : State) (now : Int) (a : AnomalyInfo)
    (hthr : 0 < s.anomaly_duration_threshold_ms) (hage : now - a.start_time < periodsPerMs)
    (ha : a.is_handled = false) (h : ∀ p ∈ s.active_anomalies, p.2.is_handled = false) :
    (handleAnomaly s now a).2 = [] ∧
      (handleAnomaly s now a).1.anomaly_duration_threshold_ms = s.anomaly_duration_threshold_ms ∧
      ∀ p ∈ (handleAnomaly s now a).1.active_anomalies, p.2.is_handled = false := by
  have hd : ¬ s.anomaly_duration_threshold_ms ≤ duration_cast_ms (now - a.start_time) := by
    have := duration_cast_ms_nonpos _ hage
    omega
  rw [handleAnomaly_eq]
  split_ifs
  · exact ⟨rfl, rfl, h⟩
  · refine ⟨rfl, rfl, ?_⟩
    intro p hp
    rcases mem_mapAssign hp with hp | hp
    · subst hp
      exact ha
    · exact h p hp

theorem admitAll_unhandled (s : State) (cs : List (Int × AnomalyInfo))
    (hthr : 0 < s.anomaly_duration_threshold_ms)
    (hc : ∀ c ∈ cs, c.1 - c.2.start_time < periodsPerMs ∧ c.2.is_handled = false)
    (h : ∀ p ∈ s.active_anomalies, p.2.is_handled = false) :
    (admitAll s cs).2 = [] ∧
      (admitAll s cs).1.anomaly_duration_threshold_ms = s.anomaly_duration_threshold_ms ∧
      ∀ p ∈ (admitAll s cs).1.active_anomalies, p.2.is_handled = false := by
  induction cs generalizing s with
  | nil => exact ⟨rfl, rfl, h⟩
  | cons c rest ih =>
    obtain ⟨now, a⟩ := c
    obtain ⟨h1, h2, h3⟩ := handleAnomaly_unhandled s now a hthr
      (hc (now, a) (List.mem_cons_self _ _)).1 (hc (now, a) (List.mem_cons_self _ _)).2 h
    obtain ⟨h4, h5, h6⟩ := ih (handleAnomaly s now a).1 (by rw [h2]; exact hthr)
      (fun c hc1 => hc c (List.mem_cons_of_mem _ hc1)) h3
    refine ⟨?_, h5.trans h2, h6⟩
    show (handleAnomaly s now a).2 ++ (admitAll (handleAnomaly s now a).1 rest).2 = []
    rw [h1, h4]
    rfl

theorem detect_start_time (s : State) (now : Int) (p : Nat × AnomalyInfo)
    (hp : p ∈ detect s now) : p.2.start_time = now := by
  unfold detect at hp
  simp only [List.mem_append] at hp
  rcases hp with ((((((hp | hp) | hp) | hp) | hp) | hp) | hp) | hp <;> split_ifs at hp
  all_goals first
    | (simp at hp; done)
    | (simp at hp; subst hp; rfl)

theorem tick_unhandled (s : State) (clock : TickClock)
    (hthr : 0 < s.anomaly_duration_threshold_ms)
    (hclock : ∀ i : Nat, clock.admitTime i - clock.now < periodsPerMs)
    (h : ∀ p ∈ s.active_anomalies, p.2.is_handled = false) :
    (∀ e ∈ (tick s clock).2, ∀ x, e ≠ Effect.mitigation x) ∧
      (tick s clock).1.anomaly_duration_threshold_ms = s.anomaly_duration_threshold_ms ∧
      ∀ p ∈ (tick s clock).1.active_anomalies, p.2.is_handled = false := by
  obtain ⟨h1, h2, h3⟩ := admitAll_unhandled s
    ((detect s clock.now).map fun p => (clock.admitTime p.1, p.2)) hthr
    (by
      intro c hc
      obtain ⟨p, hp, rfl⟩ := List.mem_map.mp hc
      refine ⟨?_, detect_is_handled s clock.now p hp⟩
      show clock.admitTime p.1 - p.2.start_time < periodsPerMs
      rw [detect_start_time s clock.now p hp]
      exact hclock p.1) h
  refine ⟨?_, ?_, ?_⟩
  · show ∀ e ∈ (checkAnomalies s clock.now clock.admitTime).2 ++
      (resolutionPass (checkAnomalies s clock.now clock.admitTime).1 clock.close).2,
      ∀ x, e ≠ Effect.mitigation x
    refine append_ne ?_ (resolutionPass_ne _ _)
    show ∀ e ∈ (admitAll s ((detect s clock.now).map fun p => (clock.admitTime p.1, p.2))).2,
      ∀ x, e ≠ Effect.mitigation x
    rw [h1]
    exact nil_ne
  · exact h2
  · intro p hp
    have hp1 : p ∈ (resolutionPass (admitAll s
        ((detect s clock.now).map fun p => (clock.admitTime p.1, p.2))).1
        clock.close).1.active_anomalies := hp
    exact h3 p (resolutionPass_mem _ _ p hp1)

theorem step_unhandled (s : State) (op : Op) (hpub : op.isPublic = true)
    (hpos : op.positiveThreshold) (hst : op.stampsAdmission)
    (hthr : 0 < s.anomaly_duration_threshold_ms)
    (h : ∀ p ∈ s.active_anomalies, p.2.is_handled = false) :
    (∀ e ∈ (step s op).2, ∀ x, e ≠ Effect.mitigation x) ∧
      0 < (step s op).1.anomaly_duration_threshold_ms ∧
      ∀ p ∈ (step s op).1.active_anomalies, p.2.is_handled = false := by
  cases op with
  | loopIteration clock =>
    show (∀ e ∈ (loopIteration s clock).2, ∀ x, e ≠ Effect.mitigation x) ∧
      0 < (loopIteration s clock).1.anomaly_duration_threshold_ms ∧
      ∀ p ∈ (loopIteration s clock).1.active_anomalies, p.2.is_handled = false
    unfold loopIteration
    split_ifs
    · exact ⟨nil_ne, hthr, h⟩
    · obtain ⟨h1, h2, h3⟩ := tick_unhandled s clock hthr hst h
      exact ⟨h1, by rw [h2]; exact hthr, h3⟩
    · exact ⟨nil_ne, hthr, h⟩
  | confirmSafetyAnomalyRecovery now id erased =>
    refine ⟨confirm_ne s now id erased, ?_,
      fun p hp => h p (confirm_mem s now id erased p hp)⟩
    show 0 < (confirmSafetyAnomalyRecovery s now id erased).1.anomaly_duration_threshold_ms
    cases hf : s.active_anomalies.find?
        (fun p => p.2.description == id && p.2.type == AnomalyType.SAFETY_FAULT) with
    | none => rw [confirm_of_none s now id erased hf]; exact hthr
    | some p =>
      obtain ⟨k, a⟩ := p
      rw [confirm_of_some s now id k a erased hf]
      exact hthr
  | handleAnomaly now a => simp [Op.isPublic] at hpub
  | setControlParameters nv nf mc mp thr =>
    have hp : 0 < thr := hpos
    exact ⟨nil_ne, hp, h⟩
  | initialise => exact ⟨nil_ne, hthr, h⟩
  | updateSystemStatus status => exact ⟨nil_ne, hthr, h⟩
  | enableMonitoring enabled => exact ⟨nil_ne, hthr, h⟩
  | setStatusCallback registered => exact ⟨nil_ne, hthr, h⟩
  | setControlCallback registered => exact ⟨nil_ne, hthr, h⟩
  | setSafetyCallback registered => exact ⟨nil_ne, hthr, h⟩

theorem run_unhandled (s : State) (ops : List Op) (hpub : ∀ op ∈ ops, op.isPublic = true)
    (hpos : ∀ op ∈ ops, op.positiveThreshold) (hst : ∀ op ∈ ops, op.stampsAdmission)
    (hthr : 0 < s.anomaly_duration_threshold_ms)
    (h : ∀ p ∈ s.active_anomalies, p.2.is_handled = false) :
    (∀ e ∈ (run s ops).2, ∀ x, e ≠ Effect.mitigation x) ∧
      ∀ p ∈ (run s ops).1.active_anomalies, p.2.is_handled = false := by
  induction ops generalizing s with
  | nil => exact ⟨nil_ne, h⟩
  | cons op rest ih =>
    obtain ⟨h1, h2, h3⟩ := step_unhandled s op (hpub op (List.mem_cons_self _ _))
      (hpos op (List.mem_cons_self _ _)) (hst op (List.mem_cons_self _ _)) hthr h
    obtain ⟨h4, h5⟩ := ih (step s op).1 (fun o ho => hpub o (List.mem_cons_of_mem _ ho))
      (fun o ho => hpos o (List.mem_cons_of_mem _ ho))
      (fun o ho => hst o (List.mem_cons_of_mem _ ho)) h2 h3
    exact ⟨append_ne h1 h4, h5⟩

/-! ## Confirmation and the snapshot -/

theorem rampLoop_status (s : State) (status : SystemStatus) (device : String) (c : ℚ) :
    rampLoop { s with current_status := status } device c = rampLoop s device c := by
  unfold rampLoop
  generalize rampFuel = fuel
  induction fuel generalizing c with
  | zero => rfl
  | succ f ih =>
    simp only [rampIterate]
    split_ifs with hc
    · rw [ih]
      rfl
    · rfl

theorem callStatus_status (s : State) (status : SystemStatus) (msg : String) :
    callStatus { s with current_status := status } msg = callStatus s msg := rfl

theorem callSafety_status (s : State) (status : SystemStatus) (action : String) :
    callSafety { s with current_status := status } action = callSafety s action := rfl

theorem handleAnomalyRecovery_status (s : State) (status : SystemStatus) (a : AnomalyInfo) :
    handleAnomalyRecovery { s with current_status := status } a = handleAnomalyRecovery s a := by
  unfold handleAnomalyRecovery
  simp only [callStatus_status, callSafety_status, rampLoop_status]

theorem confirm_status (s : State) (status : SystemStatus) (now : Int) (anomaly_id : String)
    (erased : AnomalyInfo) :
    confirmSafetyAnomalyRecovery { s with current_status := status } now anomaly_id erased =
      ({ (confirmSafetyAnomalyRecovery s now anomaly_id erased).1 with current_status := status },
        (confirmSafetyAnomalyRecovery s now anomaly_id erased).2) := by
  cases hf : s.active_anomalies.find?
      (fun p => p.2.description == anomaly_id && p.2.type == AnomalyType.SAFETY_FAULT) with
  | none =>
    rw [confirm_of_none s now anomaly_id erased hf,
      confirm_of_none { s with current_status := status } now anomaly_id erased hf]
  | some p =>
    obtain ⟨id, a⟩ := p
    rw [confirm_of_some s now anomaly_id id a erased hf,
      confirm_of_some { s with current_status := status } now anomaly_id id a erased hf,
      handleAnomalyRecovery_status, callStatus_status]

theorem handleAnomaly_frame (s : State) (now : Int) (a : AnomalyInfo) :
    (handleAnomaly s now a).1.current_status = s.current_status ∧
      (handleAnomaly s now a).1.max_hydrogen_concentration = s.max_hydrogen_concentration := by
  rw [handleAnomaly_eq]
  split_ifs <;> exact ⟨rfl, rfl⟩

theorem admitAll_frame (s : State) (cs : List (Int × AnomalyInfo)) :
    (admitAll s cs).1.current_status = s.current_status ∧
      (admitAll s cs).1.max_hydrogen_concentration = s.max_hydrogen_concentration := by
  induction cs generalizing s with
  | nil => exact ⟨rfl, rfl⟩
  | cons c rest ih =>
    obtain ⟨now, a⟩ := c
    obtain ⟨h1, h2⟩ := handleAnomaly_frame s now a
    obtain ⟨h3, h4⟩ := ih (handleAnomaly s now a).1
    exact ⟨h3.trans h1, h4.trans h2⟩

theorem confirm_frame (s : State) (now : Int) (anomaly_id : String)
    (erased : AnomalyInfo) :
    (confirmSafetyAnomalyRecovery s now anomaly_id erased).1.current_status = s.current_status ∧
      (confirmSafetyAnomalyRecovery s now anomaly_id erased).1.max_hydrogen_concentration =
        s.max_hydrogen_concentration := by
  cases hf : s.active_anomalies.find?
      (fun p => p.2.description == anomaly_id && p.2.type == AnomalyType.SAFETY_FAULT) with
  | none => rw [confirm_of_none s now anomaly_id erased hf]; exact ⟨rfl, rfl⟩
  | some p =>
    obtain ⟨id, a⟩ := p
    rw [confirm_of_some s now anomaly_id id a erased hf]
    exact ⟨rfl, rfl⟩

theorem take_two_append (p x y : String) (c1 c2 : Char) (rest : List Char)
    (hp : p.data = c1 :: c2 :: rest) : (p ++ x ++ y).data.take 2 = [c1, c2] := by
  rw [String.data_append, String.data_append, hp]
  rfl

theorem concentrationKey_take (r : ℚ) : (concentrationKey r).data.take 2 = ['氢', '浓'] :=
  take_two_append _ _ _ _ _ _ rfl

theorem detectorProduced_concentration (a : AnomalyInfo) (r : ℚ) (h : DetectorProduced a)
    (hd : a.description = concentrationKey r) : a.type = AnomalyType.SAFETY_FAULT := by
  have hk := concentrationKey_take r
  rw [← hd] at hk
  obtain ⟨s0, now, i, hm⟩ := h
  unfold detect at hm
  simp only [List.mem_append] at hm
  rcases hm with ((((((hm | hm) | hm) | hm) | hm) | hm) | hm) | hm <;> split_ifs at hm <;>
    simp only [List.mem_singleton, List.not_mem_nil, Prod.mk.injEq, AnomalyInfo.mk.injEq] at hm
  · rw [hm.2.2.2.2.1] at hk
    exact absurd hk (by decide)
  · rw [hm.2.2.2.2.1] at hk
    exact absurd hk (by decide)
  · rw [hm.2.2.2.2.1] at hk
    exact absurd hk (by decide)
  · rw [hm.2.2.2.2.1] at hk
    exact absurd hk (by decide)
  · rw [hm.2.2.2.2.1, take_two_append _ _ _ '电' '网' _ rfl] at hk
    exact absurd hk (by decide)
  · rw [hm.2.2.2.2.1, take_two_append _ _ _ '电' '网' _ rfl] at hk
    exact absurd hk (by decide)
  · exact hm.2.1
  · exact hm.2.1

theorem isAnomalyResolved_concentration (s : State) (a : AnomalyInfo) (r : ℚ)
    (ht : a.type = AnomalyType.SAFETY_FAULT) (hd : a.description = concentrationKey r)
    (h : s.current_status.hydrogen_concentration ≥ s.max_hydrogen_concentration) :
    isAnomalyResolved s a = false := by
  have hf : find_ne_npos a.description "氢浓度异常" = true := by
    rw [hd]
    unfold concentrationKey
    rw [String.append_assoc]
    exact find_append _ _ _ (by decide)
  unfold isAnomalyResolved
  rw [ht]
  simp only [hf, if_true]
  exact decide_eq_false (not_lt.mpr h)

theorem resolutionPass_keeps (s : State) (close : String → Int) (k : String) (b : AnomalyInfo)
    (hw : WellKeyed s.active_anomalies) (hm : (k, b) ∈ s.active_anomalies)
    (hr : isAnomalyResolved s b = false) : isActive k (resolutionPass s close).1 = true := by
  unfold isActive
  rw [lookup_isSome_iff, resolutionPass_active]
  refine ⟨(k, b), List.mem_filter.mpr ⟨List.mem_map.mpr ⟨(k, b), hm, by simp [hr]⟩, ?_⟩, rfl⟩
  cases hc : ((s.active_anomalies.filter fun p => isAnomalyResolved s p.2).map
      fun p => p.1).contains k with
  | false => rfl
  | true =>
    exfalso
    rw [List.contains_eq_any_beq, List.any_eq_true] at hc
    obtain ⟨x, hx, hxk⟩ := hc
    obtain ⟨q, hq, rfl⟩ := List.mem_map.mp hx
    obtain ⟨hq1, hq2⟩ := List.mem_filter.mp hq
    obtain ⟨k1, b1⟩ := q
    have hqk : k = k1 := by simpa using hxk
    simp only at hq2
    subst hqk
    have e1 := lookup_eq_of_mem hw.1 hq1
    have e2 := lookup_eq_of_mem hw.1 hm
    rw [e1] at e2
    injection e2 with e2
    subst e2
    rw [hr] at hq2
    exact absurd hq2 (by decide)

theorem tick_readmits_concentration (s : State) (hs : Reachable s) (clock : TickClock)
    (k : String) (hk : k = concentrationKey s.current_status.hydrogen_concentration)
    (hc : s.current_status.hydrogen_concentration ≥ s.max_hydrogen_concentration) :
    isActive k (tick s clock).1 = true := by
  have hw := admitAll_wellKeyed s
    ((detect s clock.now).map fun p => (clock.admitTime p.1, p.2)) (reachable_wellKeyed s hs)
  have hdp := admitAll_detectorProduced s
    ((detect s clock.now).map fun p => (clock.admitTime p.1, p.2))
    (by
      intro c hc1
      obtain ⟨p, hp, rfl⟩ := List.mem_map.mp hc1
      exact detectorProduced_of_mem s clock.now p hp)
    (reachable_detectorProduced s hs)
  obtain ⟨hf1, hf2⟩ := admitAll_frame s
    ((detect s clock.now).map fun p => (clock.admitTime p.1, p.2))
  obtain ⟨p, hp, hpd⟩ := concentration_mem_detect s clock.now hc
  have hact := checkAnomalies_isActive_of_mem s clock.now clock.admitTime p hp
  rw [hpd, ← hk] at hact
  unfold isActive checkAnomalies at hact
  rw [lookup_isSome_iff] at hact
  obtain ⟨q, hq, hqk⟩ := hact
  obtain ⟨k1, b⟩ := q
  simp only at hqk
  subst hqk
  have hbd : b.description = concentrationKey s.current_status.hydrogen_concentration :=
    (hw.2 (k1, b) hq).symm.trans hk
  have hbt := detectorProduced_concentration b _ (hdp (k1, b) hq) hbd
  have hr := isAnomalyResolved_concentration
    (admitAll s ((detect s clock.now).map fun p => (clock.admitTime p.1, p.2))).1 b _ hbt hbd
    (by rw [hf1, hf2]; exact hc)
  exact resolutionPass_keeps _ clock.close k1 b hw hq hr

/-! ## Recovery inside the closing operation -/

theorem rampLoop_infix_recovery (s : State) (a : AnomalyInfo) (channel : String)
    (hg : ¬(a.type = AnomalyType.SAFETY_FAULT ∧ a.needs_manual_confirmation = true))
    (hch : rampChannel a.device_id = some channel) :
    List.IsInfix (rampLoop s channel 0.0) (handleAnomalyRecovery s a) := by
  unfold rampChannel at hch
  unfold handleAnomalyRecovery
  rw [if_neg hg]
  split_ifs at hch with h1 h2 h3 h4 h5 h6 <;> injection hch with hch <;> subst hch
  · rw [if_pos h1]
    exact List.infix_append _ _ _
  · rw [if_neg h1, if_pos h2]
    exact List.infix_append _ _ _
  · rw [if_neg h1, if_neg h2, if_pos h3]
    exact List.infix_append _ _ _
  · rw [if_neg h1, if_neg h2, if_neg h3, if_pos h4]
    exact List.infix_append _ _ _
  · rw [if_neg h1, if_neg h2, if_neg h3, if_neg h4, if_pos h5]
    exact (List.infix_append _ _ _).trans (List.infix_append _ _ _)
  · rw [if_neg h1, if_neg h2, if_neg h3, if_neg h4, if_neg h5, if_pos h6]
    exact List.infix_append _ _ _

theorem resolutionPass_recovery_infix (s : State) (close : String → Int)
    (hw : WellKeyed s.active_anomalies) (p : String × AnomalyInfo)
    (hp : p ∈ s.active_anomalies) (hr : isAnomalyResolved s p.2 = true) :
    ∃ h, (resolutionPass s close).1.anomaly_history.find? (fun x => x.description == p.1) =
        some h ∧
      List.IsInfix (handleAnomalyRecovery s h) (resolutionPass s close).2 := by
  have hk : p.1 = p.2.description := hw.2 p hp
  have hmem : p ∈ s.active_anomalies.filter fun q => isAnomalyResolved s q.2 :=
    List.mem_filter.mpr ⟨hp, hr⟩
  have hsome : ((resolutionPass s close).1.anomaly_history.find?
      (fun x => x.description == p.1)).isSome = true := by
    rw [List.find?_isSome, resolutionPass_history]
    refine ⟨{ p.2 with end_time := close p.1 }, List.mem_append_right _
      (List.mem_map.mpr ⟨p, hmem, rfl⟩), ?_⟩
    simp [hk]
  cases hf : (resolutionPass s close).1.anomaly_history.find?
      (fun x => x.description == p.1) with
  | none => rw [hf] at hsome; exact absurd hsome (by decide)
  | some h =>
    refine ⟨h, rfl, ?_⟩
    have hin : handleAnomalyRecovery s h ∈
        ((((s.active_anomalies.filter fun q : String × AnomalyInfo =>
              isAnomalyResolved s q.2).map
            fun q : String × AnomalyInfo => (q.1, { q.2 with end_time := close q.1 })).map
            fun q : String × AnomalyInfo => q.1).map fun id : String =>
          match (s.anomaly_history ++
              ((s.active_anomalies.filter fun q : String × AnomalyInfo =>
                  isAnomalyResolved s q.2).map
                fun q : String × AnomalyInfo => (q.1, { q.2 with end_time := close q.1 })).map
                fun q : String × AnomalyInfo => q.2).find?
              (fun a => a.description == id) with
          | some a => handleAnomalyRecovery s a
          | none => []) := by
      refine List.mem_map.mpr ⟨p.1, List.mem_map.mpr ⟨(p.1, { p.2 with end_time := close p.1 }),
        List.mem_map.mpr ⟨p, hmem, rfl⟩, rfl⟩, ?_⟩
      have hf2 : (s.anomaly_history ++
          ((s.active_anomalies.filter fun q : String × AnomalyInfo =>
              isAnomalyResolved s q.2).map
            fun q : String × AnomalyInfo => (q.1, { q.2 with end_time := close q.1 })).map
            fun q : String × AnomalyInfo => q.2).find?
          (fun a => a.description == p.1) = some h := hf
      rw [hf2]
    exact (List.infix_of_mem_flatten hin).trans (List.suffix_append _ _).isInfix

theorem checkAnomalies_nominal (s : State) (now : Int) (adm : Nat → Int)
    (h : NominalSnapshot s) : checkAnomalies s now adm = (s, []) := by
  unfold checkAnomalies
  rw [detect_nominal s now h]
  rfl

theorem tick_recovery_infix (s : State) (hs : Reachable s) (clock : TickClock)
    (p : String × AnomalyInfo)
    (hp : p ∈ (checkAnomalies s clock.now clock.admitTime).1.active_anomalies)
    (hr : isAnomalyResolved (checkAnomalies s clock.now clock.admitTime).1 p.2 = true) :
    ∃ h, (tick s clock).1.anomaly_history.find? (fun x => x.description == p.1) = some h ∧
      List.IsInfix (handleAnomalyRecovery (checkAnomalies s clock.now clock.admitTime).1 h)
        (tick s clock).2 := by
  have hw : WellKeyed (checkAnomalies s clock.now clock.admitTime).1.active_anomalies :=
    admitAll_wellKeyed s _ (reachable_wellKeyed s hs)
  obtain ⟨h, h1, h2⟩ := resolutionPass_recovery_infix
    (checkAnomalies s clock.now clock.admitTime).1 clock.close hw p hp hr
  refine ⟨h, h1, ?_⟩
  show List.IsInfix _ ((checkAnomalies s clock.now clock.admitTime).2 ++
    (resolutionPass (checkAnomalies s clock.now clock.admitTime).1 clock.close).2)
  exact h2.trans (List.suffix_append _ _).isInfix

theorem run_late_admission :
    run harnessState [.updateSystemStatus pvStatus, .loopIteration lateClock] =
      ({ pvHarnessState with
          active_anomalies := [("光伏逆变器故障", { pvRecord with is_handled := true })] },
        [Effect.mitigation "光伏逆变器故障", Effect.control "PV" 0,
          Effect.status "事故级异常: 光伏逆变器故障, 设备已停机"]) := by
  have e : Int.tdiv 6000000000 1000000 = 6000 := by decide
  norm_num [run, step, loopIteration, tick, checkAnomalies, detect, admitAll, handleAnomaly,
    lateClock, duration_cast_ms, e, periodsPerMs, harnessState, construct, pvRecord, mapAssign,
    mapSetHandled, mitigationActions, callControl,
    resolutionPass, isAnomalyResolved, harnessStatus, pvStatus,
    determineAnomalyLevel, mapErase, callStatus, handleAnomalyRecovery, pvHarnessState]
  decide

theorem concentrationKey_harness :
    concentrationKey concStatus.hydrogen_concentration = "氢浓度异常: 1.200000%" := by
  have e : concStatus.hydrogen_concentration = 6 / 5 := by
    norm_num [concStatus, harnessStatus]
  rw [e]
  unfold concentrationKey
  rw [to_string_six_fifths]
  decide

/-! ## The claims -/

/-- C3 (the code differs): with nominal voltage 220 the classifier returns CRITICAL, not WARNING,
for a grid value of 250, because 250 also passes the frequency test `value >= 51.0` of the first
branch. -/
theorem c3_grid_250_is_critical (s : State) :
    determineAnomalyLevel { s with normal_voltage := 220.0 } .GRID_FAULT 250.0 = .CRITICAL := by
  simp [determineAnomalyLevel]
  norm_num

/-- C4 (the code differs): with the harness ceilings (concentration 1.0, pressure 1.5) a tank
pressure of 2.0 MPa yields exactly one candidate, the pressure one, and its level is CRITICAL
although 2.0 is below 1.5 times the pressure ceiling: the level comes from the test against the
concentration ceiling. -/
theorem c4_pressure_level_uses_concentration_ceiling :
    (detect pressureState 0).map (fun p => (p.2.type, p.2.description, p.2.level)) =
        [(AnomalyType.SAFETY_FAULT, "氢罐压力异常: 2.000000MPa", AnomalyLevel.CRITICAL)] ∧
      pressureState.current_status.hydrogen_tank_pressure <
        1.5 * pressureState.max_hydrogen_pressure := by
  constructor
  · simp [detect, pressureState, harnessStatus, construct, determineAnomalyLevel]
    norm_num [to_string_two]
    rfl
  · norm_num [pressureState, construct]

/-- C10 (the code differs): a frequency of exactly 50.5 Hz, a value without rounding error in
`double`, lies in the closed band [49.5, 50.5] and the detector still raises a candidate, the
grid-frequency one: line 151 tests `>= 50.5`. -/
theorem c10_band_edge_raises_candidate :
    ((49.5 : ℚ) ≤ edgeFrequencyState.current_status.grid_frequency ∧
      edgeFrequencyState.current_status.grid_frequency ≤ 50.5) ∧
    (detect edgeFrequencyState 0).map (fun p => (p.2.type, p.2.description)) =
      [(AnomalyType.GRID_FAULT, "电网频率异常: 50.500000Hz")] := by
  constructor
  · norm_num [edgeFrequencyState, harnessStatus]
  · simp [detect, edgeFrequencyState, harnessStatus, construct, determineAnomalyLevel]
    norm_num [to_string_edge]
    rfl

/-- C5: admission is idempotent.  (1) In every state, `handleAnomaly` on a candidate whose
description is the key of an active record changes nothing (so the active map and the history are
unchanged) and issues no effector call.  (2) Admitting two candidates with the same description
leaves exactly one active record with that description.  (3) After every sequence of
operations on a fresh controller, direct admissions included, each active record is stored under
the key equal to its own description. -/
theorem c5_idempotent_admission :
    (∀ (s : State) (now : Int) (a : AnomalyInfo),
      isActive a.description s = true → handleAnomaly s now a = (s, [])) ∧
    (∀ (s : State) (t1 t2 : Int) (a b : AnomalyInfo),
      WellKeyed s.active_anomalies → a.description = b.description →
      ((handleAnomaly (handleAnomaly s t1 a).1 t2 b).1.active_anomalies.filter
        fun p => p.2.description == a.description).length = 1) ∧
    (∀ (status0 : SystemStatus) (ops : List Op),
      ∀ p ∈ (run (construct status0) ops).1.active_anomalies, p.1 = p.2.description) := by
  refine ⟨handleAnomaly_of_active, ?_, ?_⟩
  · intro s t1 t2 a b hs hab
    have hw := handleAnomaly_wellKeyed _ t2 b (handleAnomaly_wellKeyed s t1 a hs)
    rw [filter_description_length _ _ hw]
    have hact : isActive a.description (handleAnomaly (handleAnomaly s t1 a).1 t2 b).1 = true := by
      rw [handleAnomaly_isActive, handleAnomaly_isActive]
      simp
    unfold isActive at hact
    rw [hact]
    rfl
  · intro status0 ops
    exact (run_wellKeyed _ ops wellKeyed_nil).2

/-- C5 (instance): the inverter-fault candidate is admitted twice into a fresh controller, and
admitted again into a state where it is active. -/
theorem c5_idempotent_admission_witness :
    handleAnomaly pvActiveState 7 pvRecord = (pvActiveState, []) ∧
    ((handleAnomaly (handleAnomaly (construct harnessStatus) 0 pvRecord).1 1
        pvRecord).1.active_anomalies.filter
      fun p => p.2.description == pvRecord.description).length = 1 :=
  ⟨c5_idempotent_admission.1 pvActiveState 7 pvRecord (by decide),
    c5_idempotent_admission.2.1 (construct harnessStatus) 0 1 pvRecord pvRecord wellKeyed_nil rfl⟩

/-- C9: when every active record whose description equals the key has a type other than
SAFETY_FAULT (in particular when no active record matches the key),
`confirmSafetyAnomalyRecovery` returns the state unchanged, so the active map and the history are
unchanged, and issues no effector call.  No map node is erased, so nothing is read back. -/
theorem c9_confirm_noop (s : State) (now : Int) (anomaly_id : String) (erased : AnomalyInfo)
    (h : ∀ p ∈ s.active_anomalies,
      p.2.description = anomaly_id → p.2.type ≠ AnomalyType.SAFETY_FAULT) :
    confirmSafetyAnomalyRecovery s now anomaly_id erased = (s, []) := by
  apply confirm_of_none
  rw [List.find?_eq_none]
  intro p hp
  simp only [Bool.and_eq_true, beq_iff_eq, not_and]
  exact h p hp

/-- C9 (instance): confirming the key of the active inverter fault, a DEVICE_FAULT record, and
confirming a key that matches nothing. -/
theorem c9_confirm_noop_witness :
    confirmSafetyAnomalyRecovery pvActiveState 5 "光伏逆变器故障" pvRecord =
      (pvActiveState, []) ∧
    confirmSafetyAnomalyRecovery pvActiveState 5 "氢浓度异常: 1.2%" pvRecord =
      (pvActiveState, []) :=
  ⟨c9_confirm_noop pvActiveState 5 "光伏逆变器故障" pvRecord (by decide),
    c9_confirm_noop pvActiveState 5 "氢浓度异常: 1.2%" pvRecord (by decide)⟩

/-- C6: at-most-once dispatch.  Over every sequence of operations from a state whose records
sit under their descriptions, the number of entries into the mitigation switch for description
`d` is at most the number of records with description `d` that the run appends to the history,
plus one if `d` is not active at the start and minus one if it is not active at the end.  Hence
as long as no record with description `d` is closed the mitigation for `d` is dispatched at most
once, and not at all when `d` was already active. -/
theorem c6_at_most_once_dispatch (s : State) (ops : List Op) (d : String)
    (h : WellKeyed s.active_anomalies) :
    (dispatchCount d (run s ops).2 + notActive d (run s ops).1 + closedCount d s ≤
      closedCount d (run s ops).1 + notActive d s) ∧
    (closedCount d (run s ops).1 = closedCount d s → dispatchCount d (run s ops).2 ≤ 1) ∧
    (closedCount d (run s ops).1 = closedCount d s → isActive d s = true →
      dispatchCount d (run s ops).2 = 0) := by
  have hb := run_stepBound d s ops h
  unfold StepBound at hb
  refine ⟨hb, ?_, ?_⟩
  · intro hc
    have : notActive d s ≤ 1 := by unfold notActive; split_ifs <;> omega
    omega
  · intro hc ha
    have : notActive d s = 0 := by unfold notActive; rw [if_pos ha]
    omega

/-- C6 (instance): with the persistence threshold set to zero the inverter-fault candidate is
admitted twice in a row into a fresh controller; the mitigation switch is entered at most
once. -/
theorem c6_at_most_once_dispatch_witness :
    WellKeyed (construct harnessStatus).active_anomalies ∧
    dispatchCount "光伏逆变器故障"
      (run (construct harnessStatus)
        [Op.setControlParameters 220.0 50.0 1.0 1.5 0, Op.handleAnomaly 0 pvRecord,
          Op.handleAnomaly 0 pvRecord]).2 ≤ 1 :=
  ⟨wellKeyed_nil,
    (c6_at_most_once_dispatch (construct harnessStatus)
      [Op.setControlParameters 220.0 50.0 1.0 1.5 0, Op.handleAnomaly 0 pvRecord,
        Op.handleAnomaly 0 pvRecord] "光伏逆变器故障" wellKeyed_nil).2.1 (by decide)⟩

/-- C8 (the code differs): `confirmSafetyAnomalyRecovery` erases the map node of the record
(line 513) and then passes recovery a reference into that node (line 515), so recovery acts on
what is read back from the erased node and not on the record.  In the reachable harness state
with the concentration record active, confirmation under the record's key closes the record as
the claim says, whatever is read back; but its effector calls after the confirmation notice are
those of `handleAnomalyRecovery` on what is read back: if that is the record as confirmed, the
HYDROGEN ramp; if the strings of the erased node read back empty, two notices without text and
no HYDROGEN command at all. -/
theorem c8_confirm_recovers_from_erased_node :
    Reachable (concActiveState concStatus 0 []) ∧
    (concActiveState concStatus 0 []).active_anomalies =
      [("氢浓度异常: 1.200000%", concRecord 0)] ∧
    (∀ erased : AnomalyInfo,
      (confirmSafetyAnomalyRecovery (concActiveState concStatus 0 []) 500
          "氢浓度异常: 1.200000%" erased).1 =
        { harnessState with current_status := concStatus, anomaly_history := [confirmedRecord] }) ∧
    (∀ erased : AnomalyInfo,
      (confirmSafetyAnomalyRecovery (concActiveState concStatus 0 []) 500
          "氢浓度异常: 1.200000%" erased).2 =
        Effect.status "安全异常恢复已确认: 氢浓度异常: 1.200000%" ::
          handleAnomalyRecovery (concActiveState concStatus 0 []) erased) ∧
    controlCalls (confirmSafetyAnomalyRecovery (concActiveState concStatus 0 []) 500
        "氢浓度异常: 1.200000%" confirmedRecord).2 =
      rampSetpoints.map (fun p => ("HYDROGEN", p)) ∧
    (confirmSafetyAnomalyRecovery (concActiveState concStatus 0 []) 500
        "氢浓度异常: 1.200000%" { confirmedRecord with device_id := "", description := "" }).2 =
      [Effect.status "安全异常恢复已确认: 氢浓度异常: 1.200000%",
        Effect.status "开始恢复系统出力: ", Effect.status "系统出力恢复完成: "] := by
  have heq : ∀ erased : AnomalyInfo,
      confirmSafetyAnomalyRecovery (concActiveState concStatus 0 []) 500
          "氢浓度异常: 1.200000%" erased =
        ({ harnessState with current_status := concStatus, anomaly_history := [confirmedRecord] },
          Effect.status "安全异常恢复已确认: 氢浓度异常: 1.200000%" ::
            handleAnomalyRecovery (concActiveState concStatus 0 []) erased) := by
    intro erased
    rw [confirm_of_some _ _ _ "氢浓度异常: 1.200000%" (concRecord 0) erased (by decide),
      callStatus_of_registered _ _ rfl]
    have hd : (concRecord 0).description = "氢浓度异常: 1.200000%" := rfl
    have e1 : "安全异常恢复已确认: " ++ "氢浓度异常: 1.200000%" =
        "安全异常恢复已确认: 氢浓度异常: 1.200000%" := by decide
    rw [hd, e1]
    rfl
  refine ⟨reachable_concActive, rfl, fun erased => by rw [heq], fun erased => by rw [heq], ?_, ?_⟩
  · rw [heq, controlCalls_cons_status]
    exact controlCalls_recovery _ _ "HYDROGEN" (by decide) (by decide) rfl
  · rw [heq]
    unfold handleAnomalyRecovery
    rw [if_neg (by decide)]
    simp only [callStatus_of_registered _ _ (rfl : (concActiveState concStatus 0 []).status_callback = true)]
    decide

/-- C1 (the code differs): in the reachable state where the concentration record, a SAFETY_FAULT
with `needs_manual_confirmation` set, is the only active record, the snapshot returns to nominal
and one loop iteration runs.  The tick removes the record from the active map and appends it to
the history with the flag still set, emitting the notice that the anomaly is lifted and then
the notice that confirmation is needed.  A later `confirmSafetyAnomalyRecovery` with the
record's key finds nothing to confirm. -/
theorem c1_tick_closes_unconfirmed_safety_record :
    Reachable (concActiveState concStatus 0 []) ∧
    (concActiveState concStatus 0 []).active_anomalies =
      [("氢浓度异常: 1.200000%", concRecord 0)] ∧
    (concRecord 0).type = AnomalyType.SAFETY_FAULT ∧
    (concRecord 0).needs_manual_confirmation = true ∧
    run (concActiveState concStatus 0 [])
        [.updateSystemStatus harnessStatus, .loopIteration (clockAt 1000)] =
      ({ harnessState with anomaly_history := [{ concRecord 0 with end_time := 1000 }] },
        [Effect.status "异常已解除: 氢浓度异常: 1.200000%",
          Effect.status "安全异常恢复需要人工确认: 氢浓度异常: 1.200000%"]) ∧
    ∀ erased : AnomalyInfo,
      confirmSafetyAnomalyRecovery
          { harnessState with anomaly_history := [{ concRecord 0 with end_time := 1000 }] } 2000
          "氢浓度异常: 1.200000%" erased =
        ({ harnessState with anomaly_history := [{ concRecord 0 with end_time := 1000 }] }, []) :=
  ⟨reachable_concActive, rfl, rfl, rfl, run_closes_conc,
    fun erased => confirm_of_none _ _ _ erased rfl⟩

/-- C2 (the code differs): in the reachable state where the inverter-fault record of time 0 is
active with `is_handled = false` and the fault is still reported, a loop iteration at a time
when the record is 6000 ms old, beyond the threshold of 5000 ms, and indeed a loop iteration
with any clock readings, leaves the state as it is, `is_handled` included, and issues no
effector call. -/
theorem c2_tick_never_handles_aged_record :
    Reachable pvHarnessState ∧
    pvHarnessState.active_anomalies = [("光伏逆变器故障", pvRecord)] ∧
    pvRecord.is_handled = false ∧
    pvHarnessState.anomaly_duration_threshold_ms <
      duration_cast_ms ((clockAt 6000000000).now - pvRecord.start_time) ∧
    loopIteration pvHarnessState (clockAt 6000000000) = (pvHarnessState, []) ∧
    ∀ clock : TickClock, loopIteration pvHarnessState clock = (pvHarnessState, []) :=
  ⟨reachable_pvHarnessState, rfl, rfl, by decide, loopIteration_pv _, loopIteration_pv⟩

/-- C7 (the code differs): a reachable state whose history holds the concentration record as
confirmed at time 500 and whose active map holds a fresh record under the same description,
with `needs_manual_confirmation` set.  When the snapshot returns to nominal, the tick closes
the fresh record and looks the key up in the history, finds the earlier confirmed record first
and runs the recovery of that one: the HYDROGEN ramp is issued with no confirmation of the
fresh record. -/
theorem c7_tick_ramps_unconfirmed_safety_record :
    Reachable (concActiveState concStatus 600 [confirmedRecord]) ∧
    (concActiveState concStatus 600 [confirmedRecord]).active_anomalies =
      [("氢浓度异常: 1.200000%", concRecord 600)] ∧
    (concRecord 600).type = AnomalyType.SAFETY_FAULT ∧
    (concRecord 600).needs_manual_confirmation = true ∧
    run (concActiveState concStatus 600 [confirmedRecord])
        [.updateSystemStatus harnessStatus, .loopIteration (clockAt 1000)] =
      ({ harnessState with
          anomaly_history := [confirmedRecord, { concRecord 600 with end_time := 1000 }] },
        [Effect.status "异常已解除: 氢浓度异常: 1.200000%",
          Effect.status "开始恢复系统出力: 氢浓度异常: 1.200000%"] ++
        rampLoop (concActiveState harnessStatus 600 [confirmedRecord]) "HYDROGEN" 0.0 ++
        [Effect.status "系统出力恢复完成: 氢浓度异常: 1.200000%"]) ∧
    ∃ p, Effect.control "HYDROGEN" p ∈
      (run (concActiveState concStatus 600 [confirmedRecord])
        [.updateSystemStatus harnessStatus, .loopIteration (clockAt 1000)]).2 := by
  refine ⟨reachable_readmitted, rfl, rfl, rfl, run_closes_readmitted_conc, ?_⟩
  rw [run_closes_readmitted_conc]
  exact ⟨_, List.mem_append_left _ (List.mem_append_right _
    (rampLoop_zero_mem (concActiveState harnessStatus 600 [confirmedRecord]) "HYDROGEN" rfl))⟩

/-- C13: ramp monotonicity and bound.  For a record that is not gated by manual confirmation and
whose device is one `handleAnomalyRecovery` ramps, with a control callback registered, the
setpoints passed to the callback, computed in `double` arithmetic, are non-decreasing, every
setpoint is at most the rated value 100, and the last one is the rated value; all commands go
to the channel of the device.  The sequence is finite: the loop exits after 1201 iterations,
so that every bound of at least 1201 on the number of iterations gives the same commands. -/
theorem c13_ramp_monotone_bounded (s : State) (a : AnomalyInfo) (channel : String)
    (hg : ¬(a.type = AnomalyType.SAFETY_FAULT ∧ a.needs_manual_confirmation = true))
    (hch : rampChannel a.device_id = some channel) (h : s.control_callback = true) :
    (setpoints (handleAnomalyRecovery s a)).Pairwise (fun p q => p ≤ q) ∧
    (∀ p ∈ setpoints (handleAnomalyRecovery s a), p ≤ target_power) ∧
    (setpoints (handleAnomalyRecovery s a)).getLast? = some target_power ∧
    (setpoints (handleAnomalyRecovery s a)).length = 1201 ∧
    (∀ c ∈ controlCalls (handleAnomalyRecovery s a), c.1 = channel) ∧
    ∀ fuel : Nat, 1201 ≤ fuel → rampIterate fuel s channel 0.0 = rampLoop s channel 0.0 := by
  have hc := controlCalls_recovery s a channel hg hch h
  have hs : setpoints (handleAnomalyRecovery s a) = rampSetpoints := by
    unfold setpoints
    rw [hc, List.map_map]
    exact List.map_id _
  rw [hs]
  refine ⟨rampSetpoints_pairwise, rampSetpoints_le, rampSetpoints_getLast, rampSetpoints_length,
    ?_, fun fuel hf => rampIterate_of_le fuel hf s channel⟩
  intro c hcm
  rw [hc] at hcm
  obtain ⟨p, -, rfl⟩ := List.mem_map.mp hcm
  rfl

/-- C13 (instance): the recovery of the confirmed concentration record in the harness. -/
theorem c13_ramp_monotone_bounded_witness :
    (setpoints (handleAnomalyRecovery harnessState confirmedRecord)).getLast? =
        some target_power ∧
    (setpoints (handleAnomalyRecovery harnessState confirmedRecord)).length = 1201 := by
  obtain ⟨-, -, h3, h4, -, -⟩ := c13_ramp_monotone_bounded harnessState confirmedRecord
    "HYDROGEN" (by decide) (by decide) rfl
  exact ⟨h3, h4⟩

/-- C14 (counterexample): in `double` arithmetic the ramp of the harness controller issues 1201
commands, not 1200: the increment, the double nearest to 100 x (5/60 / 100), is
6004799503160661 / 2^56, below 1/12, so the 1200th setpoint is
7036874417766307 / 2^46 = 99.99999999999868..., below the rated value and different from
min(1200 x 100 x 5/6000, 100) = 100, and one more command, carrying 100, follows. -/
theorem c14_ramp_issues_1201_commands :
    (rampLoop harnessState "HYDROGEN" 0.0).length = 1201 ∧
    toDouble (target_power * toDouble (recovery_rate_per_second / 100.0)) =
      6004799503160661 / 2 ^ 56 ∧
    (6004799503160661 / 2 ^ 56 : ℚ) < 1 / 12 ∧
    (controlCalls (rampLoop harnessState "HYDROGEN" 0.0))[1199]? =
      some ("HYDROGEN", 7036874417766307 / 2 ^ 46) ∧
    (7036874417766307 / 2 ^ 46 : ℚ) < target_power ∧
    (7036874417766307 / 2 ^ 46 : ℚ) ≠ min (1200 * target_power * 5 / 6000) target_power ∧
    (controlCalls (rampLoop harnessState "HYDROGEN" 0.0))[1200]? =
      some ("HYDROGEN", target_power) := by
  have hl : (rampLoop harnessState "HYDROGEN" 0.0).length = 1201 := by
    rw [rampLoop_closed harnessState "HYDROGEN" rfl, List.length_map, rampSetpoints_length]
  have hlast : rampSetpoints[1200]? = some target_power := by
    have h := rampSetpoints_getLast
    rw [List.getLast?_eq_getElem?, rampSetpoints_length] at h
    exact h
  refine ⟨hl, ?_, by norm_num, ?_, by norm_num [target_power], by norm_num [target_power], ?_⟩
  · rw [rampIncrement_eq]
    norm_num [rampIncrementN]
  · rw [controlCalls_rampLoop harnessState "HYDROGEN" rfl, List.getElem?_map, rampSetpoints_1200]
    norm_num
  · rw [controlCalls_rampLoop harnessState "HYDROGEN" rfl, List.getElem?_map, hlast]
    rfl

/-- C14 (amended): ramp rate in `double` arithmetic.  With a control callback registered, the
loop of `handleAnomalyRecovery` started at zero issues exactly 1201 commands and then stops;
for k from 1 to 1201 the k-th command carries a setpoint within 2 / 10^12 of
min(k x rated x 5/6000, rated) with rated = 100, and the last command carries the rated value
itself.  The same holds for the power commands of the recovery of every record that is ramped.
The one-second pause of the source after each command is not part of the trace. -/
theorem c14_ramp_rate (s : State) (device : String) (h : s.control_callback = true) :
    (rampLoop s device 0.0).length = 1201 ∧
    (∀ e ∈ rampLoop s device 0.0, ∃ p, e = Effect.control device p) ∧
    (∀ (k : Nat) (p : ℚ), (rampLoop s device 0.0)[k]? = some (Effect.control device p) →
      |p - min (((k + 1 : Nat) : ℚ) * target_power * 5 / 6000) target_power| < 2 / 10 ^ 12) ∧
    (rampLoop s device 0.0).getLast? = some (Effect.control device target_power) ∧
    ∀ a : AnomalyInfo, ∀ channel : String,
      ¬(a.type = AnomalyType.SAFETY_FAULT ∧ a.needs_manual_confirmation = true) →
      rampChannel a.device_id = some channel →
      controlCalls (handleAnomalyRecovery s a) =
        controlCalls (rampLoop s channel 0.0) := by
  have hcl := rampLoop_closed s device h
  refine ⟨?_, fun e he => mem_rampLoop s device 0.0 e he, ?_, ?_, ?_⟩
  · rw [hcl, List.length_map, rampSetpoints_length]
  · intro k p hk
    rw [hcl, List.getElem?_map] at hk
    cases hq : rampSetpoints[k]? with
    | none => rw [hq] at hk; simp at hk
    | some q =>
      rw [hq] at hk
      simp only [Option.map_some', Option.some.injEq, Effect.control.injEq, true_and] at hk
      subst hk
      have hn := rampSetpoints_near k q hq
      have e : ((k + 1 : Nat) : ℚ) * target_power * 5 / 6000 = ((k + 1 : Nat) : ℚ) / 12 := by
        norm_num [target_power]
        ring
      rw [e]
      exact hn
  · rw [hcl, List.getLast?_map, rampSetpoints_getLast]
    rfl
  · intro a channel hg hch
    rw [controlCalls_recovery s a channel hg hch h, controlCalls_rampLoop s channel h]

/-- C14 (instance): the ramp on channel HYDROGEN in the harness. -/
theorem c14_ramp_rate_witness :
    (rampLoop harnessState "HYDROGEN" 0.0).length = 1201 ∧
    (rampLoop harnessState "HYDROGEN" 0.0).getLast? =
      some (Effect.control "HYDROGEN" target_power) := by
  obtain ⟨h1, -, -, h4, -⟩ := c14_ramp_rate harnessState "HYDROGEN" rfl
  exact ⟨h1, h4⟩

/-- C16: critical mitigation for the hydrogen system.  For a CRITICAL record on device
Hydrogen_System the effector calls of the mitigation switch are, in order: the power command
(HYDROGEN, 0); the ventilation action if the description contains the concentration marker,
otherwise the pressure-relief action if it contains the pressure marker (so never both); the
safe-mode action; the status notification.  Each call reaches its sink if one is registered.
In particular, with the harness parameters and all sinks registered, a concentration of 2.2
against the ceiling 1.0 gives a CRITICAL candidate whose mitigation is zero-electrolyzer,
ventilation, safe mode, notification. -/
theorem c16_critical_hydrogen_mitigation :
    (∀ (s : State) (a : AnomalyInfo),
      mitigationActions s { a with level := .CRITICAL, device_id := "Hydrogen_System" } =
        callControl s "HYDROGEN" 0 ++
          (if find_ne_npos a.description "氢浓度异常" then callSafety s "启动通风系统"
            else if find_ne_npos a.description "氢罐压力异常" then callSafety s "启动泄压系统"
            else []) ++
          callSafety s "转入保安全模式" ++
          callStatus s ("事故级异常: " ++ a.description ++ ", 设备已停机")) ∧
    (detect criticalConcState 0).map (fun p => (p.2.type, p.2.device_id, p.2.description,
        p.2.level)) =
      [(AnomalyType.SAFETY_FAULT, "Hydrogen_System", "氢浓度异常: 2.200000%",
        AnomalyLevel.CRITICAL)] ∧
    ∀ p ∈ detect criticalConcState 0, mitigationActions criticalConcState p.2 =
      [Effect.control "HYDROGEN" 0, Effect.safety "启动通风系统", Effect.safety "转入保安全模式",
        Effect.status "事故级异常: 氢浓度异常: 2.200000%, 设备已停机"] := by
  refine ⟨?_, ?_, ?_⟩
  · intro s a
    simp [mitigationActions]
  · rw [detect_criticalConc]
    rfl
  · intro p hp
    rw [detect_criticalConc] at hp
    rw [List.mem_singleton] at hp
    subst hp
    decide

/-- C17: critical mitigation for the devices and the grid.  For a CRITICAL record on PV_Inverter,
Wind_Controller, ESS_PCS, Electrolyzer or Grid, the effector calls of the mitigation switch are
the power command with setpoint 0 on the channel of the device (PV, WIND, ESS, HYDROGEN, GRID),
for Grid in island mode the island-mode notice, and the status notification.  So the control
sink, when registered, receives exactly one command, (channel, 0); no safety action is issued;
and with a status sink registered the island-mode notice is emitted if and only if the device
is Grid and the snapshot has `is_island_mode` set. -/
theorem c17_critical_device_mitigation (s : State) (a : AnomalyInfo) (channel : String)
    (hl : a.level = AnomalyLevel.CRITICAL) (hch : criticalChannel a.device_id = some channel) :
    mitigationActions s a =
      callControl s channel 0 ++
        (if a.device_id = "Grid" ∧ s.current_status.is_island_mode = true then
          callStatus s "孤岛模式，保障重要负荷" else []) ++
        callStatus s ("事故级异常: " ++ a.description ++ ", 设备已停机") ∧
    controlCalls (mitigationActions s a) =
      (if s.control_callback then [(channel, 0)] else []) ∧
    safetyCalls (mitigationActions s a) = [] ∧
    (s.status_callback = true →
      (Effect.status "孤岛模式，保障重要负荷" ∈ mitigationActions s a ↔
        a.device_id = "Grid" ∧ s.current_status.is_island_mode = true)) := by
  have hm := mitigationActions_critical s a channel hl hch
  have hne : ∀ d : String, "事故级异常: " ++ d ++ ", 设备已停机" ≠ "孤岛模式，保障重要负荷" := by
    intro d hd
    have := congrArg String.data hd
    simp at this
  refine ⟨hm, ?_, ?_, ?_⟩
  · rw [hm]
    by_cases hc : a.device_id = "Grid" ∧ s.current_status.is_island_mode = true
    · simp only [if_pos hc, controlCalls_append, controlCalls_callStatus,
        controlCalls_callControl, List.append_nil]
    · simp only [if_neg hc, controlCalls_append, controlCalls_callStatus,
        controlCalls_callControl, List.append_nil]
  · rw [hm]
    by_cases hc : a.device_id = "Grid" ∧ s.current_status.is_island_mode = true
    · simp only [if_pos hc, safetyCalls_append, safetyCalls_callStatus,
        safetyCalls_callControl, List.append_nil]
    · simp only [if_neg hc, safetyCalls_append, safetyCalls_callStatus,
        safetyCalls_callControl, List.append_nil]
  · intro hs
    rw [hm]
    by_cases hc : a.device_id = "Grid" ∧ s.current_status.is_island_mode = true
    · simp [hc, callStatus, hs]
    · rw [if_neg hc]
      simp only [hc, iff_false, List.append_nil, List.mem_append, not_or]
      constructor
      · unfold callControl
        split_ifs <;> simp
      · rw [callStatus_of_registered s _ hs, List.mem_singleton]
        intro h
        injection h with h
        exact hne _ h.symm

/-- C17 (instance): a critical grid record in the harness controller, not in island mode. -/
theorem c17_critical_device_mitigation_witness :
    controlCalls (mitigationActions harnessState
        { pvRecord with device_id := "Grid", description := "电网电压异常: 250.000000V" }) =
      [("GRID", 0)] :=
  (c17_critical_device_mitigation harnessState
    { pvRecord with device_id := "Grid", description := "电网电压异常: 250.000000V" } "GRID" rfl
    (by decide)).2.1

/-- C15 (the code differs): for a WARNING record on device Grid the mitigation switch issues the
status notice only, which says that the device power is halved, and no power command at all.
In the reachable state with nominal voltage 50 V, threshold zero and a frequency of 50.75 Hz,
the loop iteration admits the grid-frequency record with level WARNING and dispatches its
mitigation at once: the trace holds no power-control call. -/
theorem c15_warning_grid_issues_no_command :
    (∀ (s : State) (a : AnomalyInfo),
      mitigationActions s { a with level := .WARNING, device_id := "Grid" } =
        callStatus s ("一般级异常: " ++ a.description ++ ", 设备功率减半")) ∧
    Reachable warningState ∧
    loopIteration warningState (clockAt 0) =
      ({ warningState with
          active_anomalies :=
            [("电网频率异常: 50.750000Hz", { warningRecord with is_handled := true })] },
        [Effect.mitigation "电网频率异常: 50.750000Hz",
          Effect.status "一般级异常: 电网频率异常: 50.750000Hz, 设备功率减半"]) ∧
    controlCalls (loopIteration warningState (clockAt 0)).2 = [] := by
  refine ⟨?_, reachable_warningState, loopIteration_warning, ?_⟩
  · intro s a
    simp [mitigationActions]
  · rw [loopIteration_warning]
    rfl

/-- C18: the detector evaluates its eight rules independently.  For every snapshot and parameter
set, the number of candidates is the number of rules that fire, and for each rule the detector
proposes exactly one candidate when the rule fires and none when it does not, whatever the other
rules do.  Every candidate has `is_handled = false`; a candidate of a device rule has the
device of its rule, type DEVICE_FAULT, level CRITICAL and `needs_manual_confirmation = false`;
a candidate of a grid rule has type GRID_FAULT; a candidate of a hydrogen rule has type
SAFETY_FAULT and `needs_manual_confirmation = true`.  A snapshot violating all eight rules
yields eight candidates. -/
theorem c18_detector_rules_independent (s : State) (now : Int) :
    (detect s now).length =
      (if s.current_status.pv_inverter_fault then 1 else 0) +
      (if s.current_status.wind_controller_fault then 1 else 0) +
      (if s.current_status.ess_pcs_fault then 1 else 0) +
      (if s.current_status.electrolyzer_fault then 1 else 0) +
      (if s.current_status.grid_voltage ≥ 1.1 * s.normal_voltage ∨
          s.current_status.grid_voltage ≤ 0.9 * s.normal_voltage then 1 else 0) +
      (if s.current_status.grid_frequency ≥ 50.5 ∨ s.current_status.grid_frequency ≤ 49.5
        then 1 else 0) +
      (if s.current_status.hydrogen_concentration ≥ s.max_hydrogen_concentration then 1 else 0) +
      (if s.current_status.hydrogen_tank_pressure ≥ s.max_hydrogen_pressure then 1 else 0) ∧
    ((detect s now).filter fun p => p.1 = 0).length =
      (if s.current_status.pv_inverter_fault then 1 else 0) ∧
    ((detect s now).filter fun p => p.1 = 1).length =
      (if s.current_status.wind_controller_fault then 1 else 0) ∧
    ((detect s now).filter fun p => p.1 = 2).length =
      (if s.current_status.ess_pcs_fault then 1 else 0) ∧
    ((detect s now).filter fun p => p.1 = 3).length =
      (if s.current_status.electrolyzer_fault then 1 else 0) ∧
    ((detect s now).filter fun p => p.1 = 4).length =
      (if s.current_status.grid_voltage ≥ 1.1 * s.normal_voltage ∨
          s.current_status.grid_voltage ≤ 0.9 * s.normal_voltage then 1 else 0) ∧
    ((detect s now).filter fun p => p.1 = 5).length =
      (if s.current_status.grid_frequency ≥ 50.5 ∨ s.current_status.grid_frequency ≤ 49.5
        then 1 else 0) ∧
    ((detect s now).filter fun p => p.1 = 6).length =
      (if s.current_status.hydrogen_concentration ≥ s.max_hydrogen_concentration
        then 1 else 0) ∧
    ((detect s now).filter fun p => p.1 = 7).length =
      (if s.current_status.hydrogen_tank_pressure ≥ s.max_hydrogen_pressure then 1 else 0) ∧
    (∀ p ∈ detect s now, p.2.is_handled = false ∧ p.2.start_time = now ∧
      (((p.1 = 0 ∧ p.2.device_id = "PV_Inverter" ∨ p.1 = 1 ∧ p.2.device_id = "Wind_Controller" ∨
            p.1 = 2 ∧ p.2.device_id = "ESS_PCS" ∨ p.1 = 3 ∧ p.2.device_id = "Electrolyzer") ∧
          p.2.type = AnomalyType.DEVICE_FAULT ∧ p.2.level = AnomalyLevel.CRITICAL ∧
          p.2.needs_manual_confirmation = false) ∨
        ((p.1 = 4 ∨ p.1 = 5) ∧ p.2.device_id = "Grid" ∧
          p.2.type = AnomalyType.GRID_FAULT ∧ p.2.needs_manual_confirmation = false) ∨
        ((p.1 = 6 ∨ p.1 = 7) ∧ p.2.device_id = "Hydrogen_System" ∧
          p.2.type = AnomalyType.SAFETY_FAULT ∧ p.2.needs_manual_confirmation = true))) ∧
    (detect allRulesState now).length = 8 := by
  refine ⟨?_, ?_, ?_, ?_, ?_, ?_, ?_, ?_, ?_, ?_, ?_⟩
  · simp only [detect, List.length_append, length_rule]
  · simp only [detect, List.filter_append, List.length_append, length_filter_rule]
    simp
  · simp only [detect, List.filter_append, List.length_append, length_filter_rule]
    simp
  · simp only [detect, List.filter_append, List.length_append, length_filter_rule]
    simp
  · simp only [detect, List.filter_append, List.length_append, length_filter_rule]
    simp
  · simp only [detect, List.filter_append, List.length_append, length_filter_rule]
    simp
  · simp only [detect, List.filter_append, List.length_append, length_filter_rule]
    simp
  · simp only [detect, List.filter_append, List.length_append, length_filter_rule]
    simp
  · simp only [detect, List.filter_append, List.length_append, length_filter_rule]
    simp
  · intro p hp
    unfold detect at hp
    simp only [List.mem_append] at hp
    rcases hp with ((((((hp | hp) | hp) | hp) | hp) | hp) | hp) | hp <;> split_ifs at hp
    all_goals first
      | (simp at hp; done)
      | (simp at hp; subst hp; simp)
  · simp only [detect, List.length_append, length_rule]
    norm_num [allRulesState, harnessState, harnessStatus, construct]

/-- C11 (the code differs): with a frequency of exactly 50.5 Hz the grid-frequency rule of the
detector fires, producing one candidate, and `isAnomalyResolved` holds for that candidate on the
same snapshot: the rule fires and counts as resolved at once, because detection tests
`f >= 50.5` and resolution tests `f <= 50.5`. -/
theorem c11_band_edge_fires_and_resolves :
    (detect edgeFrequencyState 0).map (fun p => (p.2.type, p.2.description)) =
      [(AnomalyType.GRID_FAULT, "电网频率异常: 50.500000Hz")] ∧
    ∀ p ∈ detect edgeFrequencyState 0, isAnomalyResolved edgeFrequencyState p.2 = true := by
  rw [detect_edgeFrequency]
  refine ⟨rfl, ?_⟩
  intro p hp
  rw [List.mem_singleton] at hp
  subst hp
  norm_num [isAnomalyResolved, find_edge_voltage, find_edge_frequency, edgeFrequencyState,
    harnessStatus, construct]

/-- C19 (counterexample): the readings 1.25 and 1.25 + 2^-24 are different and both breach the
ceiling 1.0, yet they are rendered alike, so their keys are equal, and detecting the first and
then the second with two loop iterations of the harness controller leaves one active record. -/
theorem c19_close_readings_share_one_record :
    closeReadings.1 ≠ closeReadings.2 ∧
    closeReadings.1 ≥ harnessState.max_hydrogen_concentration ∧
    closeReadings.2 ≥ harnessState.max_hydrogen_concentration ∧
    concentrationKey closeReadings.1 = concentrationKey closeReadings.2 ∧
    (run harnessState
        [.updateSystemStatus { harnessStatus with hydrogen_concentration := closeReadings.1 },
          .loopIteration (clockAt 0),
          .updateSystemStatus { harnessStatus with hydrogen_concentration := closeReadings.2 },
          .loopIteration (clockAt 100)]).1.active_anomalies.length = 1 := by
  refine ⟨?_, ?_, ?_, ?_, ?_⟩
  · norm_num [closeReadings]
  · norm_num [closeReadings, harnessState, construct]
  · norm_num [closeReadings, harnessState, construct]
  · unfold concentrationKey
    rw [to_string_close_fst, to_string_close_snd]
  · rw [run_close_readings]
    rfl

/-- C19 (amended): for two concentration readings that both breach the ceiling and whose
renderings by `std::to_string` (six decimals) differ, the keys differ; detecting the first
makes its key active; and detecting the second in any state where the first key is still active
leaves both keys active, that is two distinct active records. -/
theorem c19_distinct_renderings_distinct_records (s t : State) (r1 r2 : ℚ) (now1 now2 : Int)
    (adm1 adm2 : Nat → Int) (h1 : r1 ≥ s.max_hydrogen_concentration)
    (h2 : r2 ≥ t.max_hydrogen_concentration) (hne : to_string r1 ≠ to_string r2)
    (ht : isActive (concentrationKey r1) t = true) :
    concentrationKey r1 ≠ concentrationKey r2 ∧
    isActive (concentrationKey r1) (checkAnomalies (withConcentration s r1) now1 adm1).1 = true ∧
    isActive (concentrationKey r1) (checkAnomalies (withConcentration t r2) now2 adm2).1 = true ∧
    isActive (concentrationKey r2) (checkAnomalies (withConcentration t r2) now2 adm2).1 = true := by
  refine ⟨fun h => hne (concentrationKey_injective r1 r2 h), ?_, ?_, ?_⟩
  · obtain ⟨p, hp, hd⟩ := concentration_mem_detect (withConcentration s r1) now1 h1
    have := checkAnomalies_isActive_of_mem (withConcentration s r1) now1 adm1 p hp
    rw [hd] at this
    exact this
  · exact checkAnomalies_isActive_mono _ _ _ _ ht
  · obtain ⟨p, hp, hd⟩ := concentration_mem_detect (withConcentration t r2) now2 h2
    have := checkAnomalies_isActive_of_mem (withConcentration t r2) now2 adm2 p hp
    rw [hd] at this
    exact this

/-- C19 (instance): the readings 1.2 and 2.2 in the harness controller, the second detected
while the record of the first is active. -/
theorem c19_distinct_renderings_distinct_records_witness :
    concentrationKey (6 / 5) ≠ concentrationKey (11 / 5) ∧
    isActive (concentrationKey (11 / 5))
      (checkAnomalies (withConcentration (concActiveState concStatus 0 []) (11 / 5)) 10
        (fun _ => 10)).1 = true :=
  ⟨(c19_distinct_renderings_distinct_records harnessState (concActiveState concStatus 0 [])
      (6 / 5) (11 / 5) 0 10 (fun _ => 0) (fun _ => 10)
      (by norm_num [harnessState, construct])
      (by norm_num [concActiveState, harnessState, construct])
      (by rw [to_string_six_fifths, to_string_eleven_fifths]; decide)
      (by unfold concentrationKey; rw [to_string_six_fifths]; decide)).1,
    (c19_distinct_renderings_distinct_records harnessState (concActiveState concStatus 0 [])
      (6 / 5) (11 / 5) 0 10 (fun _ => 0) (fun _ => 10)
      (by norm_num [harnessState, construct])
      (by norm_num [concActiveState, harnessState, construct])
      (by rw [to_string_six_fifths, to_string_eleven_fifths]; decide)
      (by unfold concentrationKey; rw [to_string_six_fifths]; decide)).2.2.2⟩

/-- C20: optional effectors.  For every state, every sequence of operations that registers no
callback, and every choice of which of the three sinks are registered: the run ends in the state
of the run with all three sinks registered, but for the callback members, so the active map
and the history (handled flags included) are the same for every two choices; and its trace is
the trace of the run with all sinks registered without the calls to the absent sinks.  Every
operation is a total function, so no choice makes one fail. -/
theorem c20_optional_effectors (s : State) (ops : List Op) (st ct sf : Bool)
    (hops : ∀ op ∈ ops, op.setsCallback = false) :
    (run (withSinks s st ct sf) ops).1 =
      withSinks (run (withSinks s true true true) ops).1 st ct sf ∧
    (run (withSinks s st ct sf) ops).2 =
      filterSinks st ct sf (run (withSinks s true true true) ops).2 ∧
    ∀ st2 ct2 sf2 : Bool,
      (run (withSinks s st ct sf) ops).1.active_anomalies =
        (run (withSinks s st2 ct2 sf2) ops).1.active_anomalies ∧
      (run (withSinks s st ct sf) ops).1.anomaly_history =
        (run (withSinks s st2 ct2 sf2) ops).1.anomaly_history := by
  have hall : AllSinks (withSinks s true true true) := ⟨rfl, rfl, rfl⟩
  have key : ∀ a b c : Bool, run (withSinks s a b c) ops =
      (withSinks (run (withSinks s true true true) ops).1 a b c,
        filterSinks a b c (run (withSinks s true true true) ops).2) :=
    fun a b c => run_withSinks (withSinks s true true true) hall a b c ops hops
  refine ⟨?_, ?_, ?_⟩
  · rw [key st ct sf]
  · rw [key st ct sf]
  · intro st2 ct2 sf2
    rw [key st ct sf, key st2 ct2 sf2]
    exact ⟨rfl, rfl⟩

/-- C20 (instance): the harness run that admits the concentration record, with no sink
registered, against the run with all of them. -/
theorem c20_optional_effectors_witness :
    (run (withSinks harnessState false false false)
        [.updateSystemStatus concStatus, .loopIteration (clockAt 0)]).1.active_anomalies =
      (run (withSinks harnessState true true true)
        [.updateSystemStatus concStatus, .loopIteration (clockAt 0)]).1.active_anomalies :=
  ((c20_optional_effectors harnessState
    [.updateSystemStatus concStatus, .loopIteration (clockAt 0)] false false false
    (by decide)).2.2 true true true).1

/-- C12: resolution correctness.  In a reachable state whose snapshot has the four fault flags
false, voltage and frequency strictly inside their bands and both hydrogen readings below their
ceilings, every active record is one the detector built, and one tick closes each of them that
is not a safety fault awaiting confirmation: no record is stored under its key afterwards, and
the history is the old history followed by the records closed by this tick, among them this
record with its end time set to the clock reading taken when it was closed. -/
theorem c12_nominal_tick_closes_records (s : State) (hs : Reachable s) (clock : TickClock)
    (hnom : NominalSnapshot s) (k : String) (a : AnomalyInfo)
    (ha : (k, a) ∈ s.active_anomalies)
    (hn : ¬ (a.type = AnomalyType.SAFETY_FAULT ∧ a.needs_manual_confirmation = true)) :
    DetectorProduced a ∧
    isActive k (tick s clock).1 = false ∧
    (tick s clock).1.anomaly_history =
      s.anomaly_history ++ (s.active_anomalies.filter fun p => isAnomalyResolved s p.2).map
        (fun p => { p.2 with end_time := clock.close p.1 }) ∧
    { a with end_time := clock.close k } ∈
      (s.active_anomalies.filter fun p => isAnomalyResolved s p.2).map
        (fun p => { p.2 with end_time := clock.close p.1 }) := by
  have hd : DetectorProduced a := reachable_detectorProduced s hs (k, a) ha
  rw [tick_nominal s clock hnom]
  exact ⟨hd, resolutionPass_closes s clock.close k a ha
    (isAnomalyResolved_of_nominal s hnom a hd hn)⟩

/-- C12 (instance): the harness after the inverter fault has cleared; the tick at time 7 closes
the inverter record. -/
theorem c12_nominal_tick_closes_records_witness :
    isActive "光伏逆变器故障" (tick pvClearedState (clockAt 7)).1 = false :=
  (c12_nominal_tick_closes_records pvClearedState reachable_pvCleared (clockAt 7)
    nominal_pvCleared "光伏逆变器故障" pvRecord (List.mem_singleton.mpr rfl)
    (by decide)).2.1

/-- C23: classification of grid anomalies.  Whenever 0.85 x nominal voltage is at least 51, which
is the case exactly when the nominal voltage is at least 60, `determineAnomalyLevel` returns
CRITICAL for every value of a grid anomaly, and every grid candidate of the detector, built from
a voltage or from a frequency, has level CRITICAL: WARNING and INFO do not occur. -/
theorem c23_grid_level_always_critical (s : State) (h : 0.85 * s.normal_voltage ≥ 51) :
    (∀ v : ℚ, determineAnomalyLevel s .GRID_FAULT v = .CRITICAL) ∧
    (∀ (now : Int), ∀ p ∈ detect s now,
      p.2.type = AnomalyType.GRID_FAULT → p.2.level = AnomalyLevel.CRITICAL) ∧
    (0.85 * s.normal_voltage ≥ 51 ↔ s.normal_voltage ≥ 60) := by
  have hall : ∀ v : ℚ, determineAnomalyLevel s .GRID_FAULT v = .CRITICAL := by
    intro v
    have hc : v ≥ 1.15 * s.normal_voltage ∨ v ≤ 0.85 * s.normal_voltage ∨ v ≥ 51.0 ∨ v ≤ 49.0 := by
      by_cases hv : v ≥ 51.0
      · exact Or.inr (Or.inr (Or.inl hv))
      · refine Or.inr (Or.inl ?_)
        have h1 : v < 51.0 := not_le.mp hv
        norm_num at h1
        linarith
    show (if v ≥ 1.15 * s.normal_voltage ∨ v ≤ 0.85 * s.normal_voltage ∨ v ≥ 51.0 ∨ v ≤ 49.0
      then AnomalyLevel.CRITICAL else _) = AnomalyLevel.CRITICAL
    rw [if_pos hc]
  refine ⟨hall, ?_, ?_⟩
  · intro now p hp ht
    unfold detect at hp
    simp only [List.mem_append] at hp
    rcases hp with ((((((hp | hp) | hp) | hp) | hp) | hp) | hp) | hp <;> split_ifs at hp <;>
      simp only [List.mem_singleton, List.not_mem_nil] at hp <;> subst hp
    · rfl
    · rfl
    · rfl
    · rfl
    · exact hall _
    · exact hall _
    · exact absurd ht (fun e => AnomalyType.noConfusion e)
    · exact absurd ht (fun e => AnomalyType.noConfusion e)
  · constructor
    · intro h1
      norm_num at h1
      linarith
    · intro h1
      norm_num
      linarith

/-- C23 (instance): the default nominal voltage 220 and a value of 50.6. -/
theorem c23_grid_level_always_critical_witness :
    determineAnomalyLevel (construct harnessStatus) .GRID_FAULT 50.6 = .CRITICAL :=
  (c23_grid_level_always_critical (construct harnessStatus)
    (by norm_num [construct])).1 50.6

/-- C26: the nominal-frequency parameter has no effect.  For every state, every snapshot in it
and every two calls of `setControlParameters` that differ in the nominal frequency only, the
detector proposes the same candidates, the classification of every value of every type is the
same, and the resolution predicate is the same for every record.  The frequency rule fires
exactly outside the open band 49.5 to 50.5, and a grid value at or beyond 49.0 or 51.0 is
CRITICAL, whatever the nominal frequency is. -/
theorem c26_nominal_frequency_has_no_effect (s : State) (nv nf1 nf2 mc mp : ℚ) (thr : Int) :
    (∀ now : Int, detect (step s (.setControlParameters nv nf1 mc mp thr)).1 now =
      detect (step s (.setControlParameters nv nf2 mc mp thr)).1 now) ∧
    (∀ (type : AnomalyType) (value : ℚ),
      determineAnomalyLevel (step s (.setControlParameters nv nf1 mc mp thr)).1 type value =
        determineAnomalyLevel (step s (.setControlParameters nv nf2 mc mp thr)).1 type value) ∧
    (∀ a : AnomalyInfo,
      isAnomalyResolved (step s (.setControlParameters nv nf1 mc mp thr)).1 a =
        isAnomalyResolved (step s (.setControlParameters nv nf2 mc mp thr)).1 a) ∧
    (∀ now : Int,
      ((detect (step s (.setControlParameters nv nf1 mc mp thr)).1 now).filter
          fun p => p.1 = 5).length =
        if s.current_status.grid_frequency ≥ 50.5 ∨ s.current_status.grid_frequency ≤ 49.5
          then 1 else 0) ∧
    (∀ value : ℚ, value ≥ 51.0 ∨ value ≤ 49.0 →
      determineAnomalyLevel (step s (.setControlParameters nv nf1 mc mp thr)).1 .GRID_FAULT
        value = .CRITICAL) := by
  refine ⟨fun _ => rfl, fun _ _ => rfl, fun _ => rfl, ?_, ?_⟩
  · intro now
    show ((detect _ now).filter fun p => p.1 = 5).length = _
    unfold detect
    simp only [List.filter_append, List.length_append, length_filter_rule]
    simp [step]
  · intro value hv
    show (if value ≥ 1.15 * nv ∨ value ≤ 0.85 * nv ∨ value ≥ 51.0 ∨ value ≤ 49.0
      then AnomalyLevel.CRITICAL else _) = AnomalyLevel.CRITICAL
    rw [if_pos (Or.inr (Or.inr hv))]

/-- C21 (counterexample): the recovery ramp runs inside the tick that closes the record.  In the
reachable harness state where the inverter-fault record is active and the fault has cleared,
the loop iteration that closes the record issues the 1201 setpoint commands of the record's
ramp on channel PV itself, before it returns. -/
theorem c21_tick_issues_the_ramp :
    Reachable pvClearedState ∧
    isActive "光伏逆变器故障" pvClearedState = true ∧
    isActive "光伏逆变器故障" (loopIteration pvClearedState (clockAt 7)).1 = false ∧
    controlCalls (loopIteration pvClearedState (clockAt 7)).2 =
      rampSetpoints.map (fun p => ("PV", p)) ∧
    (controlCalls (loopIteration pvClearedState (clockAt 7)).2).length = 1201 := by
  have hl : loopIteration pvClearedState (clockAt 7) = tick pvClearedState (clockAt 7) := by
    unfold loopIteration
    rw [if_pos (by decide), if_neg (by decide)]
  have e1 : controlCalls [Effect.status "异常已解除: 光伏逆变器故障",
      Effect.status "开始恢复系统出力: 光伏逆变器故障"] = [] := rfl
  have e2 : controlCalls [Effect.status "系统出力恢复完成: 光伏逆变器故障"] = [] := rfl
  have hc : controlCalls (tick pvClearedState (clockAt 7)).2 =
      rampSetpoints.map (fun p => ("PV", p)) := by
    rw [tick_pvCleared, controlCalls_append, controlCalls_append,
      controlCalls_rampLoop _ _ rfl, e1, e2, List.nil_append, List.append_nil]
  refine ⟨reachable_pvCleared, by decide, ?_, ?_, ?_⟩
  · rw [hl, tick_pvCleared]
    decide
  · rw [hl]
    exact hc
  · rw [hl, hc, List.length_map, rampSetpoints_length]

/-- C21 (amended): recovery is executed synchronously inside the operation that closes the
record.  In every reachable state, for every record that is active after the detection phase
of a tick and that the tick finds resolved, the record found in the history under the
record's description exists, and the complete sequence of effector calls of
`handleAnomalyRecovery` for it is a contiguous part of the trace of that same tick; if that
record is not gated by manual confirmation and its device is ramped, this part contains the
whole ramp.  Likewise the trace of `confirmSafetyAnomalyRecovery` ends with the complete
sequence of calls of `handleAnomalyRecovery` for what it reads back at line 515. -/
theorem c21_recovery_runs_inside_closing_operation (s : State) (hs : Reachable s)
    (clock : TickClock) (p : String × AnomalyInfo)
    (hp : p ∈ (checkAnomalies s clock.now clock.admitTime).1.active_anomalies)
    (hr : isAnomalyResolved (checkAnomalies s clock.now clock.admitTime).1 p.2 = true) :
    (∃ h, (tick s clock).1.anomaly_history.find? (fun x => x.description == p.1) = some h ∧
      List.IsInfix (handleAnomalyRecovery (checkAnomalies s clock.now clock.admitTime).1 h)
        (tick s clock).2 ∧
      ∀ channel : String,
        ¬(h.type = AnomalyType.SAFETY_FAULT ∧ h.needs_manual_confirmation = true) →
        rampChannel h.device_id = some channel →
        List.IsInfix (rampLoop (checkAnomalies s clock.now clock.admitTime).1 channel 0.0)
          (tick s clock).2) ∧
    ∀ (now : Int) (anomaly_id : String) (erased : AnomalyInfo),
      List.IsSuffix
          (if isActive anomaly_id (confirmSafetyAnomalyRecovery s now anomaly_id erased).1 =
              isActive anomaly_id s then []
            else handleAnomalyRecovery s erased)
        (confirmSafetyAnomalyRecovery s now anomaly_id erased).2 := by
  constructor
  · obtain ⟨h, h1, h2⟩ := tick_recovery_infix s hs clock p hp hr
    exact ⟨h, h1, h2, fun channel hg hch => (rampLoop_infix_recovery _ h channel hg hch).trans h2⟩
  · intro now anomaly_id erased
    cases hf : s.active_anomalies.find?
        (fun p => p.2.description == anomaly_id && p.2.type == AnomalyType.SAFETY_FAULT) with
    | none =>
      rw [confirm_of_none s now anomaly_id erased hf, if_pos rfl]
    | some q =>
      obtain ⟨id, a⟩ := q
      rw [confirm_of_some s now anomaly_id id a erased hf]
      split_ifs
      · exact List.nil_suffix
      · exact List.suffix_append _ _

/-- C21 (instance): the harness after the inverter fault has cleared; the tick at time 7 closes
the inverter record and its trace contains the ramp on channel PV. -/
theorem c21_recovery_runs_inside_closing_operation_witness :
    List.IsInfix (rampLoop pvClearedState "PV" 0.0) (tick pvClearedState (clockAt 7)).2 := by
  have hck : checkAnomalies pvClearedState (clockAt 7).now (clockAt 7).admitTime =
      (pvClearedState, []) := checkAnomalies_nominal _ _ _ nominal_pvCleared
  obtain ⟨⟨h, h1, -, h3⟩, -⟩ := c21_recovery_runs_inside_closing_operation pvClearedState
    reachable_pvCleared (clockAt 7) ("光伏逆变器故障", pvRecord)
    (by rw [hck]; exact List.mem_singleton.mpr rfl)
    (by rw [hck]; decide)
  rw [tick_pvCleared] at h1
  have hh : h = { pvRecord with end_time := 7 } := by
    have h0 : (some { pvRecord with end_time := 7 } : Option AnomalyInfo) = some h := h1
    injection h0 with h0
    exact h0.symm
  have h4 := h3 "PV" (by rw [hh]; decide) (by rw [hh]; decide)
  rw [hck] at h4
  exact h4

/-- C22 (the code differs): the ids the harness passes are not the keys the detector assigns.
With the harness parameters the record for a concentration of 1.2 is stored under
"氢浓度异常: 1.200000%" and the record for a tank pressure of 2.0 under
"氢罐压力异常: 2.000000MPa", because `std::to_string` prints six decimals.  While those
records are active, the two calls of the harness, with "氢浓度异常: 1.2%" and
"氢罐压力异常: 2.0MPa", change nothing and call nothing. -/
theorem c22_harness_ids_match_no_key :
    (run harnessState [.updateSystemStatus concStatus, .loopIteration (clockAt 0)]).1 =
      concActiveState concStatus 0 [] ∧
    (concActiveState concStatus 0 []).active_anomalies.map (fun p => p.1) =
      ["氢浓度异常: 1.200000%"] ∧
    (∀ erased : AnomalyInfo,
      confirmSafetyAnomalyRecovery (concActiveState concStatus 0 []) 500 "氢浓度异常: 1.2%"
          erased =
        (concActiveState concStatus 0 [], [])) ∧
    (run harnessState [.updateSystemStatus pressureStatus, .loopIteration (clockAt 0)]).1 =
      pressureActiveState ∧
    pressureActiveState.active_anomalies.map (fun p => p.1) = ["氢罐压力异常: 2.000000MPa"] ∧
    (∀ erased : AnomalyInfo,
      confirmSafetyAnomalyRecovery pressureActiveState 500 "氢罐压力异常: 2.0MPa" erased =
        (pressureActiveState, [])) ∧
    ∀ erased : AnomalyInfo,
      confirmSafetyAnomalyRecovery pressureActiveState 500 "氢浓度异常: 1.2%" erased =
        (pressureActiveState, []) := by
  rw [run_admits_conc, run_admits_pressure]
  refine ⟨rfl, rfl, ?_, rfl, rfl, ?_, ?_⟩
  · exact fun erased => confirm_of_none _ _ _ erased (by decide)
  · exact fun erased => confirm_of_none _ _ _ erased (by decide)
  · exact fun erased => confirm_of_none _ _ _ erased (by decide)

/-- C24 (counterexample): a candidate admitted late is handled.  In the harness, whose
threshold is 5000 ms, a loop iteration stamps the inverter-fault candidate at time 0 (line 82)
and `handleAnomaly` reads its own clock 6000 ms later (line 203), as when it has waited for the
lock on the active map: the record is stored with `is_handled = true` and the mitigation of
the inverter is dispatched.  All operations are public and the threshold is positive. -/
theorem c24_late_admission_dispatches :
    Reachable harnessState ∧
    0 < harnessState.anomaly_duration_threshold_ms ∧
    (∀ op ∈ [Op.updateSystemStatus pvStatus, Op.loopIteration lateClock],
      op.isPublic = true) ∧
    (run harnessState
        [.updateSystemStatus pvStatus, .loopIteration lateClock]).1.active_anomalies =
      [("光伏逆变器故障", { pvRecord with is_handled := true })] ∧
    (run harnessState [.updateSystemStatus pvStatus, .loopIteration lateClock]).2 =
      [Effect.mitigation "光伏逆变器故障", Effect.control "PV" 0,
        Effect.status "事故级异常: 光伏逆变器故障, 设备已停机"] := by
  rw [run_late_admission]
  exact ⟨reachable_harnessState, by decide, by decide, rfl, rfl⟩

/-- C24 (amended): the handled flag is written only at admission.  For a candidate whose key is
not active, `handleAnomaly` stores it with `is_handled` set, and enters the mitigation switch,
if and only if its age at admission is at least the persistence threshold, and it leaves the
records under all other keys as they are; for an active key it does nothing.  Every record that
is active after the resolution pass, or after `confirmSafetyAnomalyRecovery`, was active before
with the same fields.  In a state with a positive threshold and no handled record, a detection
phase that admits its candidates less than one millisecond after the reading they are stamped
with makes no effector call at all.  Consequently, after every sequence of public operations on
a fresh controller in which every threshold set is positive and every loop iteration admits
its candidates less than one millisecond after the reading they are stamped with, every active
record has `is_handled = false` and the mitigation switch, the only place where mitigation
effector calls are made, was never entered. -/
theorem c24_handled_flag_written_at_admission (status0 : SystemStatus) (ops : List Op)
    (hpub : ∀ op ∈ ops, op.isPublic = true) (hpos : ∀ op ∈ ops, op.positiveThreshold)
    (hst : ∀ op ∈ ops, op.stampsAdmission) :
    (∀ (s : State) (now : Int) (a : AnomalyInfo), isActive a.description s = false →
      (handleAnomaly s now a).1.active_anomalies.lookup a.description =
        some (if s.anomaly_duration_threshold_ms ≤ duration_cast_ms (now - a.start_time) then
          { a with is_handled := true } else a) ∧
      (Effect.mitigation a.description ∈ (handleAnomaly s now a).2 ↔
        s.anomaly_duration_threshold_ms ≤ duration_cast_ms (now - a.start_time)) ∧
      ∀ k : String, k ≠ a.description →
        (handleAnomaly s now a).1.active_anomalies.lookup k = s.active_anomalies.lookup k) ∧
    (∀ (s : State) (now : Int) (a : AnomalyInfo), isActive a.description s = true →
      handleAnomaly s now a = (s, [])) ∧
    (∀ (s : State) (close : String → Int),
      ∀ p ∈ (resolutionPass s close).1.active_anomalies, p ∈ s.active_anomalies) ∧
    (∀ (s : State) (now : Int) (anomaly_id : String) (erased : AnomalyInfo),
      ∀ p ∈ (confirmSafetyAnomalyRecovery s now anomaly_id erased).1.active_anomalies,
        p ∈ s.active_anomalies) ∧
    (∀ (s : State) (clock : TickClock), 0 < s.anomaly_duration_threshold_ms →
      (∀ i : Nat, clock.admitTime i - clock.now < periodsPerMs) →
      (∀ p ∈ s.active_anomalies, p.2.is_handled = false) →
      (checkAnomalies s clock.now clock.admitTime).2 = []) ∧
    (∀ p ∈ (run (construct status0) ops).1.active_anomalies, p.2.is_handled = false) ∧
    (∀ d : String, Effect.mitigation d ∉ (run (construct status0) ops).2) := by
  have hrun := run_unhandled (construct status0) ops hpub hpos hst (by norm_num [construct])
    (fun p hp => by simp [construct] at hp)
  refine ⟨fun s now a h => ⟨handleAnomaly_lookup_self s now a h,
      handleAnomaly_mitigation_iff s now a h, fun k hk => handleAnomaly_lookup_ne s now a k hk⟩,
    fun s now a h => handleAnomaly_of_active s now a h, resolutionPass_mem, confirm_mem, ?_,
    hrun.2, fun d hd => hrun.1 _ hd d rfl⟩
  intro s clock hthr hclock h
  refine (admitAll_unhandled s
    ((detect s clock.now).map fun p => (clock.admitTime p.1, p.2)) hthr ?_ h).1
  intro c hc
  obtain ⟨p, hp, rfl⟩ := List.mem_map.mp hc
  refine ⟨?_, detect_is_handled s clock.now p hp⟩
  show clock.admitTime p.1 - p.2.start_time < periodsPerMs
  rw [detect_start_time s clock.now p hp]
  exact hclock p.1

/-- C24 (instance): the harness after its set-up, the inverter fault and one loop iteration. -/
theorem c24_handled_flag_written_at_admission_witness :
    ((run (construct harnessStatus)
        (harnessSetup ++
          [.updateSystemStatus pvStatus, .loopIteration (clockAt 0)])).1.active_anomalies.all
      fun p => !p.2.is_handled) = true := by
  obtain ⟨-, -, -, -, -, h, -⟩ := c24_handled_flag_written_at_admission harnessStatus
    (harnessSetup ++ [.updateSystemStatus pvStatus, .loopIteration (clockAt 0)])
    (by decide)
    (by simp [harnessSetup, Op.positiveThreshold])
    (by simp [harnessSetup, Op.stampsAdmission, clockAt, periodsPerMs])
  rw [List.all_eq_true]
  intro p hp
  rw [h p hp]
  rfl

/-- C25 (the code differs): confirmation does not consult the snapshot, but the recovery it
runs is that of what it reads back from the erased map node.  In the reachable harness state
with the concentration record active and the reading still at 1.2, above the ceiling 1.0:
whatever snapshot is stored and whatever is read back, `confirmSafetyAnomalyRecovery` closes
the record, and its result is the same for every snapshot; its power commands are those of
`handleAnomalyRecovery` on what is read back at line 515: the 1201 commands of the HYDROGEN ramp
if that is the record as confirmed, none if the device name reads back empty.  Whatever is read
back, the key is active again after the next tick. -/
theorem c25_confirm_recovery_reads_erased_node :
    Reachable (concActiveState concStatus 0 []) ∧
    (concActiveState concStatus 0 []).current_status.hydrogen_concentration ≥
      (concActiveState concStatus 0 []).max_hydrogen_concentration ∧
    (∀ (status : SystemStatus) (erased : AnomalyInfo),
      confirmSafetyAnomalyRecovery
          (step (concActiveState concStatus 0 []) (.updateSystemStatus status)).1 500
          "氢浓度异常: 1.200000%" erased =
        ((step (confirmSafetyAnomalyRecovery (concActiveState concStatus 0 []) 500
            "氢浓度异常: 1.200000%" erased).1 (.updateSystemStatus status)).1,
          (confirmSafetyAnomalyRecovery (concActiveState concStatus 0 []) 500
            "氢浓度异常: 1.200000%" erased).2)) ∧
    (∀ erased : AnomalyInfo,
      isActive "氢浓度异常: 1.200000%"
        (confirmSafetyAnomalyRecovery (concActiveState concStatus 0 []) 500
          "氢浓度异常: 1.200000%" erased).1 = false) ∧
    (∀ erased : AnomalyInfo,
      controlCalls (confirmSafetyAnomalyRecovery (concActiveState concStatus 0 []) 500
          "氢浓度异常: 1.200000%" erased).2 =
        controlCalls (handleAnomalyRecovery (concActiveState concStatus 0 []) erased)) ∧
    controlCalls (handleAnomalyRecovery (concActiveState concStatus 0 []) confirmedRecord) =
      rampSetpoints.map (fun p => ("HYDROGEN", p)) ∧
    rampSetpoints.length = 1201 ∧
    controlCalls (handleAnomalyRecovery (concActiveState concStatus 0 [])
      { confirmedRecord with device_id := "" }) = [] ∧
    ∀ (erased : AnomalyInfo) (clock : TickClock),
      isActive "氢浓度异常: 1.200000%"
        (tick (confirmSafetyAnomalyRecovery (concActiveState concStatus 0 []) 500
          "氢浓度异常: 1.200000%" erased).1 clock).1 = true := by
  have hst : ∀ erased : AnomalyInfo,
      (confirmSafetyAnomalyRecovery (concActiveState concStatus 0 []) 500
          "氢浓度异常: 1.200000%" erased).1 =
        { harnessState with current_status := concStatus, anomaly_history := [confirmedRecord] } := by
    intro erased
    rw [confirm_of_some _ _ _ "氢浓度异常: 1.200000%" (concRecord 0) erased (by decide)]
    rfl
  refine ⟨reachable_concActive, by norm_num [concActiveState, concStatus, harnessState,
      harnessStatus, construct],
    fun status erased => confirm_status _ status 500 _ erased, ?_, ?_,
    controlCalls_recovery _ _ "HYDROGEN" (by decide) (by decide) rfl, rampSetpoints_length,
    ?_, ?_⟩
  · intro erased
    rw [hst]
    decide
  · intro erased
    rw [confirm_of_some _ _ _ "氢浓度异常: 1.200000%" (concRecord 0) erased (by decide),
      controlCalls_append, controlCalls_callStatus, List.nil_append]
  · unfold handleAnomalyRecovery
    rw [if_neg (by decide)]
    simp only [controlCalls_append, controlCalls_callStatus, List.nil_append, List.append_nil]
    rw [if_neg (by decide), if_neg (by decide), if_neg (by decide), if_neg (by decide),
      if_neg (by decide), if_neg (by decide)]
    rfl
  · intro erased clock
    have hr : Reachable (confirmSafetyAnomalyRecovery (concActiveState concStatus 0 []) 500
        "氢浓度异常: 1.200000%" erased).1 :=
      reachable_of_step _ reachable_concActive
        (.confirmSafetyAnomalyRecovery 500 "氢浓度异常: 1.200000%" erased) rfl
    refine tick_readmits_concentration _ hr clock _ ?_ ?_
    · rw [hst]
      exact concentrationKey_harness.symm
    · rw [hst]
      norm_num [concStatus, harnessState, harnessStatus, construct]

end AnomalyMonitoringController
